import Mathlib

/-!
The pidgin-sipe call negotiation engine (`src/core/sipe-media.c`)

A shallow embedding of the SDP parsing / formatting functions and of the call
handlers of `sipe-media.c`, followed by theorems about them.

Conventions of the embedding

* A C string is a `List Char` (`Str`); a `gchar *` that may be `NULL` is an
  `Option Str` (`CStr`).
* A function whose C body can dereference `NULL` or read a `g_strsplit` vector
  past its terminator returns `Option`; `none` stands for that undefined
  behaviour, `some r` for a normal return with result `r`.
* Machine integers are `Nat` / `Int`; a narrowing store (`guint16`, `guint32`)
  is written as an explicit `% 2 ^ w`.
* Calls into the SIP transport and into the media backend are recorded, in
  order, in the trace `sipe_core_private.trace`.
-/

namespace Sipe

/-! ## Strings and the glib / libc helpers used by the parsers -/

/-- C string without embedded NUL. -/
abbrev Str := List Char

/-- Nullable C string: `none` is the `NULL` pointer. -/
abbrev CStr := Option Str

/-- Prepend a character to the first token of a token list. -/
def consHead (c : Char) : List Str → List Str
  | [] => [[c]]
  | t :: ts => (c :: t) :: ts

/-- Scanning loop of glib `g_strsplit_set`: `n` tokens are already complete,
`unl` says that `max_tokens < 1` (no limit). A delimiter ends the current token
only while `n_tokens + 1 < max_tokens`. -/
def g_strsplit_set_go (delims : List Char) (unl : Bool) (max_tokens : Nat) :
    Str → Nat → List Str
  | [], _ => [[]]
  | c :: s, n =>
    if delims.contains c && (unl || decide (n + 1 < max_tokens)) then
      [] :: g_strsplit_set_go delims unl max_tokens s (n + 1)
    else
      consHead c (g_strsplit_set_go delims unl max_tokens s n)

/-- glib `g_strsplit_set (string, delimiters, max_tokens)`: the vector of tokens
(without the terminating `NULL`). The empty string gives the empty vector. -/
def g_strsplit_set (string : Str) (delims : List Char) (max_tokens : Nat) : List Str :=
  match string with
  | [] => []
  | _ => g_strsplit_set_go delims (decide (max_tokens < 1)) max_tokens string 0

/-- Scanning loop of glib `g_strsplit`: `skip` characters of a delimiter that
was just matched are still to be consumed, `k` further splits are allowed
(ignored when `unl`). -/
def g_strsplit_go (delim : Str) (unl : Bool) : Str → Nat → Nat → List Str
  | [], _, _ => [[]]
  | _ :: s, skip + 1, k => g_strsplit_go delim unl s skip k
  | c :: s, 0, k =>
    if (unl || decide (0 < k)) && delim.isPrefixOf (c :: s) then
      [] :: g_strsplit_go delim unl s (delim.length - 1) (k - 1)
    else
      consHead c (g_strsplit_go delim unl s 0 k)

/-- glib `g_strsplit (string, delimiter, max_tokens)` for a non-empty delimiter:
the pieces between the leftmost non-overlapping occurrences of the delimiter, at
most `max_tokens` of them when `max_tokens ≥ 1`; the empty string gives the
empty vector. -/
def g_strsplit (string : Str) (delim : Str) (max_tokens : Nat) : List Str :=
  match string with
  | [] => []
  | _ => g_strsplit_go delim (decide (max_tokens < 1)) string 0 (max_tokens - 1)

/-- Read `v[i]` of a `NULL`-terminated string vector: `some (some s)` for a
token, `some none` for the terminating `NULL` at index `length`, and `none`
(out-of-range read) beyond it. -/
def strv_get (v : List Str) (i : Nat) : Option CStr :=
  if i < v.length then some (v.get? i)
  else if i = v.length then some none
  else none

/-- glib `g_str_has_prefix`. -/
def g_str_has_prefix (s : Str) (p : Str) : Bool := p.isPrefixOf s

/-- The `sipe_strequal` helper: `NULL`-safe string equality. -/
def sipe_strequal (a b : CStr) : Bool := decide (a = b)

/-- glib `g_strcmp0 (a, b) == 0`: `NULL`-safe comparison, equal exactly when both
are `NULL` or both are the same string. -/
def g_strcmp0_eq (a b : CStr) : Bool := decide (a = b)

/-- C `isspace` in the "C" locale. -/
def isspace (c : Char) : Bool :=
  c = ' ' || c = '\t' || c = '\n' || c = '\r' || c.toNat = 11 || c.toNat = 12

/-- C `isdigit`. -/
def isdigit (c : Char) : Bool := decide ('0' ≤ c) && decide (c ≤ '9')

/-- The `[a-zA-Z0-9]` scan set of `sscanf`. -/
def isalnum (c : Char) : Bool :=
  isdigit c || (decide ('a' ≤ c) && decide (c ≤ 'z')) || (decide ('A' ≤ c) && decide (c ≤ 'Z'))

/-- Value of the leading decimal digits of a string, accumulated from `acc`. -/
def atoi_digits : Str → Nat → Nat
  | [], acc => acc
  | c :: s, acc => if isdigit c then atoi_digits s (acc * 10 + (c.toNat - 48)) else acc

/-- The part of `atoi` after the leading white space: optional sign, digits. -/
def atoi_signed : Str → Int
  | '-' :: s => - (atoi_digits s 0 : Int)
  | '+' :: s => (atoi_digits s 0 : Int)
  | s => (atoi_digits s 0 : Int)

/-- What glibc `strtol` returns for the mathematical value `v` of the digits read,
`long` being 64 bits wide: `LONG_MAX` or `LONG_MIN` when `v` is out of range. -/
def strtol_value (v : Int) : Int :=
  if 2 ^ 63 ≤ v then 2 ^ 63 - 1 else if v < -(2 ^ 63) then -(2 ^ 63) else v

/-- The conversion `(int)` of a `long`: the value modulo 2^32 in the range of a
32-bit `int`. -/
def int_of_long (v : Int) : Int := (v + 2 ^ 31) % 2 ^ 32 - 2 ^ 31

/-- The value fits a C `int` (32 bits). -/
def is_int (i : Int) : Prop := -(2 ^ 31) ≤ i ∧ i < 2 ^ 31

/-- libc `atoi` on a non-`NULL` string, which is `(int) strtol (s, NULL, 10)`:
skip white space, read an optional sign and the leading digits (0 when there are
none); the result is a C `int`. -/
def atoi_str (s : Str) : Int :=
  int_of_long (strtol_value (atoi_signed (s.dropWhile isspace)))

/-- libc `atoi`: undefined (a `NULL` dereference) on `NULL`. -/
def atoi (s : CStr) : Option Int := s.map atoi_str

/-- Decimal digit character. -/
def digitChar (d : Nat) : Char := Char.ofNat (48 + d % 10)

/-- Digits of `n` in front of `acc`, most significant first (`fuel` bounds the
number of digits). -/
def fmt_u_go : Nat → Nat → Str → Str
  | 0, _, acc => acc
  | fuel + 1, n, acc =>
    if n < 10 then digitChar n :: acc
    else fmt_u_go fuel (n / 10) (digitChar n :: acc)

/-- The text `printf` produces for `%u` (and for `%d` on a non-negative value). -/
def fmt_u (n : Nat) : Str := fmt_u_go (n + 1) n []

/-- The text `printf` produces for `%d`. -/
def fmt_d (i : Int) : Str :=
  if i < 0 then '-' :: fmt_u i.natAbs else fmt_u i.natAbs

/-- The text glibc `printf` produces for `%s`: a `NULL` argument prints as
`(null)`. -/
def fmt_s (s : CStr) : Str := s.getD "(null)".toList

/-! ## Data model -/

/-- Modelled from the spec: the media kind of a codec (`SipeMediaType`, declared
in the absent `sipe-backend.h`); only audio is used by the call engine. -/
inductive SipeMediaType where
  | SIPE_MEDIA_AUDIO
  | SIPE_MEDIA_VIDEO
  deriving DecidableEq, Repr

/-- Modelled from the spec: the component of a candidate (`SipeComponentType`,
declared in the absent `sipe-backend.h`): RTP, RTCP or none. -/
inductive SipeComponentType where
  | SIPE_COMPONENT_NONE
  | SIPE_COMPONENT_RTP
  | SIPE_COMPONENT_RTCP
  deriving DecidableEq, Repr

/-- Modelled from the spec: the numeric value of a component, which is its
component id (component-id 1 is RTP, 2 is RTCP, none is 0). -/
def SipeComponentType.toNat : SipeComponentType → Nat
  | .SIPE_COMPONENT_NONE => 0
  | .SIPE_COMPONENT_RTP => 1
  | .SIPE_COMPONENT_RTCP => 2

/-- Modelled from the spec: the type of a candidate (`SipeCandidateType`,
declared in the absent `sipe-backend.h`). -/
inductive SipeCandidateType where
  | SIPE_CANDIDATE_TYPE_HOST
  | SIPE_CANDIDATE_TYPE_RELAY
  | SIPE_CANDIDATE_TYPE_SRFLX
  | SIPE_CANDIDATE_TYPE_PRFLX
  deriving DecidableEq, Repr

/-- Modelled from the spec: the transport protocol of a candidate
(`SipeNetworkProtocol`, declared in the absent `sipe-backend.h`). -/
inductive SipeNetworkProtocol where
  | SIPE_NETWORK_PROTOCOL_TCP
  | SIPE_NETWORK_PROTOCOL_UDP
  deriving DecidableEq, Repr

/-- One element of a name/value list (`struct sipnameval`). -/
structure sipnameval where
  name : Str
  value : Str
  deriving DecidableEq, Repr

/-- Codec descriptor held by the backend (`struct sipe_backend_codec`): payload
id, encoding name, clock rate, media kind and the ordered optional parameters. -/
structure sipe_backend_codec where
  id : Int
  name : CStr
  clock_rate : Int
  type : SipeMediaType
  optional_parameters : List sipnameval
  deriving DecidableEq, Repr

/-- Candidate held by the backend (`struct sipe_backend_candidate`). -/
structure sipe_backend_candidate where
  foundation : CStr
  component : SipeComponentType
  type : SipeCandidateType
  protocol : SipeNetworkProtocol
  ip : CStr
  port : Nat
  priority : Nat
  username : CStr
  password : CStr
  base_ip : CStr
  base_port : Nat
  deriving DecidableEq, Repr

/-- Modelled from the spec: `sipe_backend_codec_new (id, name, clock_rate, type)`
as `sipe_media_parse_codecs` calls it (the backend of this revision is not among
the sources): a codec with these fields and no optional parameter. -/
def sipe_backend_codec_new (id : Int) (name : CStr) (clock_rate : Int)
    (type : SipeMediaType) : sipe_backend_codec :=
  { id := id, name := name, clock_rate := clock_rate, type := type,
    optional_parameters := [] }

/-- Modelled from the spec: `sipe_backend_codec_add_optional_parameter`: the
parameter is appended to the codec's ordered parameter list. -/
def sipe_backend_codec_add_optional_parameter (codec : sipe_backend_codec)
    (name value : Str) : sipe_backend_codec :=
  { codec with optional_parameters := codec.optional_parameters ++ [⟨name, value⟩] }

/-- Modelled from the spec: `sipe_backend_candidate_new (foundation, component,
type, proto, ip, port)` as `sipe-media.c` calls it: a candidate with these
fields, priority 0 and neither credentials nor base address. -/
def sipe_backend_candidate_new (foundation : CStr) (component : SipeComponentType)
    (type : SipeCandidateType) (proto : SipeNetworkProtocol) (ip : CStr) (port : Nat) :
    sipe_backend_candidate :=
  { foundation := foundation, component := component, type := type, protocol := proto,
    ip := ip, port := port, priority := 0, username := none, password := none,
    base_ip := none, base_port := 0 }

/-- The backend setter `sipe_backend_candidate_set_priority`. -/
def sipe_backend_candidate_set_priority (c : sipe_backend_candidate) (priority : Nat) :
    sipe_backend_candidate :=
  { c with priority := priority }

/-- Modelled from the spec: `sipe_backend_candidate_set_username_and_pwd`: the
ICE credentials are stamped onto the candidate. -/
def sipe_backend_candidate_set_username_and_pwd (c : sipe_backend_candidate)
    (username password : CStr) : sipe_backend_candidate :=
  { c with username := username, password := password }

/-! ## SDP attribute set -/

/-- Modelled from the spec: `sipe_utils_nameval_add` (in the absent
`sipe-utils.c`): the attribute set is an ordered, key-repeatable mapping from
attribute name to raw value, so the pair is appended; an attribute line without
a value (`NULL`) is kept with the empty raw value. -/
def sipe_utils_nameval_add (list : List sipnameval) (name : Str) (value : CStr) :
    List sipnameval :=
  list ++ [⟨name, value.getD []⟩]

/-- Modelled from the spec: `sipe_utils_nameval_find_instance` (in the absent
`sipe-utils.c`): the "find N-th occurrence of key" lookup, `NULL` when there is
no such occurrence. -/
def sipe_utils_nameval_find_instance : List sipnameval → Str → Nat → CStr
  | [], _, _ => none
  | e :: l, name, which =>
    if e.name = name then
      match which with
      | 0 => some e.value
      | w + 1 => sipe_utils_nameval_find_instance l name w
    else sipe_utils_nameval_find_instance l name which

/-- Modelled from the spec: `sipe_utils_nameval_find`: the "find first" lookup. -/
def sipe_utils_nameval_find (list : List sipnameval) (name : Str) : CStr :=
  sipe_utils_nameval_find_instance list name 0

/-- The values `sipe_utils_nameval_find_instance (list, name, i)` returns for
`i = 0, 1, 2, ...` until it returns `NULL`: what a loop
`while ((attr = sipe_utils_nameval_find_instance(list, name, i++)))` visits. -/
def nameval_instances (list : List sipnameval) (name : Str) : List Str :=
  (list.filter (fun e => decide (e.name = name))).map (fun e => e.value)

/-! ## Codec parsing and pruning -/

/-- The call `sscanf (tok, "%[a-zA-Z0-9]=%s", name, value) == 2` of
`sipe_media_parse_codecs`, with `gchar name[50]` and `gchar value[50]`:
`some (some (name, value))` when both conversions succeed, `some none` when
fewer than two do, and `none` when a conversion writes more than 50 bytes
(49 characters and the terminator) into its buffer. -/
def sscanf_name_value (tok : Str) : Option (Option (Str × Str)) :=
  let name := tok.takeWhile isalnum
  let rest := tok.dropWhile isalnum
  if name = [] then some none
  else if 50 ≤ name.length then none
  else
    match rest with
    | '=' :: r =>
      let value := (r.dropWhile isspace).takeWhile (fun c => !isspace c)
      if value = [] then some none
      else if 50 ≤ value.length then none
      else some (some (name, value))
    | _ => some none

/-- Inner `while (*next)` loop of `sipe_media_parse_codecs`: every remaining
token of one `fmtp` attribute that scans as `name=value` is added to the codec. -/
def parse_fmtp_tokens : List Str → sipe_backend_codec → Option sipe_backend_codec
  | [], codec => some codec
  | tok :: next, codec =>
    match sscanf_name_value tok with
    | none => none
    | some none => parse_fmtp_tokens next codec
    | some (some (name, value)) =>
      parse_fmtp_tokens next (sipe_backend_codec_add_optional_parameter codec name value)

/-- The `while ((params = ...find_instance(sdp_attrs, "fmtp", j++)))` loop of
`sipe_media_parse_codecs` over the `fmtp` values: an attribute whose leading
`atoi (tokens[0])` equals the codec id contributes its parameter tokens. -/
def parse_fmtp_attrs (id : Int) : List Str → sipe_backend_codec → Option sipe_backend_codec
  | [], codec => some codec
  | params :: rest, codec =>
    let tokens := g_strsplit_set params [' '] 0
    match strv_get tokens 0 with
    | none => none
    | some t0 =>
      match atoi t0 with
      | none => none
      | some v =>
        if v = id then
          match parse_fmtp_tokens (tokens.drop 1) codec with
          | none => none
          | some codec1 => parse_fmtp_attrs id rest codec1
        else parse_fmtp_attrs id rest codec

/-- Body of the outer loop of `sipe_media_parse_codecs` for one `rtpmap` value:
`tokens = g_strsplit_set (attr, " /", 3)`, id `atoi (tokens[0])`, name
`tokens[1]`, clock rate `atoi (tokens[2])`, then the `fmtp` scan. -/
def parse_rtpmap (fmtps : List Str) (attr : Str) : Option sipe_backend_codec :=
  let tokens := g_strsplit_set attr [' ', '/'] 3
  match strv_get tokens 0, strv_get tokens 1, strv_get tokens 2 with
  | some t0, some t1, some t2 =>
    match atoi t0, atoi t2 with
    | some id, some clock_rate =>
      parse_fmtp_attrs id fmtps
        (sipe_backend_codec_new id t1 clock_rate SipeMediaType.SIPE_MEDIA_AUDIO)
    | _, _ => none
  | _, _, _ => none

/-- Outer loop of `sipe_media_parse_codecs` over the `rtpmap` values. -/
def parse_rtpmaps (fmtps : List Str) : List Str → Option (List sipe_backend_codec)
  | [] => some []
  | attr :: rest =>
    match parse_rtpmap fmtps attr with
    | none => none
    | some codec =>
      match parse_rtpmaps fmtps rest with
      | none => none
      | some codecs => some (codec :: codecs)

/-- The function `sipe_media_parse_codecs (sdp_attrs)`. -/
def sipe_media_parse_codecs (sdp_attrs : List sipnameval) : Option (List sipe_backend_codec) :=
  parse_rtpmaps (nameval_instances sdp_attrs "fmtp".toList)
    (nameval_instances sdp_attrs "rtpmap".toList)

/-- The comparison `codec_name_compare (codec1, codec2) == 0`: `g_strcmp0` of the
two encoding names. -/
def codec_name_compare (codec1 codec2 : sipe_backend_codec) : Bool :=
  g_strcmp0_eq codec1.name codec2.name

/-- The test `g_list_find_custom (list, c, codec_name_compare) != NULL`: some
element of the list compares equal to `c`. -/
def g_list_find_custom (list : List sipe_backend_codec) (c : sipe_backend_codec) : Bool :=
  match list with
  | [] => false
  | d :: l => if codec_name_compare d c then true else g_list_find_custom l c

/-- The function `sipe_media_prune_remote_codecs (local_codecs, remote_codecs)`:
walks the remote list and appends to the result each codec found in the local
list by name. -/
def sipe_media_prune_remote_codecs (local_codecs : List sipe_backend_codec) :
    List sipe_backend_codec → List sipe_backend_codec
  | [] => []
  | c :: remote_codecs =>
    if g_list_find_custom local_codecs c then
      c :: sipe_media_prune_remote_codecs local_codecs remote_codecs
    else sipe_media_prune_remote_codecs local_codecs remote_codecs

/-! ## Candidate parsing -/

/-- The function `sipe_media_parse_remote_candidates_legacy (remote_ip, remote_port)`. -/
def sipe_media_parse_remote_candidates_legacy (remote_ip : CStr) (remote_port : Nat) :
    List sipe_backend_candidate :=
  [ sipe_backend_candidate_new (some "foundation".toList)
      SipeComponentType.SIPE_COMPONENT_RTP SipeCandidateType.SIPE_CANDIDATE_TYPE_HOST
      SipeNetworkProtocol.SIPE_NETWORK_PROTOCOL_UDP remote_ip remote_port,
    sipe_backend_candidate_new (some "foundation".toList)
      SipeComponentType.SIPE_COMPONENT_RTCP SipeCandidateType.SIPE_CANDIDATE_TYPE_HOST
      SipeNetworkProtocol.SIPE_NETWORK_PROTOCOL_UDP remote_ip (remote_port + 1) ]

/-- The `switch (atoi (tokens[1]))` of `sipe_media_parse_remote_candidates`. -/
def component_of_id (id : Int) : SipeComponentType :=
  if id = 1 then SipeComponentType.SIPE_COMPONENT_RTP
  else if id = 2 then SipeComponentType.SIPE_COMPONENT_RTCP
  else SipeComponentType.SIPE_COMPONENT_NONE

/-- The `if / else if` chain on `tokens[7]` of
`sipe_media_parse_remote_candidates`: `none` is the final `else` (drop). -/
def candidate_type_of (t : CStr) : Option SipeCandidateType :=
  if sipe_strequal t (some "host".toList) then some SipeCandidateType.SIPE_CANDIDATE_TYPE_HOST
  else if sipe_strequal t (some "relay".toList) then some SipeCandidateType.SIPE_CANDIDATE_TYPE_RELAY
  else if sipe_strequal t (some "srflx".toList) then some SipeCandidateType.SIPE_CANDIDATE_TYPE_SRFLX
  else if sipe_strequal t (some "prflx".toList) then some SipeCandidateType.SIPE_CANDIDATE_TYPE_PRFLX
  else none

/-- Loop body of `sipe_media_parse_remote_candidates` for one `candidate` value:
`some (some c)` when a candidate is appended, `some none` when the attribute is
skipped by `continue`, `none` when a token is read out of range or `atoi` is
given `NULL`. -/
def parse_candidate (attr : Str) : Option (Option sipe_backend_candidate) :=
  let tokens := g_strsplit_set attr [' '] 0
  match strv_get tokens 0, strv_get tokens 1 with
  | some foundation, some t1 =>
    match atoi t1 with
    | none => none
    | some cid =>
      let component := component_of_id cid
      match strv_get tokens 2 with
      | none => none
      | some t2 =>
        if sipe_strequal t2 (some "UDP".toList) then
          match strv_get tokens 3, strv_get tokens 4, strv_get tokens 5, strv_get tokens 7 with
          | some t3, some ip, some t5, some t7 =>
            match atoi t3, atoi t5 with
            | some prio, some p =>
              let priority := (prio % 2 ^ 32).toNat
              let port := (p % 2 ^ 16).toNat
              match candidate_type_of t7 with
              | none => some none
              | some type =>
                some (some (sipe_backend_candidate_set_priority
                  (sipe_backend_candidate_new foundation component type
                    SipeNetworkProtocol.SIPE_NETWORK_PROTOCOL_UDP ip port) priority))
            | _, _ => none
          | _, _, _, _ => none
        else some none
  | _, _ => none

/-- The `while` loop of `sipe_media_parse_remote_candidates` over the `candidate`
values. -/
def parse_candidates : List Str → Option (List sipe_backend_candidate)
  | [] => some []
  | attr :: rest =>
    match parse_candidate attr with
    | none => none
    | some oc =>
      match parse_candidates rest with
      | none => none
      | some cs =>
        match oc with
        | none => some cs
        | some c => some (c :: cs)

/-- The function `sipe_media_parse_remote_candidates (sdp_attrs)`: when an
`ice-ufrag` attribute is present, its value and the `ice-pwd` value are stamped
on every candidate. -/
def sipe_media_parse_remote_candidates (sdp_attrs : List sipnameval) :
    Option (List sipe_backend_candidate) :=
  let username := sipe_utils_nameval_find sdp_attrs "ice-ufrag".toList
  let password := sipe_utils_nameval_find sdp_attrs "ice-pwd".toList
  match parse_candidates (nameval_instances sdp_attrs "candidate".toList) with
  | none => none
  | some candidates =>
    match username with
    | some _ =>
      some (candidates.map (fun c => sipe_backend_candidate_set_username_and_pwd c username password))
    | none => some candidates

/-! ## SDP formatting -/

/-- The function `sipe_media_sdp_codec_ids_format (codecs)`: `" %d"` per codec. -/
def sipe_media_sdp_codec_ids_format : List sipe_backend_codec → Str
  | [] => []
  | c :: codecs => " ".toList ++ fmt_d c.id ++ sipe_media_sdp_codec_ids_format codecs

/-- The inner `while (params)` loop of `sipe_media_sdp_codecs_format`:
`" %s=%s"` per optional parameter. -/
def sdp_codec_params_format : List sipnameval → Str
  | [] => []
  | par :: params =>
    " ".toList ++ par.name ++ "=".toList ++ par.value ++ sdp_codec_params_format params

/-- The function `sipe_media_sdp_codecs_format (codecs)`: one `a=rtpmap:` line per
codec and, when the codec has optional parameters, one `a=fmtp:` line. -/
def sipe_media_sdp_codecs_format : List sipe_backend_codec → Str
  | [] => []
  | c :: codecs =>
    "a=rtpmap:".toList ++ fmt_d c.id ++ " ".toList ++ fmt_s c.name ++ "/".toList
      ++ fmt_d c.clock_rate ++ "\r\n".toList
      ++ (match c.optional_parameters with
          | [] => []
          | params =>
            "a=fmtp:".toList ++ fmt_d c.id ++ sdp_codec_params_format params ++ "\r\n".toList)
      ++ sipe_media_sdp_codecs_format codecs

/-- The comparison `candidate_compare_by_component_id (c1, c2) <= 0`. -/
def candidate_compare_by_component_id (c1 c2 : sipe_backend_candidate) : Prop :=
  c1.component.toNat ≤ c2.component.toNat

instance : DecidableRel candidate_compare_by_component_id :=
  fun c1 c2 => inferInstanceAs (Decidable (c1.component.toNat ≤ c2.component.toNat))

/-- Modelled from the spec: the stream handle the backend returns from
`sipe_backend_media_add_stream (media, participant, type, using_nice, initiator)`:
participant id, connectivity-check enabled flag and initiator flag (`id`
distinguishes streams added one after the other). -/
structure sipe_backend_stream where
  id : Nat
  participant : CStr
  using_nice : Bool
  initiator : Bool
  deriving DecidableEq, Repr

/-- Modelled from the spec: the media backend collaborator as the call engine
sees it (`struct sipe_backend_media`; the backend of this revision is not among
the sources). The fields are what its queries report: the initiator flag given
to `sipe_backend_media_new`, the streams added and not removed, the local codecs
(already filtered by the backend), whether `sipe_backend_set_remote_codecs`
succeeds, and the active-local, local and active-remote candidate lists. -/
structure sipe_backend_media where
  initiator : Bool
  streams : List sipe_backend_stream
  next_stream_id : Nat
  local_codecs : List sipe_backend_codec
  set_remote_codecs_ok : Bool
  active_local_candidates : List sipe_backend_candidate
  local_candidates : List sipe_backend_candidate
  active_remote_candidates : List sipe_backend_candidate
  deriving DecidableEq, Repr

/-- The legacy-mode loop of `sipe_media_sdp_candidates_format`: the port of the
first candidate of type host and component RTP is stored in the `guint16`
`*local_port`; without such a candidate `*local_port` keeps its value. -/
def legacy_local_port : List sipe_backend_candidate → Nat → Nat
  | [], local_port => local_port
  | c :: cand, local_port =>
    if c.type = SipeCandidateType.SIPE_CANDIDATE_TYPE_HOST
        ∧ c.component = SipeComponentType.SIPE_COMPONENT_RTP then c.port % 2 ^ 16
    else legacy_local_port cand local_port

/-- The protocol text chosen by `switch (sipe_backend_candidate_get_protocol (c))`. -/
def protocol_text : SipeNetworkProtocol → Str
  | .SIPE_NETWORK_PROTOCOL_TCP => "TCP".toList
  | .SIPE_NETWORK_PROTOCOL_UDP => "UDP".toList

/-- The type text chosen by `switch (sipe_backend_candidate_get_type (c))`. -/
def type_text : SipeCandidateType → Str
  | .SIPE_CANDIDATE_TYPE_HOST => "host".toList
  | .SIPE_CANDIDATE_TYPE_RELAY => "relay".toList
  | .SIPE_CANDIDATE_TYPE_SRFLX => "srflx".toList
  | .SIPE_CANDIDATE_TYPE_PRFLX => "prflx".toList

/-- The `related` text of one candidate: `raddr %s rport %d` for a
server-reflexive candidate, empty (`related == NULL`) otherwise. -/
def related_text (c : sipe_backend_candidate) : Str :=
  match c.type with
  | .SIPE_CANDIDATE_TYPE_SRFLX =>
    "raddr ".toList ++ fmt_s c.base_ip ++ " rport ".toList ++ fmt_u c.base_port
  | _ => []

/-- The `a=candidate:%s %u %s %u %s %d typ %s %s\r\n` line of
`sipe_media_sdp_candidates_format` for one local candidate (`port` is the
`guint16` local of the loop body). -/
def candidate_line (c : sipe_backend_candidate) : Str :=
  "a=candidate:".toList ++ fmt_s c.foundation ++ " ".toList ++ fmt_u c.component.toNat
    ++ " ".toList ++ protocol_text c.protocol ++ " ".toList ++ fmt_u c.priority
    ++ " ".toList ++ fmt_s c.ip ++ " ".toList ++ fmt_u (c.port % 2 ^ 16)
    ++ " typ ".toList ++ type_text c.type ++ " ".toList ++ related_text c ++ "\r\n".toList

/-- State of the `for (cand = l_candidates; ...)` loop of
`sipe_media_sdp_candidates_format`: the text appended so far and the two
`guint16` ports. -/
structure cand_fmt_state where
  result : Str
  local_port : Nat
  rtcp_port : Nat
  deriving DecidableEq, Repr

/-- The `for (cand = l_candidates; ...)` loop of
`sipe_media_sdp_candidates_format` in non-legacy mode: a line per candidate; a
host candidate stores its port in `*local_port` (RTP) or `rtcp_port` (RTCP). -/
def candidates_loop : List sipe_backend_candidate → cand_fmt_state → cand_fmt_state
  | [], st => st
  | c :: cand, st =>
    let port := c.port % 2 ^ 16
    let st1 : cand_fmt_state :=
      if c.type = SipeCandidateType.SIPE_CANDIDATE_TYPE_HOST then
        if c.component = SipeComponentType.SIPE_COMPONENT_RTP then
          { st with local_port := port }
        else if c.component = SipeComponentType.SIPE_COMPONENT_RTCP then
          { st with rtcp_port := port }
        else st
      else st
    candidates_loop cand { st1 with result := st1.result ++ candidate_line c }

/-- The `"%u %s %u "` entries of the `a=remote-candidates:` line. -/
def remote_candidates_entries : List sipe_backend_candidate → Str
  | [] => []
  | c :: cand =>
    fmt_u c.component.toNat ++ " ".toList ++ fmt_s c.ip ++ " ".toList ++ fmt_u c.port
      ++ " ".toList ++ remote_candidates_entries cand

/-- The list `l_candidates` of `sipe_media_sdp_candidates_format`: the active
local candidates, or every local candidate when there is no active one. -/
def l_candidates_of (backend_media : sipe_backend_media) : List sipe_backend_candidate :=
  match backend_media.active_local_candidates with
  | [] => backend_media.local_candidates
  | l => l

/-- The function `sipe_media_sdp_candidates_format (call_private, &local_port)`,
on the fields of the call it reads: the backend and `legacy_mode`. Returns the
text and the new value of `*local_port`; `none` when the non-legacy branch
dereferences the head of an empty local candidate list. -/
def sipe_media_sdp_candidates_format (backend_media : sipe_backend_media)
    (legacy_mode : Bool) (local_port : Nat) : Option (Str × Nat) :=
  let l_candidates := l_candidates_of backend_media
  if legacy_mode then
    some ([], legacy_local_port l_candidates local_port)
  else
    match l_candidates with
    | [] => none
    | first :: _ =>
      let result := "a=ice-ufrag:".toList ++ fmt_s first.username ++ "\r\na=ice-pwd:".toList
        ++ fmt_s first.password ++ "\r\n".toList
      let st := candidates_loop l_candidates
        { result := result, local_port := local_port, rtcp_port := 0 }
      let r_candidates :=
        List.insertionSort candidate_compare_by_component_id
          backend_media.active_remote_candidates
      let result1 :=
        match r_candidates with
        | [] => st.result
        | _ => st.result ++ "a=remote-candidates:".toList
                 ++ remote_candidates_entries r_candidates ++ "\r\n".toList
      let result2 :=
        if st.rtcp_port ≠ 0 then
          result1 ++ "a=maxptime:200\r\na=rtcp:".toList ++ fmt_u st.rtcp_port ++ "\r\n".toList
        else result1
      some (result2, st.local_port)

/-! ## SIP messages, dialogs and the call session -/

/-- A SIP message (`struct sipmsg`), with the fields the call engine reads:
response code and reason phrase, the header list and the body. -/
structure sipmsg where
  response : Int
  responsestr : CStr
  headers : List sipnameval
  body : CStr
  deriving DecidableEq, Repr

/-- Modelled from the spec: `sipmsg_find_header` (absent `sipmsg.c`): first
header of that name, `NULL` when there is none. -/
def sipmsg_find_header (msg : sipmsg) (name : Str) : CStr :=
  sipe_utils_nameval_find msg.headers name

/-- Modelled from the spec: `sipmsg_add_header` (absent `sipmsg.c`): the header is
appended to the message. -/
def sipmsg_add_header (msg : sipmsg) (name value : Str) : sipmsg :=
  { msg with headers := sipe_utils_nameval_add msg.headers name (some value) }

/-- The transaction callbacks `sipe-media.c` registers with an INVITE. -/
inductive TransCallback where
  | process_invite_call_response
  | sipe_media_send_ack
  deriving DecidableEq, Repr

/-- An outstanding request (`struct transaction`): its key and its callback. -/
structure transaction where
  key : Str
  callback : TransCallback
  deriving DecidableEq, Repr

/-- The SIP dialog of a call (`struct sip_dialog`), with the fields the call
engine uses; the field `with` of the C struct is named `with_`. -/
structure sip_dialog where
  callid : CStr
  with_ : CStr
  ourtag : CStr
  cseq : Int
  outgoing_invite : Option transaction
  deriving DecidableEq, Repr

/-- The chat session owning a dialog (`struct sip_session`), reduced to its
call id. -/
structure sip_session where
  callid : CStr
  deriving DecidableEq, Repr

/-- The call session, `struct sipe_media_call_private` with the data fields of
its public part `struct sipe_media_call` (`remote_codecs`, `local_on_hold`,
`remote_on_hold`, `backend_private`). The six callback fields always hold the
handlers below and are not represented. `freed` is a ghost field: it is set
when the C code has released the struct with `g_free`. -/
structure sipe_media_call_private where
  backend_private : sipe_backend_media
  remote_codecs : List sipe_backend_codec
  local_on_hold : Bool
  remote_on_hold : Bool
  session : Option sip_session
  dialog : Option sip_dialog
  voice_stream : Option sipe_backend_stream
  remote_ip : CStr
  remote_port : Nat
  sdp_attrs : List sipnameval
  invitation : Option sipmsg
  remote_candidates : List sipe_backend_candidate
  legacy_mode : Bool
  using_nice : Bool
  freed : Bool
  deriving DecidableEq, Repr

/-- One observable action of the call engine on its collaborators: a message
handed to the SIP transport or a command given to the media backend or to the
user interface. -/
inductive effect where
  | sip_transport_response (msg : sipmsg) (code : Nat) (text : Str) (body : CStr)
  | sip_transport_invite (hdr : Str) (body : Str) (dialog : sip_dialog) (tc : TransCallback)
  | sip_transport_ack (dialog : sip_dialog)
  | sip_transport_bye (dialog : Option sip_dialog)
  | sip_transport_request (method : Str) (url to_ : CStr) (addheaders : Str) (body : CStr)
      (dialog : sip_dialog)
  | sipe_backend_media_reject (is_local : Bool)
  | sipe_backend_media_hold (is_local : Bool)
  | sipe_backend_media_unhold (is_local : Bool)
  | sipe_backend_notify_error (title desc : Str)
  | sipe_backend_media_add_stream (stream : sipe_backend_stream)
  | sipe_backend_media_remove_stream (stream : Option sipe_backend_stream)
  | sipe_backend_media_add_remote_candidates (stream : Option sipe_backend_stream)
      (candidates : List sipe_backend_candidate)
  | sipe_backend_set_remote_codecs (stream : Option sipe_backend_stream)
      (codecs : List sipe_backend_codec)
  deriving DecidableEq, Repr

/-- The local endpoint, `struct sipe_core_private`, with the active-call slot
`media_call`. The other fields stand for the collaborators: `trace` lists the
actions performed so far, `backend` is the backend state a new media session
starts from, `local_ip` is what `sipe_utils_get_suitable_local_ip (-1)` returns,
`contact` what `get_contact` returns, `next_tag` and `next_callid` what `gentag`
and `gencallid` return next. -/
structure sipe_core_private where
  media_call : Option sipe_media_call_private
  trace : List effect
  backend : sipe_backend_media
  local_ip : Str
  contact : Str
  next_tag : Str
  next_callid : Str
  deriving DecidableEq, Repr

/-! ## SDP document builder -/

/-- The function `sipe_media_create_sdp (call_private)`; `ip` is the value of
`sipe_utils_get_suitable_local_ip (-1)`. `none` when the candidate block cannot
be built. -/
def sipe_media_create_sdp (ip : Str) (call_private : sipe_media_call_private) : Option Str :=
  let usable_codecs := call_private.backend_private.local_codecs
  let sdp_codecs := sipe_media_sdp_codecs_format usable_codecs
  let sdp_codec_ids := sipe_media_sdp_codec_ids_format usable_codecs
  match sipe_media_sdp_candidates_format call_private.backend_private
      call_private.legacy_mode 0 with
  | none => none
  | some (sdp_candidates, local_port) =>
    let inactive : Str :=
      if call_private.local_on_hold || call_private.remote_on_hold then "a=inactive\r\n".toList
      else []
    some ("v=0\r\no=- 0 0 IN IP4 ".toList ++ ip ++ "\r\ns=session\r\nc=IN IP4 ".toList ++ ip
      ++ "\r\nb=CT:99980\r\nt=0 0\r\nm=audio ".toList ++ fmt_u local_port ++ " RTP/AVP".toList
      ++ sdp_codec_ids ++ "\r\n".toList ++ sdp_candidates ++ inactive ++ sdp_codecs
      ++ "a=encryption:rejected\r\n".toList)

/-! ## SDP parsing into the session -/

/-- Values of the locals `sdp_attrs`, `remote_ip`, `remote_port` and `no_error`
of `sipe_media_parse_sdp_attributes_and_candidates` when its line loop ends. -/
structure sdp_scan where
  sdp_attrs : List sipnameval
  remote_ip : CStr
  remote_port : Nat
  no_error : Bool
  deriving DecidableEq, Repr

/-- The `for (ptr = lines; *ptr != NULL; ++ptr)` loop of
`sipe_media_parse_sdp_attributes_and_candidates`. An `a=` line whose split has
no first part releases the attributes, clears `no_error` and leaves the loop. -/
def parse_sdp_lines : List Str → sdp_scan → Option sdp_scan
  | [], st => some st
  | line :: rest, st =>
    if g_str_has_prefix line "a=".toList then
      let parts := g_strsplit (line.drop 2) ":".toList 2
      match strv_get parts 0 with
      | none => none
      | some none => some { st with sdp_attrs := [], no_error := false }
      | some (some p0) =>
        match strv_get parts 1 with
        | none => none
        | some p1 =>
          parse_sdp_lines rest { st with sdp_attrs := sipe_utils_nameval_add st.sdp_attrs p0 p1 }
    else if g_str_has_prefix line "o=".toList then
      let parts := g_strsplit (line.drop 2) " ".toList 6
      match strv_get parts 5 with
      | none => none
      | some p5 => parse_sdp_lines rest { st with remote_ip := p5 }
    else if g_str_has_prefix line "m=".toList then
      let parts := g_strsplit (line.drop 2) " ".toList 3
      match strv_get parts 1 with
      | none => none
      | some p1 =>
        match atoi p1 with
        | none => none
        | some v => parse_sdp_lines rest { st with remote_port := (v % 2 ^ 16).toNat }
    else parse_sdp_lines rest st

/-- The function `sipe_media_parse_sdp_attributes_and_candidates (call_private,
frame)`: the returned flag `no_error` and the session afterwards. `none` when
`frame` is `NULL` or a line is read out of range. -/
def sipe_media_parse_sdp_attributes_and_candidates (call_private : sipe_media_call_private)
    (frame : CStr) : Option (Bool × sipe_media_call_private) :=
  match frame with
  | none => none
  | some frame =>
    let lines := g_strsplit frame "\r\n".toList 0
    match parse_sdp_lines lines
        { sdp_attrs := [], remote_ip := none, remote_port := 0, no_error := true } with
    | none => none
    | some st =>
      match sipe_media_parse_remote_candidates st.sdp_attrs with
      | none => none
      | some parsed =>
        let remote_candidates :=
          match parsed with
          | [] => sipe_media_parse_remote_candidates_legacy st.remote_ip st.remote_port
          | _ => parsed
        let call1 : sipe_media_call_private :=
          match parsed with
          | [] => { call_private with legacy_mode := true }
          | _ => call_private
        if st.no_error then
          some (true, { call1 with sdp_attrs := st.sdp_attrs, remote_ip := st.remote_ip,
                                   remote_port := st.remote_port,
                                   remote_candidates := remote_candidates })
        else some (false, call1)

/-- The function `sipe_media_parse_remote_codecs (call_private)`: the returned
flag, the session afterwards and the backend calls made. -/
def sipe_media_parse_remote_codecs (call_private : sipe_media_call_private) :
    Option (Bool × sipe_media_call_private × List effect) :=
  let local_codecs := call_private.backend_private.local_codecs
  match sipe_media_parse_codecs call_private.sdp_attrs with
  | none => none
  | some parsed =>
    match sipe_media_prune_remote_codecs local_codecs parsed with
    | [] => some (false, call_private, [])
    | remote_codecs =>
      let call1 := { call_private with remote_codecs := remote_codecs }
      some (call_private.backend_private.set_remote_codecs_ok, call1,
        [effect.sipe_backend_set_remote_codecs call_private.voice_stream remote_codecs])

/-! ## Collaborator calls -/

/-- Append actions to the endpoint's trace. -/
def emit (sipe_private : sipe_core_private) (es : List effect) : sipe_core_private :=
  { sipe_private with trace := sipe_private.trace ++ es }

/-- Modelled from the spec: `sipe_backend_media_is_initiator (media, stream)`:
whether this side initiated the media session. -/
def sipe_backend_media_is_initiator (media : sipe_backend_media)
    (_stream : Option sipe_backend_stream) : Bool :=
  media.initiator

/-- Modelled from the spec: `sipe_backend_media_add_stream (media, participant,
type, using_nice, initiator)`: the backend adds a stream with the participant
id, the connectivity-check flag and the initiator flag, and returns it. -/
def sipe_backend_media_add_stream (media : sipe_backend_media) (participant : CStr)
    (using_nice initiator : Bool) : sipe_backend_stream × sipe_backend_media :=
  let stream : sipe_backend_stream :=
    { id := media.next_stream_id, participant := participant, using_nice := using_nice,
      initiator := initiator }
  (stream, { media with streams := media.streams ++ [stream],
                        next_stream_id := media.next_stream_id + 1 })

/-- Modelled from the spec: `sipe_backend_media_remove_stream (media, stream)`:
the stream is removed from the backend's streams. -/
def sipe_backend_media_remove_stream (media : sipe_backend_media)
    (stream : Option sipe_backend_stream) : sipe_backend_media :=
  match stream with
  | none => media
  | some s => { media with streams := media.streams.erase s }

/-- Modelled from the spec: the key of the transaction `sip_transport_invite`
creates, derived from the dialog's call id and sequence number:
`<callid><cseq INVITE>`. -/
def transaction_key (callid : CStr) (cseq : Int) : Str :=
  "<".toList ++ fmt_s callid ++ "><".toList ++ fmt_d cseq ++ " INVITE>".toList

/-- Modelled from the spec: `sip_transport_invite (sipe_private, hdr, body,
dialog, tc)` of the absent transport: the dialog's sequence counter is
incremented, the INVITE is sent and the outstanding transaction is returned. -/
def sip_transport_invite (sipe_private : sipe_core_private) (hdr body : Str)
    (dialog : sip_dialog) (tc : TransCallback) :
    transaction × sip_dialog × sipe_core_private :=
  let dialog1 := { dialog with cseq := dialog.cseq + 1 }
  ({ key := transaction_key dialog1.callid dialog1.cseq, callback := tc }, dialog1,
   emit sipe_private [effect.sip_transport_invite hdr body dialog1 tc])

/-- The conversion `%d` of `sscanf`: white space is skipped, then an optional
sign and at least one digit are read and the value is stored in an `int`;
`none` when the conversion fails. -/
def sscanf_d (s : Str) : Option Int :=
  let r := s.dropWhile isspace
  match r with
  | '-' :: c :: _ =>
    if isdigit c then some (int_of_long (strtol_value (atoi_signed r))) else none
  | '+' :: c :: _ =>
    if isdigit c then some (int_of_long (strtol_value (atoi_signed r))) else none
  | c :: _ => if isdigit c then some (int_of_long (strtol_value (atoi_signed r))) else none
  | [] => none

/-- The call `sscanf (trans->key, "<%*[a-zA-Z0-9]><%d INVITE>", &trans_cseq)` of
`sipe_media_send_ack`: the value stored in `trans_cseq`, `none` when nothing is
stored (the local stays uninitialised). -/
def sscanf_trans_cseq (key : Str) : Option Int :=
  match key with
  | '<' :: r =>
    if r.takeWhile isalnum = [] then none
    else
      match r.dropWhile isalnum with
      | '>' :: '<' :: r2 => sscanf_d r2
      | _ => none
  | _ => none

/-! ## Call handlers -/

/-- The header block `hdr` that `sipe_invite_call` builds; `contact` is the value
of `get_contact (sipe_private)`. -/
def invite_hdr (contact : Str) (call_private : sipe_media_call_private) : Str :=
  "Supported: ms-early-media\r\nSupported: 100rel\r\nms-keep-alive: UAC;hop-hop=yes\r\nContact: ".toList
    ++ contact
    ++ (if call_private.local_on_hold || call_private.remote_on_hold
        then ";+sip.rendering=\"no\"".toList else [])
    ++ "\r\nContent-Type: application/sdp\r\n".toList

/-- The function `sipe_invite_call (sipe_private, tc)`. `none` when there is no
call or no dialog to dereference, or when the SDP body cannot be built. -/
def sipe_invite_call (sipe_private : sipe_core_private) (tc : TransCallback) :
    Option sipe_core_private :=
  match sipe_private.media_call with
  | none => none
  | some call_private =>
    match call_private.dialog with
    | none => none
    | some dialog =>
      let hdr := invite_hdr sipe_private.contact call_private
      match sipe_media_create_sdp sipe_private.local_ip call_private with
      | none => none
      | some body =>
        let sent := sip_transport_invite sipe_private hdr body dialog tc
        some { sent.2.2 with
          media_call := some { call_private with
            dialog := some { sent.2.1 with outgoing_invite := some sent.1 } } }

/-- The function `send_response_with_session_description (call_private, code,
text)`, for the call in the active-call slot. `none` when the SDP body cannot be
built or there is no invitation to answer. -/
def send_response_with_session_description (sipe_private : sipe_core_private)
    (call_private : sipe_media_call_private) (code : Nat) (text : Str) :
    Option sipe_core_private :=
  match sipe_media_create_sdp sipe_private.local_ip call_private with
  | none => none
  | some body =>
    match call_private.invitation with
    | none => none
    | some invitation =>
      let invitation1 := sipmsg_add_header invitation "Content-Type".toList
        "application/sdp".toList
      some (emit { sipe_private with
                   media_call := some { call_private with invitation := some invitation1 } }
        [effect.sip_transport_response invitation1 code text (some body)])

/-- The function `encryption_levels_compatible (call_private)`. -/
def encryption_levels_compatible (call_private : sipe_media_call_private) : Bool :=
  !sipe_strequal (sipe_utils_nameval_find call_private.sdp_attrs "encryption".toList)
    (some "required".toList)

/-- The function `handle_incompatible_encryption_level (call_private)`, for the
call in the active-call slot (message texts untranslated). `none` when there is
no invitation to answer. -/
def handle_incompatible_encryption_level (sipe_private : sipe_core_private)
    (call_private : sipe_media_call_private) : Option sipe_core_private :=
  match call_private.invitation with
  | none => none
  | some invitation =>
    let invitation1 := sipmsg_add_header invitation "Warning".toList
      "308 lcs.microsoft.com \"Encryption Levels not compatible\"".toList
    some (emit { sipe_private with
                 media_call := some { call_private with invitation := some invitation1 } }
      [effect.sip_transport_response invitation1 488
         "Encryption Levels not compatible".toList none,
       effect.sipe_backend_media_reject false,
       effect.sipe_backend_notify_error "Unable to establish a call".toList
         "Encryption settings of peer are incompatible with ours.".toList])

/-- The callback `candidates_prepared_cb (call)`, `call` being the call in the
active-call slot (`none` when the slot is empty: there is no call to invoke it
on). When `sipe_media_parse_remote_codecs` fails the struct is released and the
slot keeps pointing to it. -/
def candidates_prepared_cb (sipe_private : sipe_core_private) : Option sipe_core_private :=
  match sipe_private.media_call with
  | none => none
  | some call_private =>
    if sipe_backend_media_is_initiator call_private.backend_private
        call_private.voice_stream then
      sipe_invite_call sipe_private TransCallback.process_invite_call_response
    else
      match sipe_media_parse_remote_codecs call_private with
      | none => none
      | some (ok, call1, es) =>
        let sipe_private1 := emit sipe_private es
        if !ok then
          some { sipe_private1 with media_call := some { call1 with freed := true } }
        else if !call1.legacy_mode && encryption_levels_compatible call1 then
          send_response_with_session_description sipe_private1 call1 183
            "Session Progress".toList
        else some { sipe_private1 with media_call := some call1 }

/-- The callback `call_accept_cb (call, local)`, `call` being the call in the
active-call slot. -/
def call_accept_cb (sipe_private : sipe_core_private) (is_local : Bool) :
    Option sipe_core_private :=
  match sipe_private.media_call with
  | none => none
  | some call_private =>
    if is_local then
      if !encryption_levels_compatible call_private then
        handle_incompatible_encryption_level sipe_private call_private
      else
        send_response_with_session_description sipe_private call_private 200 "OK".toList
    else some sipe_private

/-- The callback `call_reject_cb (call, local)`, `call` being the call in the
active-call slot: the slot is cleared and the session released. -/
def call_reject_cb (sipe_private : sipe_core_private) (is_local : Bool) :
    Option sipe_core_private :=
  match sipe_private.media_call with
  | none => none
  | some call_private =>
    if is_local then
      match call_private.invitation with
      | none => none
      | some invitation =>
        some (emit { sipe_private with media_call := none }
          [effect.sip_transport_response invitation 603 "Decline".toList none])
    else some { sipe_private with media_call := none }

/-- The callback `call_hold_cb (call, local, state)`, `call` being the call in
the active-call slot. -/
def call_hold_cb (sipe_private : sipe_core_private) (is_local state : Bool) :
    Option sipe_core_private :=
  match sipe_private.media_call with
  | none => none
  | some call_private =>
    if is_local && (call_private.local_on_hold != state) then
      sipe_invite_call
        { sipe_private with media_call := some { call_private with local_on_hold := state } }
        TransCallback.sipe_media_send_ack
    else if call_private.remote_on_hold != state then
      send_response_with_session_description sipe_private
        { call_private with remote_on_hold := state } 200 "OK".toList
    else some sipe_private

/-- The callback `call_hangup_cb (call, local)`, `call` being the call in the
active-call slot: the slot is cleared and the session released. -/
def call_hangup_cb (sipe_private : sipe_core_private) (is_local : Bool) :
    Option sipe_core_private :=
  match sipe_private.media_call with
  | none => none
  | some call_private =>
    if is_local then
      some (emit { sipe_private with media_call := none }
        [effect.sip_transport_bye call_private.dialog])
    else some { sipe_private with media_call := none }

/-- Modelled from the spec: `sipe_backend_media_new (sipe_public, call,
participant, initiator)`: a media session of the backend, created with the
given initiator flag. -/
def sipe_backend_media_new (sipe_private : sipe_core_private) (initiator : Bool) :
    sipe_backend_media :=
  { sipe_private.backend with initiator := initiator }

/-- The function `sipe_media_call_init (sipe_private, participant, initiator)`:
a zero-filled session with a new backend media session, `legacy_mode = FALSE`,
`using_nice = TRUE` and both hold flags `FALSE`. -/
def sipe_media_call_init (sipe_private : sipe_core_private) (_participant : CStr)
    (initiator : Bool) : sipe_media_call_private :=
  { backend_private := sipe_backend_media_new sipe_private initiator,
    remote_codecs := [], local_on_hold := false, remote_on_hold := false,
    session := none, dialog := none, voice_stream := none, remote_ip := none,
    remote_port := 0, sdp_attrs := [], invitation := none, remote_candidates := [],
    legacy_mode := false, using_nice := true, freed := false }

/-- The function `sipe_core_media_initiate_call (sipe_public, participant)`. -/
def sipe_core_media_initiate_call (sipe_private : sipe_core_private) (participant : CStr) :
    sipe_core_private :=
  match sipe_private.media_call with
  | some _ => sipe_private
  | none =>
    let call_private := sipe_media_call_init sipe_private participant true
    let dialog : sip_dialog :=
      { callid := some sipe_private.next_callid, with_ := participant,
        ourtag := some sipe_private.next_tag, cseq := 0, outgoing_invite := none }
    let added := sipe_backend_media_add_stream call_private.backend_private participant
      call_private.using_nice true
    emit { sipe_private with
           media_call := some { call_private with
             session := some { callid := none }, dialog := some dialog,
             backend_private := added.2, voice_stream := some added.1 } }
      [effect.sipe_backend_media_add_stream added.1]

/-- Modelled from the spec: the message after `sipe_media_dialog_init` has
replaced its `To` header by `<old To>;tag=<new tag>`. -/
def dialog_init_msg (msg : sipmsg) (newTag : Str) : sipmsg :=
  let newHeader := fmt_s (sipmsg_find_header msg "To".toList) ++ ";tag=".toList ++ newTag
  let others := msg.headers.filter (fun h => !decide (h.name = "To".toList))
  { msg with headers := sipe_utils_nameval_add others "To".toList (some newHeader) }

/-- Modelled from the spec: the dialog `sipe_media_dialog_init (session, msg)`
creates: the session's call id, the peer taken from the `From` header (the
address extraction of the absent `parse_from` is not represented) and the new
local tag. -/
def sipe_media_dialog_init (session : sip_session) (msg : sipmsg) (newTag : Str) : sip_dialog :=
  { callid := session.callid, with_ := sipmsg_find_header msg "From".toList,
    ourtag := some newTag, cseq := 0, outgoing_invite := none }

/-- The function `sipe_media_incoming_invite (sipe_private, msg)`. `none` when
the body is `NULL`, a parser reads out of range, the active call has no dialog,
or a response with SDP cannot be built. -/
def sipe_media_incoming_invite (sipe_private : sipe_core_private) (msg : sipmsg) :
    Option sipe_core_private :=
  let callid := sipmsg_find_header msg "Call-ID".toList
  match sipe_private.media_call with
  | some call_private =>
    match call_private.dialog with
    | none => none
    | some dialog =>
      if sipe_strequal dialog.callid callid then
        let call1 := { call_private with invitation := some msg, sdp_attrs := [] }
        match sipe_media_parse_sdp_attributes_and_candidates call1 msg.body with
        | none => none
        | some (_, call2) =>
          if !encryption_levels_compatible call2 then
            handle_incompatible_encryption_level sipe_private call2
          else
            match sipe_media_parse_remote_codecs call2 with
            | none => none
            | some (ok, call3, es) =>
              let sipe_private1 := emit sipe_private es
              if !ok then
                some { sipe_private1 with media_call := some { call3 with freed := true } }
              else if call3.legacy_mode && !call3.remote_on_hold then
                some (emit { sipe_private1 with media_call := some call3 }
                  [effect.sipe_backend_media_hold false])
              else if (sipe_utils_nameval_find call3.sdp_attrs "inactive".toList).isSome then
                some (emit { sipe_private1 with media_call := some call3 }
                  [effect.sipe_backend_media_hold false])
              else if call3.remote_on_hold then
                some (emit { sipe_private1 with media_call := some call3 }
                  [effect.sipe_backend_media_unhold false])
              else
                send_response_with_session_description sipe_private1 call3 200 "OK".toList
      else
        some (emit sipe_private
          [effect.sip_transport_response msg 486 "Busy Here".toList none])
  | none =>
    let session : sip_session := { callid := callid }
    let msg1 := dialog_init_msg msg sipe_private.next_tag
    let dialog := sipe_media_dialog_init session msg sipe_private.next_tag
    let call_private :=
      { (sipe_media_call_init sipe_private dialog.with_ false) with
        invitation := some msg1, session := some session, dialog := some dialog }
    match sipe_media_parse_sdp_attributes_and_candidates call_private msg1.body with
    | none => none
    | some (_, call1) =>
      let added := sipe_backend_media_add_stream call1.backend_private dialog.with_
        (!call1.legacy_mode) false
      let call2 := { call1 with backend_private := added.2, voice_stream := some added.1 }
      some (emit { sipe_private with media_call := some call2 }
        [effect.sipe_backend_media_add_stream added.1,
         effect.sipe_backend_media_add_remote_candidates call2.voice_stream
           call2.remote_candidates,
         effect.sip_transport_response msg1 180 "Ringing".toList none])

/-- The function `sipe_media_send_ack (sipe_private, msg, trans)`: the returned
flag and the endpoint afterwards. The ACK goes out on the dialog with `cseq` set
to `trans_cseq - 1`; the counter is restored afterwards. `none` when the `sscanf`
on the transaction key stores nothing and `trans_cseq` is read uninitialised. -/
def sipe_media_send_ack (sipe_private : sipe_core_private) (_msg : sipmsg)
    (trans : transaction) : Option (Bool × sipe_core_private) :=
  match sipe_private.media_call with
  | none => some (false, sipe_private)
  | some call_private =>
    match call_private.dialog with
    | none => some (false, sipe_private)
    | some dialog =>
      let tmp_cseq := dialog.cseq
      match sscanf_trans_cseq trans.key with
      | none => none
      | some trans_cseq =>
        let dialog1 := { dialog with cseq := trans_cseq - 1 }
        let dialog2 := { dialog1 with cseq := tmp_cseq, outgoing_invite := none }
        some (true, emit { sipe_private with
                           media_call := some { call_private with dialog := some dialog2 } }
          [effect.sip_transport_ack dialog1])

/-- The title chosen by `switch (msg->response)` in the rejection branch of
`process_invite_call_response`. Case 480 has no `break` and runs on into the
cases 603 and 605, whose assignment replaces its title. -/
def reject_title (response : Int) : Str :=
  if response = 480 ∨ response = 603 ∨ response = 605 then "Call rejected".toList
  else "Error occured".toList

/-- The text appended to `desc` by `switch (msg->response)` in the rejection
branch of `process_invite_call_response`; case 480 appends its own sentence and
then, running on into case 603, the rejection sentence as well. -/
def reject_desc (response : Int) (with_ : CStr) : Str :=
  if response = 480 then
    "User ".toList ++ fmt_s with_ ++ " is not available".toList
      ++ ("User ".toList ++ fmt_s with_ ++ " rejected call".toList)
  else if response = 603 ∨ response = 605 then
    "User ".toList ++ fmt_s with_ ++ " rejected call".toList
  else "Unable to establish a call".toList

/-- The function `process_invite_call_response (sipe_private, msg, trans)`: the
returned flag and the endpoint afterwards. -/
def process_invite_call_response (sipe_private : sipe_core_private) (msg : sipmsg)
    (trans : transaction) : Option (Bool × sipe_core_private) :=
  let callid := sipmsg_find_header msg "Call-ID".toList
  match sipe_private.media_call with
  | none => some (false, sipe_private)
  | some call_private =>
    match call_private.dialog with
    | none => none
    | some dialog =>
      if !sipe_strequal dialog.callid callid then some (false, sipe_private)
      else
        let with_ := dialog.with_
        let dialog0 := { dialog with outgoing_invite := none }
        let call0 := { call_private with dialog := some dialog0 }
        let sp0 := { sipe_private with media_call := some call0 }
        if msg.response ≥ 400 then
          match sipe_media_send_ack (emit sp0 [effect.sipe_backend_media_reject false])
              msg trans with
          | none => none
          | some (_, sp1) =>
            let desc := reject_desc msg.response with_ ++ "\n".toList ++ fmt_d msg.response
              ++ " ".toList ++ fmt_s msg.responsestr
            some (true, emit sp1
              [effect.sipe_backend_notify_error (reject_title msg.response) desc])
        else
          match sipe_media_parse_sdp_attributes_and_candidates call0 msg.body with
          | none => none
          | some (false, call1) => some (false, { sp0 with media_call := some call1 })
          | some (true, call1) =>
            match sipe_media_parse_remote_codecs call1 with
            | none => none
            | some (false, call2, es) =>
              some (false, emit { sp0 with media_call := some { call2 with freed := true } } es)
            | some (true, call2, es) =>
              let sp2 := emit { sp0 with media_call := some call2 }
                (es ++ [effect.sipe_backend_media_add_remote_candidates call2.voice_stream
                          call2.remote_candidates])
              if msg.response = 183 then
                let rseq := sipmsg_find_header msg "RSeq".toList
                let cseq := sipmsg_find_header msg "CSeq".toList
                let rack := "RAck: ".toList ++ fmt_s rseq ++ " ".toList ++ fmt_s cseq
                  ++ "\r\n".toList
                some (true, emit sp2
                  [effect.sip_transport_request "PRACK".toList with_ with_ rack none dialog0])
              else
                match sipe_media_send_ack sp2 msg trans with
                | none => none
                | some (_, sp3) =>
                  match sp3.media_call with
                  | none => none
                  | some call3 =>
                    if call3.legacy_mode && call3.using_nice then
                      let added := sipe_backend_media_add_stream call3.backend_private with_
                        false true
                      let backend1 := sipe_backend_media_remove_stream added.2
                        call3.voice_stream
                      let call4 := { call3 with using_nice := false,
                                                backend_private := backend1,
                                                voice_stream := some added.1 }
                      let sp4 := emit { sp3 with media_call := some call4 }
                        [effect.sipe_backend_media_add_stream added.1,
                         effect.sipe_backend_media_remove_stream call3.voice_stream]
                      match sipe_media_parse_sdp_attributes_and_candidates call4 msg.body with
                      | none => none
                      | some (false, call5) =>
                        some (false, { sp4 with media_call := some call5 })
                      | some (true, call5) =>
                        match sipe_media_parse_remote_codecs call5 with
                        | none => none
                        | some (false, call6, es6) =>
                          some (false,
                            emit { sp4 with media_call := some { call6 with freed := true } } es6)
                        | some (true, call6, es6) =>
                          some (true, emit { sp4 with media_call := some call6 }
                            (es6 ++ [effect.sipe_backend_media_add_remote_candidates
                                       call6.voice_stream call6.remote_candidates]))
                    else
                      match sipe_invite_call sp3 TransCallback.sipe_media_send_ack with
                      | none => none
                      | some sp5 => some (true, sp5)

/-! ## Reference readings of an SDP body

Definitions that follow the wording of the specification, for comparison with
the parser above. -/

/-- "The IP taken from the `o=` line": the sixth space-separated field of the
last line that starts with `o=` (`ip` when there is no such line). -/
def origin_ip_of_lines : List Str → CStr → CStr
  | [], ip => ip
  | line :: rest, ip =>
    if g_str_has_prefix line "o=".toList then
      origin_ip_of_lines rest ((g_strsplit (line.drop 2) " ".toList 6).get? 5)
    else origin_ip_of_lines rest ip

/-- "The `m=` line's port": the number written in the second space-separated
field of the last line that starts with `m=`, as a 16-bit port (`port` when
there is no such line). -/
def media_port_of_lines : List Str → Nat → Nat
  | [], port => port
  | line :: rest, port =>
    if g_str_has_prefix line "m=".toList then
      match (g_strsplit (line.drop 2) " ".toList 3).get? 1 with
      | some field => media_port_of_lines rest ((atoi_str field % 2 ^ 16).toNat)
      | none => media_port_of_lines rest port
    else media_port_of_lines rest port

/-- The IP of the `o=` line of an SDP body. -/
def sdp_origin_ip (frame : Str) : CStr :=
  origin_ip_of_lines (g_strsplit frame "\r\n".toList 0) none

/-- The port of the `m=` line of an SDP body. -/
def sdp_media_port (frame : Str) : Nat :=
  media_port_of_lines (g_strsplit frame "\r\n".toList 0) 0

/-! ## Sample data used to instantiate the theorems -/

/-- The codec PCMU, payload id 0, clock rate 8000. -/
def sample_pcmu : sipe_backend_codec :=
  sipe_backend_codec_new 0 (some "PCMU".toList) 8000 SipeMediaType.SIPE_MEDIA_AUDIO

/-- A local host candidate for RTP. -/
def sample_local_candidate : sipe_backend_candidate :=
  { foundation := some "1".toList, component := SipeComponentType.SIPE_COMPONENT_RTP,
    type := SipeCandidateType.SIPE_CANDIDATE_TYPE_HOST,
    protocol := SipeNetworkProtocol.SIPE_NETWORK_PROTOCOL_UDP,
    ip := some "192.168.1.2".toList, port := 6000, priority := 100,
    username := some "user".toList, password := some "pass".toList,
    base_ip := none, base_port := 0 }

/-- A backend offering PCMU and one local candidate. -/
def sample_backend : sipe_backend_media :=
  { initiator := false, streams := [], next_stream_id := 0, local_codecs := [sample_pcmu],
    set_remote_codecs_ok := true, active_local_candidates := [],
    local_candidates := [sample_local_candidate], active_remote_candidates := [] }

/-- A fresh session on `sample_backend`. -/
def sample_call : sipe_media_call_private :=
  { backend_private := sample_backend, remote_codecs := [], local_on_hold := false,
    remote_on_hold := false, session := none, dialog := none, voice_stream := none,
    remote_ip := none, remote_port := 0, sdp_attrs := [], invitation := none,
    remote_candidates := [], legacy_mode := false, using_nice := true, freed := false }

/-- An SDP body without any `a=candidate` line. -/
def sample_legacy_sdp : Str :=
  "v=0\r\no=- 0 0 IN IP4 10.0.0.5\r\nm=audio 5000 RTP/AVP 0\r\na=rtpmap:0 PCMU/8000\r\n".toList

/-- An inbound INVITE carrying `sample_legacy_sdp`. -/
def sample_invite : sipmsg :=
  { response := 0, responsestr := none,
    headers := [⟨"Call-ID".toList, "abc123".toList⟩, ⟨"From".toList, "sip:bob@example.com".toList⟩,
                ⟨"To".toList, "sip:alice@example.com".toList⟩],
    body := some sample_legacy_sdp }

/-- An endpoint whose active-call slot holds the given session. -/
def sample_endpoint (call_private : Option sipe_media_call_private) : sipe_core_private :=
  { media_call := call_private, trace := [], backend := sample_backend,
    local_ip := "192.168.1.2".toList, contact := "<sip:alice@example.com>".toList,
    next_tag := "tag1".toList, next_callid := "call1".toList }

/-- The dialog of the sample call. -/
def sample_dialog : sip_dialog :=
  { callid := some "abc123".toList, with_ := some "sip:bob@example.com".toList,
    ourtag := some "tag0".toList, cseq := 1, outgoing_invite := none }

/-- An inbound session waiting for the local accept; `attrs` is the stored
remote attribute set. -/
def sample_inbound_call (attrs : List sipnameval) : sipe_media_call_private :=
  { sample_call with sdp_attrs := attrs, invitation := some sample_invite,
                     dialog := some sample_dialog }

/-- Fields joined with single spaces. -/
def join_sp : List Str → Str
  | [] => []
  | [t] => t
  | t :: ts => t ++ ' ' :: join_sp ts

/-- The candidate attribute value `F C UDP P IP PORT typ T`, fields separated by
single spaces; `C` is the component id and `T` the type token. -/
def candidate_attr_value (F : Str) (comp : SipeComponentType) (P IP PORT : Str)
    (typ : SipeCandidateType) : Str :=
  F ++ " ".toList ++ fmt_u comp.toNat ++ " UDP ".toList ++ P ++ " ".toList ++ IP ++ " ".toList
    ++ PORT ++ " typ ".toList ++ type_text typ

/-- The candidate of the line `1 1 UDP 100 10.0.0.5 5000 typ host`. -/
def sample_remote_candidate : sipe_backend_candidate :=
  { foundation := some "1".toList, component := SipeComponentType.SIPE_COMPONENT_RTP,
    type := SipeCandidateType.SIPE_CANDIDATE_TYPE_HOST,
    protocol := SipeNetworkProtocol.SIPE_NETWORK_PROTOCOL_UDP,
    ip := some "10.0.0.5".toList, port := 5000, priority := 100, username := none,
    password := none, base_ip := none, base_port := 0 }

/-- The text ends with a line break. -/
def ends_crlf (s : Str) : Prop := ∃ p, s = p ++ "\r\n".toList

/-- The body contains the line `line`: the text `line` followed by a line break,
at the start of the body or right after a line break. -/
def has_line (body line : Str) : Prop :=
  ∃ pre post, body = pre ++ (line ++ "\r\n".toList) ++ post ∧ (pre = [] ∨ ends_crlf pre)

/-- The text of the `a=rtpmap:` line of a codec. -/
def rtpmap_line (c : sipe_backend_codec) : Str :=
  "a=rtpmap:".toList ++ fmt_d c.id ++ " ".toList ++ fmt_s c.name ++ "/".toList
    ++ fmt_d c.clock_rate

/-- The SDP body of the scenario INVITE: one codec line and one candidate line. -/
def sample_ice_sdp : Str :=
  "a=rtpmap:0 PCMU/8000\r\na=candidate:1 1 UDP 100 10.0.0.5 5000 typ host\r\n".toList

/-- The attribute set of `sample_ice_sdp`. -/
def sample_ice_attrs : List sipnameval :=
  [⟨"rtpmap".toList, "0 PCMU/8000".toList⟩,
   ⟨"candidate".toList, "1 1 UDP 100 10.0.0.5 5000 typ host".toList⟩]

/-- The transaction of the outstanding INVITE of `sample_outbound_call`. -/
def sample_transaction : transaction :=
  { key := "<abc123><1 INVITE>".toList, callback := TransCallback.process_invite_call_response }

/-- The dialog of `sample_outbound_call`, its INVITE outstanding. -/
def sample_outbound_dialog : sip_dialog :=
  { sample_dialog with outgoing_invite := some sample_transaction }

/-- The stream of `sample_outbound_call`, with connectivity checks. -/
def sample_outbound_stream : sipe_backend_stream :=
  { id := 0, participant := some "sip:bob@example.com".toList, using_nice := true,
    initiator := true }

/-- An outbound session whose INVITE is outstanding. -/
def sample_outbound_call : sipe_media_call_private :=
  { sample_call with
    backend_private := { sample_backend with initiator := true,
                                             streams := [sample_outbound_stream],
                                             next_stream_id := 1 },
    voice_stream := some sample_outbound_stream,
    dialog := some sample_outbound_dialog }

/-- A 183 response to the INVITE of `sample_outbound_call`, with the scenario
SDP body. -/
def sample_response_183 : sipmsg :=
  { response := 183, responsestr := some "Session Progress".toList,
    headers := [⟨"Call-ID".toList, "abc123".toList⟩, ⟨"RSeq".toList, "1".toList⟩,
                ⟨"CSeq".toList, "1 INVITE".toList⟩],
    body := some sample_ice_sdp }

/-- A final response 480 to the INVITE of `sample_outbound_call`. -/
def sample_response_480 : sipmsg :=
  { response := 480, responsestr := some "Temporarily Unavailable".toList,
    headers := [⟨"Call-ID".toList, "abc123".toList⟩], body := none }

/-- The INVITE requests among a list of actions. -/
def invites : List effect → List effect
  | [] => []
  | effect.sip_transport_invite hdr body dialog tc :: es =>
    effect.sip_transport_invite hdr body dialog tc :: invites es
  | _ :: es => invites es

/-- An active inbound session, not on hold, of the sample endpoint. -/
def sample_active_call : sipe_media_call_private :=
  { sample_inbound_call sample_ice_attrs with
    remote_codecs := [sample_pcmu], remote_candidates := [sample_remote_candidate] }

/-- The endpoint after `call_hold_cb (call, TRUE, TRUE)` has put the session
`call_private` on local hold: the flag is set, the sequence counter of the
dialog has advanced, the INVITE with body `body` has been sent and its
transaction is outstanding. -/
def held_endpoint (sipe_private : sipe_core_private) (call_private : sipe_media_call_private)
    (dialog : sip_dialog) (body : Str) : sipe_core_private :=
  { sipe_private with
    media_call := some
      { call_private with
        local_on_hold := true,
        dialog := some
          { dialog with
            cseq := dialog.cseq + 1,
            outgoing_invite := some
              { key := transaction_key dialog.callid (dialog.cseq + 1),
                callback := TransCallback.sipe_media_send_ack } } },
    trace := sipe_private.trace
      ++ [effect.sip_transport_invite
            (invite_hdr sipe_private.contact { call_private with local_on_hold := true })
            body { dialog with cseq := dialog.cseq + 1 } TransCallback.sipe_media_send_ack] }

/-- The endpoint `held_endpoint` after `sipe_media_send_ack` has acknowledged
the success response: the ACK went out with the sequence number `trans_cseq` of
the transaction, the outstanding INVITE is cleared, the session is still on
local hold. -/
def acked_endpoint (sipe_private : sipe_core_private) (call_private : sipe_media_call_private)
    (dialog : sip_dialog) (body : Str) (trans_cseq : Int) : sipe_core_private :=
  { held_endpoint sipe_private call_private dialog body with
    media_call := some
      { call_private with
        local_on_hold := true,
        dialog := some { dialog with cseq := dialog.cseq + 1, outgoing_invite := none } },
    trace := (held_endpoint sipe_private call_private dialog body).trace
      ++ [effect.sip_transport_ack
            { dialog with
              cseq := trans_cseq - 1,
              outgoing_invite := some
                { key := transaction_key dialog.callid (dialog.cseq + 1),
                  callback := TransCallback.sipe_media_send_ack } }] }

/-- Lines, each followed by a line break. -/
def crlf_lines : List Str → Str
  | [] => []
  | l :: ls => l ++ '\r' :: '\n' :: crlf_lines ls

/-- The lines of the codec block: per codec the `a=rtpmap:` line and, when the
codec has optional parameters, the `a=fmtp:` line. -/
def codec_lines : List sipe_backend_codec → List Str
  | [] => []
  | c :: codecs =>
    rtpmap_line c
      :: ((match c.optional_parameters with
           | [] => []
           | params => ["a=fmtp:".toList ++ fmt_d c.id ++ sdp_codec_params_format params])
          ++ codec_lines codecs)

/-- The lines of an SDP body without candidate block: the fixed lines, the `m=`
line, the optional `a=inactive` line, the codec lines and the trailer. -/
def sdp_lines_without_candidates (ip : Str) (local_port : Nat) (hold : Bool)
    (codecs : List sipe_backend_codec) : List Str :=
  ["v=0".toList, "o=- 0 0 IN IP4 ".toList ++ ip, "s=session".toList,
   "c=IN IP4 ".toList ++ ip, "b=CT:99980".toList, "t=0 0".toList,
   "m=audio ".toList ++ fmt_u local_port ++ " RTP/AVP".toList
     ++ sipe_media_sdp_codec_ids_format codecs]
    ++ (if hold then ["a=inactive".toList] else [])
    ++ codec_lines codecs ++ ["a=encryption:rejected".toList]

/-- The texts of a codec contain no carriage return. -/
def codec_text_clean (c : sipe_backend_codec) : Prop :=
  '\r' ∉ fmt_s c.name ∧ ∀ p ∈ c.optional_parameters, '\r' ∉ p.name ∧ '\r' ∉ p.value

/-- The initial values of the locals of the line loop of
`sipe_media_parse_sdp_attributes_and_candidates`. -/
def sdp_scan_init : sdp_scan :=
  { sdp_attrs := [], remote_ip := none, remote_port := 0, no_error := true }

/-- The stream without connectivity checks that replaces the voice stream of an
outbound call when the peer turns out to be a legacy one. -/
def legacy_replacement_stream (call_private : sipe_media_call_private) (dialog : sip_dialog) :
    sipe_backend_stream :=
  (sipe_backend_media_add_stream call_private.backend_private dialog.with_ false true).1

/-- The session of an outbound call after `process_invite_call_response` has
handled a 200 OK without candidates: legacy mode, no connectivity checks, the
voice stream replaced, the scanned SDP (`st`), the two legacy candidates and the
pruned codecs stored, no INVITE outstanding. -/
def downgraded_call (call_private : sipe_media_call_private) (dialog : sip_dialog)
    (st : sdp_scan) (pruned : List sipe_backend_codec) : sipe_media_call_private :=
  { call_private with
    backend_private := sipe_backend_media_remove_stream
      (sipe_backend_media_add_stream call_private.backend_private dialog.with_ false true).2
      call_private.voice_stream,
    remote_codecs := pruned,
    dialog := some { dialog with outgoing_invite := none },
    voice_stream := some (legacy_replacement_stream call_private dialog),
    remote_ip := st.remote_ip, remote_port := st.remote_port, sdp_attrs := st.sdp_attrs,
    remote_candidates :=
      sipe_media_parse_remote_candidates_legacy st.remote_ip st.remote_port,
    legacy_mode := true, using_nice := false }

/-- The actions of `process_invite_call_response` on a 200 OK without
candidates for an outbound call that used connectivity checks: codecs and
candidates go to the old stream, the ACK is sent, the replacement stream is
added and the old one removed, and codecs and candidates go to the new stream. -/
def downgrade_trace (call_private : sipe_media_call_private) (dialog : sip_dialog)
    (st : sdp_scan) (pruned : List sipe_backend_codec) (trans_cseq : Int) : List effect :=
  [effect.sipe_backend_set_remote_codecs call_private.voice_stream pruned,
   effect.sipe_backend_media_add_remote_candidates call_private.voice_stream
     (sipe_media_parse_remote_candidates_legacy st.remote_ip st.remote_port),
   effect.sip_transport_ack { dialog with cseq := trans_cseq - 1, outgoing_invite := none },
   effect.sipe_backend_media_add_stream (legacy_replacement_stream call_private dialog),
   effect.sipe_backend_media_remove_stream call_private.voice_stream,
   effect.sipe_backend_set_remote_codecs
     (some (legacy_replacement_stream call_private dialog)) pruned,
   effect.sipe_backend_media_add_remote_candidates
     (some (legacy_replacement_stream call_private dialog))
     (sipe_media_parse_remote_candidates_legacy st.remote_ip st.remote_port)]

/-- A 200 OK to the INVITE of `sample_outbound_call` whose body has no
`a=candidate` line. -/
def sample_response_200 : sipmsg :=
  { response := 200, responsestr := some "OK".toList,
    headers := [⟨"Call-ID".toList, "abc123".toList⟩], body := some sample_legacy_sdp }

/-- The scan of `sample_legacy_sdp`. -/
def sample_legacy_scan : sdp_scan :=
  { sdp_attrs := [⟨"rtpmap".toList, "0 PCMU/8000".toList⟩],
    remote_ip := some "10.0.0.5".toList, remote_port := 5000, no_error := true }

/-- The hold marker of an SDP body: the line `a=inactive` when the session is on
local or on remote hold, nothing otherwise. -/
def hold_marker (local_on_hold remote_on_hold : Bool) : Str :=
  if local_on_hold = true ∨ remote_on_hold = true then "a=inactive\r\n".toList else []

/-- The codec ids of a codec list, each preceded by one space. -/
def codec_ids_text (codecs : List sipe_backend_codec) : Str :=
  (codecs.map (fun c => ' ' :: fmt_d c.id)).flatten

/-- The layout of an SDP body as the specification words it: the fixed
`v=`/`o=`/`s=`/`c=`/`b=`/`t=` lines with the local IP, the `m=audio` line with the
port and the codec ids, then the candidate block, the hold marker, the codec
block and the trailer `a=encryption:rejected`. -/
def sdp_body_layout (ip : Str) (port : Nat) (codecs : List sipe_backend_codec)
    (candidate_block : Str) (local_on_hold remote_on_hold : Bool) : Str :=
  crlf_lines
      ["v=0".toList, "o=- 0 0 IN IP4 ".toList ++ ip, "s=session".toList,
       "c=IN IP4 ".toList ++ ip, "b=CT:99980".toList, "t=0 0".toList,
       "m=audio ".toList ++ fmt_u port ++ " RTP/AVP".toList ++ codec_ids_text codecs]
    ++ candidate_block
    ++ hold_marker local_on_hold remote_on_hold
    ++ sipe_media_sdp_codecs_format codecs
    ++ crlf_lines ["a=encryption:rejected".toList]

/-- The active sample session, already on local hold and not on remote hold. -/
def sample_locally_held_call : sipe_media_call_private :=
  { sample_active_call with local_on_hold := true }

/-- The two hold flags `(local_on_hold, remote_on_hold)` of the session in the
active-call slot. -/
def hold_flags (sipe_private : sipe_core_private) : Option (Bool × Bool) :=
  sipe_private.media_call.map (fun c => (c.local_on_hold, c.remote_on_hold))

/-- The codes of the responses carrying a session description among a list of
actions. -/
def sdp_answers : List effect → List Nat
  | [] => []
  | effect.sip_transport_response _ code _ (some _) :: es => code :: sdp_answers es
  | _ :: es => sdp_answers es

/-- An SDP body offering only PCMA, which `sample_backend` does not have. -/
def sample_pcma_sdp : Str :=
  "v=0\r\no=- 0 0 IN IP4 10.0.0.5\r\nm=audio 5000 RTP/AVP 8\r\na=rtpmap:8 PCMA/8000\r\n".toList

/-- The attribute set of `sample_pcma_sdp`. -/
def sample_pcma_attrs : List sipnameval :=
  [⟨"rtpmap".toList, "8 PCMA/8000".toList⟩]

/-- Whether the active-call slot is empty (`none`) and, when it is not, whether
the session it points to has been released (`some true`) or is live
(`some false`). -/
def slot_state (sipe_private : sipe_core_private) : Option Bool :=
  sipe_private.media_call.map (fun c => c.freed)

/-- An SDP body with an attribute line that has an empty name. -/
def sample_bare_attr_sdp : Str :=
  "v=0\r\no=- 0 0 IN IP4 10.0.0.5\r\nm=audio 5000 RTP/AVP 0\r\na=\r\na=rtpmap:0 PCMU/8000\r\n".toList

/-- An SDP body with the value-less attribute line `a=inactive`. -/
def sample_inactive_sdp : Str :=
  "v=0\r\no=- 0 0 IN IP4 10.0.0.5\r\nm=audio 5000 RTP/AVP 0\r\na=rtpmap:0 PCMU/8000\r\na=inactive\r\n".toList

/-- An SDP body of a peer that requires encryption. -/
def sample_required_sdp : Str :=
  "a=rtpmap:0 PCMU/8000\r\na=candidate:1 1 UDP 100 10.0.0.5 5000 typ host\r\na=encryption:required\r\n".toList

/-- A transaction of a hold INVITE, whose callback is `sipe_media_send_ack`. -/
def sample_hold_transaction : transaction :=
  { key := "<abc123><2 INVITE>".toList, callback := TransCallback.sipe_media_send_ack }

/-- A response that belongs to another call: its Call-ID is not the one of the
sample dialog. -/
def sample_late_response : sipmsg :=
  { response := 200, responsestr := some "OK".toList,
    headers := [⟨"Call-ID".toList, "other999".toList⟩], body := none }

/-- What a transaction callback leaves behind: the returned flag, the number of
actions in the trace and the dialog of the active call. -/
def callback_outcome (r : Option (Bool × sipe_core_private)) :
    Option (Bool × Nat × Option sip_dialog) :=
  r.map (fun p => (p.1, p.2.trace.length, p.2.media_call.bind (fun c => c.dialog)))

/-- The property `P` holds of the session in the active-call slot, when there is
one. -/
def slot_holds (P : sipe_media_call_private → Prop) (sipe_private : sipe_core_private) : Prop :=
  ∀ c, sipe_private.media_call = some c → P c

/-- The sessions `c` and `c1` agree on what the negotiation has settled: the
legacy flag, the remote candidate list, the remote codec list, the remote
attribute set and the local codecs of the backend. -/
def same_negotiated (c c1 : sipe_media_call_private) : Prop :=
  c1.legacy_mode = c.legacy_mode ∧ c1.remote_candidates = c.remote_candidates
    ∧ c1.remote_codecs = c.remote_codecs ∧ c1.sdp_attrs = c.sdp_attrs
    ∧ c1.backend_private.local_codecs = c.backend_private.local_codecs

/-- A property of sessions that the two parsing steps keep, that does not
depend on the fields outside `same_negotiated`, and that survives the release of
the attribute set when a new offer of the same call arrives. -/
structure session_invariant (P : sipe_media_call_private → Prop) : Prop where
  frame : ∀ c c1, same_negotiated c c1 → P c → P c1
  clear : ∀ c invitation, P c → P { c with invitation := invitation, sdp_attrs := [] }
  scan : ∀ c body ok c1,
    sipe_media_parse_sdp_attributes_and_candidates c body = some (ok, c1) → P c → P c1
  prune : ∀ c ok c1 es, sipe_media_parse_remote_codecs c = some (ok, c1, es) → P c → P c1

/-- The active sample session in legacy mode. -/
def sample_legacy_call : sipe_media_call_private :=
  { sample_active_call with legacy_mode := true }

/-- The endpoint after `call_hold_cb (call, FALSE, TRUE)` on the legacy sample
session. -/
def sample_legacy_held_endpoint : sipe_core_private :=
  (call_hold_cb (sample_endpoint (some sample_legacy_call)) false true).getD
    (sample_endpoint none)

/-- The remote candidates a successful scan yields: the candidates parsed from
the scanned attributes or, when there is none, the two legacy candidates of the
scanned `o=` address and `m=` port. -/
def scan_candidates (st : sdp_scan) : Option (List sipe_backend_candidate) :=
  (sipe_media_parse_remote_candidates st.sdp_attrs).map
    (fun parsed =>
      match parsed with
      | [] => sipe_media_parse_remote_candidates_legacy st.remote_ip st.remote_port
      | _ => parsed)

/-- The line loop of `sipe_media_parse_sdp_attributes_and_candidates` scans the
body `frame` without error and ends with the values `st`. -/
def scanned_body (frame : Str) (st : sdp_scan) : Prop :=
  parse_sdp_lines (g_strsplit frame "\r\n".toList 0) sdp_scan_init = some st
    ∧ st.no_error = true

/-- The remote lists of a session come from scanned SDP bodies: either nothing
has been stored yet, or the candidate list is what the scan of a body yields,
the attribute set is the one of that body or has been released, and the codec
list is empty or is the pruned list of the codecs parsed from the attributes of
a scanned body. -/
def lists_scanned (c : sipe_media_call_private) : Prop :=
  (c.remote_candidates = [] ∧ c.remote_codecs = [] ∧ c.sdp_attrs = [])
    ∨ ∃ frame st, scanned_body frame st
        ∧ scan_candidates st = some c.remote_candidates
        ∧ (c.sdp_attrs = st.sdp_attrs ∨ c.sdp_attrs = [])
        ∧ (c.remote_codecs = []
          ∨ ∃ frame0 st0 parsed, scanned_body frame0 st0
              ∧ sipe_media_parse_codecs st0.sdp_attrs = some parsed
              ∧ c.remote_codecs
                  = sipe_media_prune_remote_codecs c.backend_private.local_codecs parsed)

/-- The remote codec list follows the attribute set: it is empty, or it is the
pruned list of the codecs parsed from the attribute set the session holds,
unless the session has been released or its attribute set requires encryption. -/
def codecs_follow_attrs (c : sipe_media_call_private) : Prop :=
  c.remote_codecs = []
    ∨ (∃ parsed, sipe_media_parse_codecs c.sdp_attrs = some parsed
        ∧ c.remote_codecs
            = sipe_media_prune_remote_codecs c.backend_private.local_codecs parsed)
    ∨ c.freed = true
    ∨ encryption_levels_compatible c = false

/-- The remote lists of a session and the last scanned SDP body: either nothing
has been stored yet and both lists and the attribute set are empty; or there is
a scanned body `frame` such that the candidate list, which is not empty, is what
the scan of `frame` yields (its candidate attributes, or the two legacy
candidates of its `o=` and `m=` lines), the attribute set is the one of `frame`
or has been released, and the codec list is empty, or is the pruned list of the
codecs parsed from the attributes of `frame`, or, in a session that has been
released or whose attribute set requires encryption, is the pruned list of the
codecs parsed from the attributes of a scanned body. -/
def lists_from_sdp (c : sipe_media_call_private) : Prop :=
  (c.remote_candidates = [] ∧ c.remote_codecs = [] ∧ c.sdp_attrs = [])
    ∨ ∃ frame st, scanned_body frame st
        ∧ scan_candidates st = some c.remote_candidates
        ∧ c.remote_candidates ≠ []
        ∧ (c.sdp_attrs = st.sdp_attrs ∨ c.sdp_attrs = [])
        ∧ (c.remote_codecs = []
          ∨ (∃ parsed, sipe_media_parse_codecs st.sdp_attrs = some parsed
              ∧ c.remote_codecs
                  = sipe_media_prune_remote_codecs c.backend_private.local_codecs parsed)
          ∨ ((c.freed = true ∨ encryption_levels_compatible c = false)
              ∧ ∃ frame0 st0 parsed, scanned_body frame0 st0
                  ∧ sipe_media_parse_codecs st0.sdp_attrs = some parsed
                  ∧ c.remote_codecs
                      = sipe_media_prune_remote_codecs c.backend_private.local_codecs parsed))

/-- The endpoint states the call engine reaches: an endpoint without active call,
and every state a handler leaves behind when it returns. -/
inductive reachable : sipe_core_private → Prop where
  | idle (sp : sipe_core_private) (h : sp.media_call = none) : reachable sp
  | initiate_call (sp : sipe_core_private) (participant : CStr) (h : reachable sp) :
      reachable (sipe_core_media_initiate_call sp participant)
  | incoming_invite (sp sp1 : sipe_core_private) (msg : sipmsg) (h : reachable sp)
      (hstep : sipe_media_incoming_invite sp msg = some sp1) : reachable sp1
  | invite_response (sp sp1 : sipe_core_private) (msg : sipmsg) (trans : transaction)
      (r : Bool) (h : reachable sp)
      (hstep : process_invite_call_response sp msg trans = some (r, sp1)) : reachable sp1
  | send_ack (sp sp1 : sipe_core_private) (msg : sipmsg) (trans : transaction) (r : Bool)
      (h : reachable sp) (hstep : sipe_media_send_ack sp msg trans = some (r, sp1)) :
      reachable sp1
  | candidates_prepared (sp sp1 : sipe_core_private) (h : reachable sp)
      (hstep : candidates_prepared_cb sp = some sp1) : reachable sp1
  | call_accept (sp sp1 : sipe_core_private) (is_local : Bool) (h : reachable sp)
      (hstep : call_accept_cb sp is_local = some sp1) : reachable sp1
  | call_reject (sp sp1 : sipe_core_private) (is_local : Bool) (h : reachable sp)
      (hstep : call_reject_cb sp is_local = some sp1) : reachable sp1
  | call_hold (sp sp1 : sipe_core_private) (is_local state : Bool) (h : reachable sp)
      (hstep : call_hold_cb sp is_local state = some sp1) : reachable sp1
  | call_hangup (sp sp1 : sipe_core_private) (is_local : Bool) (h : reachable sp)
      (hstep : call_hangup_cb sp is_local = some sp1) : reachable sp1

/-- The sample endpoint after the inbound INVITE `sample_invite`: ringing. -/
def sample_ringing_endpoint : sipe_core_private :=
  (sipe_media_incoming_invite (sample_endpoint none) sample_invite).getD (sample_endpoint none)

/-- The test of the legacy loop of `sipe_media_sdp_candidates_format`: a
candidate of type host and component RTP. -/
def is_host_rtp (c : sipe_backend_candidate) : Bool :=
  decide (c.type = SipeCandidateType.SIPE_CANDIDATE_TYPE_HOST
    ∧ c.component = SipeComponentType.SIPE_COMPONENT_RTP)

/-- The last candidate of type host and component RTP of a list. -/
def last_host_rtp : List sipe_backend_candidate → Option sipe_backend_candidate
  | [] => none
  | c :: cs =>
    match last_host_rtp cs with
    | some d => some d
    | none => if is_host_rtp c then some c else none

/-- A backend with two local host candidates for RTP, on ports 6000 and 7000. -/
def sample_two_host_backend : sipe_backend_media :=
  { sample_backend with
    local_candidates :=
      [sample_local_candidate, { sample_local_candidate with foundation := some "2".toList,
                                                             port := 7000 }] }

/-- A backend with two local candidates (host and server-reflexive, both for
RTP) and two active remote candidates, the one for RTCP listed first. -/
def sample_srflx_backend : sipe_backend_media :=
  { sample_backend with
    local_candidates :=
      [sample_local_candidate,
       { sample_local_candidate with
         foundation := some "2".toList,
         type := SipeCandidateType.SIPE_CANDIDATE_TYPE_SRFLX, ip := some "203.0.113.9".toList,
         port := 7000, base_ip := some "192.168.1.2".toList, base_port := 6000 }],
    active_remote_candidates :=
      [{ sample_remote_candidate with component := SipeComponentType.SIPE_COMPONENT_RTCP,
                                      port := 5001 },
       sample_remote_candidate] }

/-- The specification's table of components: "component RTP for component-id 1,
RTCP for 2 and none for any other id". -/
def component_for_id (component_id : Int) : SipeComponentType :=
  (([(1, SipeComponentType.SIPE_COMPONENT_RTP), (2, SipeComponentType.SIPE_COMPONENT_RTCP)]
      : List (Int × SipeComponentType)).lookup component_id).getD
    SipeComponentType.SIPE_COMPONENT_NONE

/-- The specification's table of type tokens: `host`, `relay`, `srflx` and
`prflx`; every other token stands for no type. -/
def type_for_token (type_token : Str) : Option SipeCandidateType :=
  ([("host".toList, SipeCandidateType.SIPE_CANDIDATE_TYPE_HOST),
    ("relay".toList, SipeCandidateType.SIPE_CANDIDATE_TYPE_RELAY),
    ("srflx".toList, SipeCandidateType.SIPE_CANDIDATE_TYPE_SRFLX),
    ("prflx".toList, SipeCandidateType.SIPE_CANDIDATE_TYPE_PRFLX)]
      : List (Str × SipeCandidateType)).lookup type_token

/-- The candidate a `candidate` attribute stands for, read off its
space-separated fields as the specification words it, independently of the
parser: foundation, component id, transport, priority, IP, port, a seventh field
and the type token. Only transport `UDP` with a type token of the table
`type_for_token` gives a candidate; its component is the one the table
`component_for_id` gives to the component id, the numbers are the C `int` values
`atoi` reads, stored in a `guint32` (priority) and a `guint16` (port). -/
def candidate_of_fields : List Str → Option sipe_backend_candidate
  | foundation :: component_id :: transport :: priority :: ip :: port :: _ :: type_token :: _ =>
    if transport = "UDP".toList then
      (type_for_token type_token).map (fun typ =>
        { foundation := some foundation, component := component_for_id (atoi_str component_id),
          type := typ, protocol := SipeNetworkProtocol.SIPE_NETWORK_PROTOCOL_UDP,
          ip := some ip, port := (atoi_str port % 2 ^ 16).toNat,
          priority := (atoi_str priority % 2 ^ 32).toNat, username := none, password := none,
          base_ip := none, base_port := 0 })
    else none
  | _ => none

/-- The credentials a parsed candidate gets: when the attribute set has an
`ice-ufrag` attribute, the value of the first one as user name and the value of
the first `ice-pwd` attribute (`NULL` when there is none) as password. -/
def stamp_credentials (sdp_attrs : List sipnameval) (c : sipe_backend_candidate) :
    sipe_backend_candidate :=
  match (nameval_instances sdp_attrs "ice-ufrag".toList).head? with
  | some username =>
    { c with username := some username,
             password := (nameval_instances sdp_attrs "ice-pwd".toList).head? }
  | none => c

/-- An attribute set with ICE credentials and seven candidate attributes: UDP
host, TCP, unknown type, UDP relay with a related address, a server-reflexive
candidate with component id 3 and port 70000, a peer-reflexive one with
component id 4294967297 and priority -1, and one with component id 0. -/
def sample_mixed_candidate_attrs : List sipnameval :=
  [⟨"candidate".toList, "1 1 UDP 100 10.0.0.5 5000 typ host".toList⟩,
   ⟨"candidate".toList, "2 1 TCP 100 10.0.0.5 5000 typ host".toList⟩,
   ⟨"ice-ufrag".toList, "u".toList⟩,
   ⟨"candidate".toList, "3 2 UDP 7 10.0.0.6 5001 typ bogus".toList⟩,
   ⟨"candidate".toList, "4 2 UDP 7 10.0.0.6 5001 typ relay raddr 10.0.0.1 rport 9".toList⟩,
   ⟨"ice-pwd".toList, "p".toList⟩,
   ⟨"candidate".toList, "5 3 UDP 1 10.0.0.7 70000 typ srflx".toList⟩,
   ⟨"candidate".toList, "6 4294967297 UDP -1 10.0.0.8 1 typ prflx".toList⟩,
   ⟨"candidate".toList, "7 0 UDP 2 10.0.0.9 2 typ host".toList⟩]

/-- The `is_local` arguments of the hold signals (`sipe_backend_media_hold`)
among a list of actions. -/
def hold_signals : List effect → List Bool
  | [] => []
  | effect.sipe_backend_media_hold is_local :: es => is_local :: hold_signals es
  | _ :: es => hold_signals es

/-- A `name=value` token as `sipe_media_parse_codecs` recognises it: the name is
the leading run of letters and digits, it is not empty and is followed by `=`;
the value is what follows, up to white space, and is not empty. -/
def token_pair (tok : Str) : Option sipnameval :=
  match tok.dropWhile isalnum with
  | '=' :: r =>
    if tok.takeWhile isalnum = [] ∨ (r.dropWhile isspace).takeWhile (fun c => !isspace c) = []
    then none
    else some ⟨tok.takeWhile isalnum, (r.dropWhile isspace).takeWhile (fun c => !isspace c)⟩
  | _ => none

/-- The optional parameters the `fmtp` attributes give to the payload id `id`:
the `name=value` tokens, after the first token, of every `fmtp` attribute whose
leading payload id is `id`, in order of appearance. -/
def fmtp_params (id : Int) (fmtps : List Str) : List sipnameval :=
  ((fmtps.filter (fun p => decide (((g_strsplit_set p [' '] 0).head?.map atoi_str) = some id))).map
    (fun p => ((g_strsplit_set p [' '] 0).drop 1).filterMap token_pair)).flatten

/-- The codec an `rtpmap` attribute with three fields stands for: payload id,
encoding name and clock rate of the attribute, media kind audio, and the
optional parameters of the `fmtp` attributes for its payload id. -/
def codec_of_rtpmap (fmtps : List Str) (attr : Str) : sipe_backend_codec :=
  { id := atoi_str ((g_strsplit_set attr [' ', '/'] 3).getD 0 []),
    name := (g_strsplit_set attr [' ', '/'] 3).get? 1,
    clock_rate := atoi_str ((g_strsplit_set attr [' ', '/'] 3).getD 2 []),
    type := SipeMediaType.SIPE_MEDIA_AUDIO,
    optional_parameters :=
      fmtp_params (atoi_str ((g_strsplit_set attr [' ', '/'] 3).getD 0 [])) fmtps }

/-- An attribute set with an H264 codec whose `fmtp` parameter name has hyphens. -/
def sample_h264_attrs : List sipnameval :=
  [⟨"rtpmap".toList, "96 H264/90000".toList⟩,
   ⟨"fmtp".toList, "96 profile-level-id=42e01f".toList⟩]

/-- An attribute set with two codecs, the second with two `fmtp` parameters. -/
def sample_fmtp_attrs : List sipnameval :=
  [⟨"rtpmap".toList, "0 PCMU/8000".toList⟩,
   ⟨"rtpmap".toList, "101 telephone-event/8000".toList⟩,
   ⟨"fmtp".toList, "101 mode=20 0-16 ptime=30".toList⟩]

/-- The value of the `a=rtpmap:` line of a codec: `<id> <name>/<clock rate>`. -/
def rtpmap_value (c : sipe_backend_codec) : Str :=
  fmt_d c.id ++ ' ' :: (fmt_s c.name ++ '/' :: fmt_d c.clock_rate)

/-- The token `name=value` of an optional parameter. -/
def param_token (p : sipnameval) : Str := p.name ++ '=' :: p.value

/-- The value of the `a=fmtp:` line of a codec: the id and the parameter tokens. -/
def fmtp_value (c : sipe_backend_codec) : Str :=
  fmt_d c.id ++ sdp_codec_params_format c.optional_parameters

/-- The values of the `a=fmtp:` lines of a codec list: one per codec that has
optional parameters. -/
def fmtp_values : List sipe_backend_codec → List Str
  | [] => []
  | c :: cs =>
    (match c.optional_parameters with
     | [] => []
     | _ => [fmtp_value c]) ++ fmtp_values cs

/-- The attributes of the lines of the codec block: per codec an `rtpmap`
attribute and, when the codec has optional parameters, an `fmtp` attribute. -/
def codec_attrs : List sipe_backend_codec → List sipnameval
  | [] => []
  | c :: cs =>
    ⟨"rtpmap".toList, rtpmap_value c⟩
      :: ((match c.optional_parameters with
           | [] => []
           | _ => [⟨"fmtp".toList, fmtp_value c⟩]) ++ codec_attrs cs)

/-- The attributes the line loop of
`sipe_media_parse_sdp_attributes_and_candidates` collects from a text. -/
def text_attrs (text : Str) : Option (List sipnameval) :=
  (parse_sdp_lines (g_strsplit text "\r\n".toList 0) sdp_scan_init).map (fun st => st.sdp_attrs)

/-- An optional parameter that survives formatting and parsing: the name is a
non-empty run of at most 49 letters and digits, the value is non-empty, has no
white space and at most 49 characters. -/
def param_round_trips (p : sipnameval) : Prop :=
  p.name ≠ [] ∧ (∀ ch ∈ p.name, isalnum ch = true) ∧ p.name.length < 50
    ∧ p.value ≠ [] ∧ (∀ ch ∈ p.value, isspace ch = false) ∧ p.value.length < 50

/-- A codec that survives formatting and parsing: payload id and clock rate are
C `int` values, it is an audio codec with a name free of space, slash and
carriage return, and its parameters round-trip. -/
def codec_round_trips (c : sipe_backend_codec) : Prop :=
  (is_int c.id ∧ is_int c.clock_rate)
    ∧ c.type = SipeMediaType.SIPE_MEDIA_AUDIO
    ∧ (∃ n, c.name = some n ∧ ' ' ∉ n ∧ '/' ∉ n ∧ '\r' ∉ n)
    ∧ ∀ p ∈ c.optional_parameters, param_round_trips p

/-- The codec H264 with the optional parameter `profile-level-id=42e01f`. -/
def sample_h264 : sipe_backend_codec :=
  { id := 96, name := some "H264".toList, clock_rate := 90000,
    type := SipeMediaType.SIPE_MEDIA_AUDIO,
    optional_parameters := [⟨"profile-level-id".toList, "42e01f".toList⟩] }

/-- The codec iLBC with the optional parameter `mode=20`. -/
def sample_ilbc : sipe_backend_codec :=
  { id := 97, name := some "iLBC".toList, clock_rate := 8000,
    type := SipeMediaType.SIPE_MEDIA_AUDIO,
    optional_parameters := [⟨"mode".toList, "20".toList⟩] }

/-- The `for (i = candidates; i; i = i->next)` loop of `ensure_candidate_pairs`
(`purple-media.c`). A list link is named by the position its candidate has in
the list the function receives; the table `lone_cand_links` maps a foundation
text to a link. A foundation found in the table is removed from it, a foundation
not found is inserted with the current link. `none` when a foundation is `NULL`,
which `g_str_hash` reads. -/
def lone_cand_links_loop :
    List (Nat × sipe_backend_candidate) → List (Str × Nat) → Option (List (Str × Nat))
  | [], lone_cand_links => some lone_cand_links
  | (i, c) :: rest, lone_cand_links =>
    match c.foundation with
    | none => none
    | some foundation =>
      if lone_cand_links.any (fun e => decide (e.1 = foundation)) then
        lone_cand_links_loop rest
          (lone_cand_links.filter (fun e => decide (e.1 ≠ foundation)))
      else
        lone_cand_links_loop rest (lone_cand_links ++ [(foundation, i)])

/-- The callback `remove_lone_candidate_cb (key, value, user_data)`: the link
`value` is deleted from the candidate list (`g_list_delete_link`). -/
def remove_lone_candidate_cb (candidates : List (Nat × sipe_backend_candidate))
    (value : Nat) : List (Nat × sipe_backend_candidate) :=
  candidates.filter (fun e => decide (e.1 ≠ value))

/-- The function `ensure_candidate_pairs (candidates)` of `purple-media.c`: the
loop over the list, then `g_hash_table_foreach` with
`remove_lone_candidate_cb` over what is left in the table. -/
def ensure_candidate_pairs (candidates : List sipe_backend_candidate) :
    Option (List sipe_backend_candidate) :=
  match lone_cand_links_loop candidates.enum [] with
  | none => none
  | some lone_cand_links =>
    some ((lone_cand_links.foldl (fun l e => remove_lone_candidate_cb l e.2)
      candidates.enum).map Prod.snd)

/-- One of the two candidates is for RTP and the other one for RTCP. -/
def rtp_and_rtcp (a b : sipe_backend_candidate) : Prop :=
  (a.component = SipeComponentType.SIPE_COMPONENT_RTP
      ∧ b.component = SipeComponentType.SIPE_COMPONENT_RTCP)
    ∨ (a.component = SipeComponentType.SIPE_COMPONENT_RTCP
      ∧ b.component = SipeComponentType.SIPE_COMPONENT_RTP)

/-- The invariant of the loop of `ensure_candidate_pairs` after the links
`seen`: a link in the table belongs to a candidate seen with the foundation of
its key, and a candidate seen whose link is not in the table has the foundation
of another candidate seen whose link is not in the table. -/
def lone_links_invariant (seen : List (Nat × sipe_backend_candidate))
    (lone_cand_links : List (Str × Nat)) : Prop :=
  (∀ e ∈ lone_cand_links, ∃ d, (e.2, d) ∈ seen ∧ d.foundation = some e.1)
    ∧ ∀ x ∈ seen, x.1 ∉ lone_cand_links.map Prod.snd →
        ∃ y ∈ seen, y.1 ∉ lone_cand_links.map Prod.snd ∧ y.1 ≠ x.1
          ∧ y.2.foundation = x.2.foundation

/-- A local candidate with the given foundation and component. -/
def sample_component_candidate (foundation : Str) (component : SipeComponentType) :
    sipe_backend_candidate :=
  { sample_local_candidate with foundation := some foundation, component := component }

/-- The outbound sample session on a backend that refuses the remote codecs. -/
def sample_refusing_outbound_call : sipe_media_call_private :=
  { sample_outbound_call with
    backend_private := { sample_outbound_call.backend_private with
                         set_remote_codecs_ok := false } }

/-- An offer with the codec PCMA and one candidate, from a peer that requires
encryption. -/
def sample_required_offer_sdp : Str :=
  "a=rtpmap:8 PCMA/8000\r\na=candidate:2 1 UDP 50 10.0.0.9 9000 typ host\r\na=encryption:required\r\n".toList

/-- An offer with the codec PCMA and one candidate. -/
def sample_unshared_offer_sdp : Str :=
  "a=rtpmap:8 PCMA/8000\r\na=candidate:2 1 UDP 50 10.0.0.9 9000 typ host\r\n".toList

/-- The candidate of the line `2 1 UDP 50 10.0.0.9 9000 typ host`. -/
def sample_second_candidate : sipe_backend_candidate :=
  { foundation := some "2".toList, component := SipeComponentType.SIPE_COMPONENT_RTP,
    type := SipeCandidateType.SIPE_CANDIDATE_TYPE_HOST,
    protocol := SipeNetworkProtocol.SIPE_NETWORK_PROTOCOL_UDP,
    ip := some "10.0.0.9".toList, port := 9000, priority := 50, username := none,
    password := none, base_ip := none, base_port := 0 }

/-- The sample endpoint after the inbound INVITE with the scenario body and the
following `candidates_prepared_cb`: the offer is answered, the session holds the
codec PCMU and the candidate of the offer. -/
def sample_answered_endpoint : sipe_core_private :=
  ((sipe_media_incoming_invite (sample_endpoint none)
      { sample_invite with body := some sample_ice_sdp }).bind candidates_prepared_cb).getD
    (sample_endpoint none)

/-- The answered sample endpoint after a further INVITE of the same call with
the given body. -/
def sample_reoffered_endpoint (body : Str) : sipe_core_private :=
  (sipe_media_incoming_invite sample_answered_endpoint
    { sample_invite with body := some body }).getD (sample_endpoint none)


/-- The values scanned from `sample_required_offer_sdp`. -/
def sample_required_offer_scan : sdp_scan :=
  { sdp_attrs :=
      [⟨"rtpmap".toList, "8 PCMA/8000".toList⟩,
       ⟨"candidate".toList, "2 1 UDP 50 10.0.0.9 9000 typ host".toList⟩,
       ⟨"encryption".toList, "required".toList⟩],
    remote_ip := none, remote_port := 0, no_error := true }

/-- The values scanned from `sample_unshared_offer_sdp`. -/
def sample_unshared_offer_scan : sdp_scan :=
  { sdp_attrs :=
      [⟨"rtpmap".toList, "8 PCMA/8000".toList⟩,
       ⟨"candidate".toList, "2 1 UDP 50 10.0.0.9 9000 typ host".toList⟩],
    remote_ip := none, remote_port := 0, no_error := true }

/-! ## Theorems -/

/-- The list search of the pruning step finds a codec exactly when its name is
the name of some local codec. -/
theorem g_list_find_custom_iff (list : List sipe_backend_codec) (c : sipe_backend_codec) :
    g_list_find_custom list c = true ↔ c.name ∈ list.map (fun d => d.name) := by
  induction list with
  | nil => simp [g_list_find_custom]
  | cons d l ih =>
    unfold g_list_find_custom
    by_cases h : d.name = c.name
    · simp [codec_name_compare, g_strcmp0_eq, h]
    · have h2 : ¬ c.name = d.name := fun e => h e.symm
      simp [codec_name_compare, g_strcmp0_eq, h, h2, ih]

/-- C1: `sipe_media_prune_remote_codecs (local, remote)` is exactly the sub-list
of `remote`, in remote order, of the codecs whose name equals (exact string
equality) the name of some codec of `local`; the test reads nothing but the
names, and a remote codec whose name is absent from `local` is left out. -/
theorem prune_remote_codecs_eq_filter (local_codecs remote_codecs : List sipe_backend_codec) :
    sipe_media_prune_remote_codecs local_codecs remote_codecs
      = remote_codecs.filter
          (fun c => decide (c.name ∈ local_codecs.map (fun d => d.name))) := by
  induction remote_codecs with
  | nil => rfl
  | cons c r ih =>
    unfold sipe_media_prune_remote_codecs
    by_cases h : c.name ∈ local_codecs.map (fun d => d.name)
    · have hf := (g_list_find_custom_iff local_codecs c).2 h
      rw [if_pos hf, ih, List.filter_cons_of_pos (by simpa using h)]
    · have hf : ¬ g_list_find_custom local_codecs c = true :=
        fun e => h ((g_list_find_custom_iff local_codecs c).1 e)
      rw [if_neg hf, ih, List.filter_cons_of_neg (by simpa using h)]

/-- Two different two-character prefixes ending in `=` exclude each other. -/
theorem has_prefix_exclusive (line : Str) (a b : Char) (hab : a ≠ b)
    (h : g_str_has_prefix line [a, '='] = true) : g_str_has_prefix line [b, '='] = false := by
  cases line with
  | nil => simp [ g_str_has_prefix] at h
  | cons c t =>
    simp only [ g_str_has_prefix, List.isPrefixOf, Bool.and_eq_true, beq_iff_eq] at h
    have hbc : ¬ b = c := fun e => hab (h.1.trans e.symm)
    simp [ g_str_has_prefix, List.isPrefixOf, hbc]

/-- Reading a token that exists with `strv_get` agrees with `List.get?`. -/
theorem strv_get_eq_get? (v : List Str) (i : Nat) (r : CStr) (h : strv_get v i = some r) :
    v.get? i = r := by
  unfold strv_get at h
  split at h
  · simpa using h
  · split at h
    · simp only [Option.some.injEq] at h
      subst h
      exact List.get?_eq_none.2 (by omega)
    · exact absurd h (by simp)

/-- When the line loop ends without error, the scanned IP and port are those of
the last `o=` and `m=` lines. -/
theorem parse_sdp_lines_reads (lines : List Str) :
    ∀ st st1 : sdp_scan, parse_sdp_lines lines st = some st1 → st1.no_error = true →
      st1.remote_ip = origin_ip_of_lines lines st.remote_ip
        ∧ st1.remote_port = media_port_of_lines lines st.remote_port := by
  induction lines with
  | nil =>
    intro st st1 h _
    simp only [parse_sdp_lines, Option.some.injEq] at h
    subst h
    simp [origin_ip_of_lines, media_port_of_lines]
  | cons line rest ih =>
    intro st st1 h hne
    unfold parse_sdp_lines at h
    by_cases ha : g_str_has_prefix line "a=".toList = true
    · have ho : g_str_has_prefix line "o=".toList = false :=
        has_prefix_exclusive line 'a' 'o' (by decide) ha
      have hm : g_str_has_prefix line "m=".toList = false :=
        has_prefix_exclusive line 'a' 'm' (by decide) ha
      rw [if_pos ha] at h
      simp only [origin_ip_of_lines, media_port_of_lines, ho, hm, Bool.false_eq_true, if_false]
      dsimp only at h
      split at h
      · exact absurd h (by simp)
      · simp only [Option.some.injEq] at h
        subst h
        simp at hne
      · split at h
        · exact absurd h (by simp)
        · have := ih _ st1 h hne
          exact this
    · rw [if_neg ha] at h
      by_cases ho : g_str_has_prefix line "o=".toList = true
      · have hm : g_str_has_prefix line "m=".toList = false :=
          has_prefix_exclusive line 'o' 'm' (by decide) ho
        rw [if_pos ho] at h
        simp only [origin_ip_of_lines, media_port_of_lines, ho, hm, Bool.false_eq_true,
          if_false, if_true]
        dsimp only at h
        split at h
        · exact absurd h (by simp)
        · rename_i p5 hp5
          have := ih _ st1 h hne
          rw [strv_get_eq_get? _ _ _ hp5]
          exact this
      · rw [if_neg ho] at h
        by_cases hm : g_str_has_prefix line "m=".toList = true
        · rw [if_pos hm] at h
          simp only [origin_ip_of_lines, media_port_of_lines, ho, hm, Bool.false_eq_true,
            if_false, if_true]
          dsimp only at h
          split at h
          · exact absurd h (by simp)
          · rename_i p1 hp1
            split at h
            · exact absurd h (by simp)
            · rename_i v hv
              have := ih _ st1 h hne
              cases p1 with
              | none => simp [atoi] at hv
              | some f =>
                simp only [atoi, Option.map_some', Option.some.injEq] at hv
                rw [strv_get_eq_get? _ _ _ hp1]
                simp only
                rw [hv]
                exact this
        · rw [if_neg hm] at h
          simp only [origin_ip_of_lines, media_port_of_lines, ho, hm, Bool.false_eq_true,
            if_false]
          exact ih _ st1 h hne

/-- An attribute set without any `candidate` attribute yields no candidate. -/
theorem parse_remote_candidates_without_candidate_attr (sdp_attrs : List sipnameval)
    (h : nameval_instances sdp_attrs "candidate".toList = []) :
    sipe_media_parse_remote_candidates sdp_attrs = some [] := by
  unfold sipe_media_parse_remote_candidates
  rw [h]
  simp only [parse_candidates]
  cases sipe_utils_nameval_find sdp_attrs "ice-ufrag".toList <;> simp

/-- C2: when an SDP body parses without error and
`sipe_media_parse_remote_candidates` yields no candidate from its attributes,
`sipe_media_parse_sdp_attributes_and_candidates` stores exactly two remote
candidates, both of type host over UDP at the IP of the `o=` line, the first
with component RTP at the port of the `m=` line and the second with component
RTCP at that port + 1, and `legacy_mode` is `TRUE` afterwards. -/
theorem parse_sdp_legacy_candidates (call_private call1 : sipe_media_call_private)
    (frame : Str)
    (h : sipe_media_parse_sdp_attributes_and_candidates call_private (some frame)
          = some (true, call1))
    (hc : sipe_media_parse_remote_candidates call1.sdp_attrs = some []) :
    call1.remote_candidates =
      [ { foundation := some "foundation".toList,
          component := SipeComponentType.SIPE_COMPONENT_RTP,
          type := SipeCandidateType.SIPE_CANDIDATE_TYPE_HOST,
          protocol := SipeNetworkProtocol.SIPE_NETWORK_PROTOCOL_UDP,
          ip := sdp_origin_ip frame, port := sdp_media_port frame, priority := 0,
          username := none, password := none, base_ip := none, base_port := 0 },
        { foundation := some "foundation".toList,
          component := SipeComponentType.SIPE_COMPONENT_RTCP,
          type := SipeCandidateType.SIPE_CANDIDATE_TYPE_HOST,
          protocol := SipeNetworkProtocol.SIPE_NETWORK_PROTOCOL_UDP,
          ip := sdp_origin_ip frame, port := sdp_media_port frame + 1, priority := 0,
          username := none, password := none, base_ip := none, base_port := 0 } ]
      ∧ call1.legacy_mode = true := by
  unfold sipe_media_parse_sdp_attributes_and_candidates at h
  simp only at h
  split at h
  · exact absurd h (by simp)
  · rename_i st hst
    split at h
    · exact absurd h (by simp)
    · rename_i parsed hp
      split at h
      · rename_i hne
        simp only [Option.some.injEq, Prod.mk.injEq, true_and] at h
        subst h
        simp only at hc
        rw [hp] at hc
        simp only [Option.some.injEq] at hc
        subst hc
        have hr := parse_sdp_lines_reads _ _ _ hst hne
        simp only at hr
        simp [sipe_media_parse_remote_candidates_legacy, sipe_backend_candidate_new,
          sdp_origin_ip, sdp_media_port, hr.1, hr.2]
      · simp at h

/-- C2 at a concrete body without `a=candidate` line. -/
theorem parse_sdp_legacy_candidates_witness :
    ∃ call1,
      sipe_media_parse_sdp_attributes_and_candidates sample_call (some sample_legacy_sdp)
        = some (true, call1)
      ∧ sipe_media_parse_remote_candidates call1.sdp_attrs = some []
      ∧ call1.remote_candidates.map (fun c => (c.component, c.ip, c.port))
          = [(SipeComponentType.SIPE_COMPONENT_RTP, some "10.0.0.5".toList, 5000),
             (SipeComponentType.SIPE_COMPONENT_RTCP, some "10.0.0.5".toList, 5001)]
      ∧ call1.legacy_mode = true :=
  ⟨_, rfl, rfl, by
    have h := parse_sdp_legacy_candidates sample_call _ sample_legacy_sdp rfl rfl
    rw [h.1]
    decide, (parse_sdp_legacy_candidates sample_call _ sample_legacy_sdp rfl rfl).2⟩

/-- C3: for the call in the active-call slot, with its invitation `inv` stored,
the local accept path `call_accept_cb (call, TRUE)` behaves as follows. If the
`encryption` attribute of the stored remote attribute set is exactly
"required", it sends the single response 488 (followed by the backend reject
and the user-facing error) and no 200 OK. If the attribute is absent or has any
other value, it sends exactly one response, 200 OK carrying the SDP that
`sipe_media_create_sdp` builds, and no 488. -/
theorem call_accept_encryption_gate (sipe_private : sipe_core_private)
    (call_private : sipe_media_call_private) (inv : sipmsg)
    (hslot : sipe_private.media_call = some call_private)
    (hinv : call_private.invitation = some inv) :
    (sipe_utils_nameval_find call_private.sdp_attrs "encryption".toList
        = some "required".toList →
      call_accept_cb sipe_private true
        = some (emit { sipe_private with
                       media_call := some { call_private with
                         invitation := some (sipmsg_add_header inv "Warning".toList
                           "308 lcs.microsoft.com \"Encryption Levels not compatible\"".toList) } }
            [effect.sip_transport_response
               (sipmsg_add_header inv "Warning".toList
                 "308 lcs.microsoft.com \"Encryption Levels not compatible\"".toList)
               488 "Encryption Levels not compatible".toList none,
             effect.sipe_backend_media_reject false,
             effect.sipe_backend_notify_error "Unable to establish a call".toList
               "Encryption settings of peer are incompatible with ours.".toList]))
    ∧ (sipe_utils_nameval_find call_private.sdp_attrs "encryption".toList
        ≠ some "required".toList →
      ∀ body, sipe_media_create_sdp sipe_private.local_ip call_private = some body →
        call_accept_cb sipe_private true
          = some (emit { sipe_private with
                         media_call := some { call_private with
                           invitation := some (sipmsg_add_header inv "Content-Type".toList
                             "application/sdp".toList) } }
              [effect.sip_transport_response
                 (sipmsg_add_header inv "Content-Type".toList "application/sdp".toList)
                 200 "OK".toList (some body)])) := by
  constructor
  · intro henc
    have hc : encryption_levels_compatible call_private = false := by
      unfold encryption_levels_compatible sipe_strequal
      rw [henc]
      simp only [decide_True, Bool.not_true]
    simp only [call_accept_cb, hslot, hc, handle_incompatible_encryption_level, hinv,
      Bool.not_false, if_true]
  · intro henc body hbody
    have hc : encryption_levels_compatible call_private = true := by
      unfold encryption_levels_compatible sipe_strequal
      simp only [henc, decide_False, Bool.not_false]
    simp only [call_accept_cb, hslot, hc, send_response_with_session_description, hinv, hbody,
      Bool.not_true, if_true, Bool.false_eq_true, if_false]

/-- C3 at two concrete sessions: one whose peer requires encryption (only the
488 goes out) and one whose peer rejects it (only the 200 OK goes out). -/
theorem call_accept_encryption_gate_witness :
    (call_accept_cb
        (sample_endpoint (some (sample_inbound_call
          [⟨"encryption".toList, "required".toList⟩]))) true).map
      (fun s => s.trace.map (fun e =>
        match e with
        | effect.sip_transport_response _ code _ _ => some code
        | _ => none))
      = some [some 488, none, none]
    ∧ (call_accept_cb
        (sample_endpoint (some (sample_inbound_call
          [⟨"encryption".toList, "rejected".toList⟩]))) true).map
      (fun s => s.trace.map (fun e =>
        match e with
        | effect.sip_transport_response _ code _ _ => some code
        | _ => none))
      = some [some 200] := by
  constructor
  · rw [(call_accept_encryption_gate
      (sample_endpoint (some (sample_inbound_call [⟨"encryption".toList, "required".toList⟩])))
      (sample_inbound_call [⟨"encryption".toList, "required".toList⟩]) sample_invite rfl rfl).1
      (by decide)]
    rfl
  · rw [(call_accept_encryption_gate
      (sample_endpoint (some (sample_inbound_call [⟨"encryption".toList, "rejected".toList⟩])))
      (sample_inbound_call [⟨"encryption".toList, "rejected".toList⟩]) sample_invite rfl rfl).2
      (by decide) _ rfl]
    rfl

/-- C4: while a call session is active, a competing call attempt leaves it
unchanged. `sipe_media_incoming_invite` with a Call-ID different from the call
id of the active dialog sends exactly one response, 486 Busy Here, and changes
neither the active-call slot nor any field of the session in it;
`sipe_core_media_initiate_call` sends nothing and changes nothing. -/
theorem competing_call_leaves_session (sipe_private : sipe_core_private)
    (call_private : sipe_media_call_private) (dialog : sip_dialog) (msg : sipmsg)
    (hslot : sipe_private.media_call = some call_private)
    (hdialog : call_private.dialog = some dialog)
    (hid : dialog.callid ≠ sipmsg_find_header msg "Call-ID".toList) :
    sipe_media_incoming_invite sipe_private msg
        = some { sipe_private with
                 trace := sipe_private.trace
                   ++ [effect.sip_transport_response msg 486 "Busy Here".toList none] }
      ∧ ∀ participant, sipe_core_media_initiate_call sipe_private participant = sipe_private := by
  constructor
  · have hne : sipe_strequal dialog.callid (sipmsg_find_header msg "Call-ID".toList) = false := by
      unfold sipe_strequal
      simp only [hid, decide_False]
    simp only [sipe_media_incoming_invite, hslot, hdialog, hne, emit, Bool.false_eq_true,
      if_false]
  · intro participant
    simp only [sipe_core_media_initiate_call, hslot]

/-- C4 at a concrete endpoint with an active call and an INVITE of another
call. -/
theorem competing_call_leaves_session_witness :
    (sipe_media_incoming_invite (sample_endpoint (some (sample_inbound_call [])))
        { sample_invite with headers := [⟨"Call-ID".toList, "other".toList⟩] }).map
      (fun s => (s.media_call, s.trace))
      = some (some (sample_inbound_call []),
          [effect.sip_transport_response
            { sample_invite with headers := [⟨"Call-ID".toList, "other".toList⟩] }
            486 "Busy Here".toList none])
    ∧ sipe_core_media_initiate_call (sample_endpoint (some (sample_inbound_call [])))
        (some "sip:carol@example.com".toList)
      = sample_endpoint (some (sample_inbound_call [])) := by
  have h := competing_call_leaves_session (sample_endpoint (some (sample_inbound_call [])))
    (sample_inbound_call []) sample_dialog
    { sample_invite with headers := [⟨"Call-ID".toList, "other".toList⟩] } rfl rfl (by decide)
  constructor
  · rw [h.1]
    rfl
  · exact h.2 _

/-! ### Splitting and number formatting -/

/-- A token without a space in front of a space is split off. -/
theorem split_set_go_token (t rest : Str) (m n : Nat) (ht : ' ' ∉ t) :
    g_strsplit_set_go [' '] true m (t ++ ' ' :: rest) n
      = t :: g_strsplit_set_go [' '] true m rest (n + 1) := by
  induction t with
  | nil => simp [g_strsplit_set_go]
  | cons c t ih =>
    have hc : ¬ c = ' ' := fun e => ht (by simp [e])
    have ht1 : ' ' ∉ t := fun e => ht (by simp [e])
    simp [g_strsplit_set_go, hc, ih ht1, consHead]

/-- A string without a space is a single token. -/
theorem split_set_go_last (t : Str) (m n : Nat) (ht : ' ' ∉ t) :
    g_strsplit_set_go [' '] true m t n = [t] := by
  induction t with
  | nil => simp [g_strsplit_set_go]
  | cons c t ih =>
    have hc : ¬ c = ' ' := fun e => ht (by simp [e])
    have ht1 : ' ' ∉ t := fun e => ht (by simp [e])
    simp [g_strsplit_set_go, hc, ih ht1, consHead]

/-- Splitting space-joined fields that contain no space gives the fields back. -/
theorem split_set_go_join (toks : List Str) (hne : toks ≠ [])
    (h : ∀ t ∈ toks, ' ' ∉ t) (m : Nat) :
    ∀ n, g_strsplit_set_go [' '] true m (join_sp toks) n = toks := by
  induction toks with
  | nil => exact absurd rfl hne
  | cons t ts ih =>
    intro n
    cases ts with
    | nil => simpa [join_sp] using split_set_go_last t m n (h t (by simp))
    | cons u us =>
      have h1 : ' ' ∉ t := h t (by simp)
      have h2 : ∀ x ∈ u :: us, ' ' ∉ x := fun x hx => h x (by simp [hx])
      simp only [join_sp]
      rw [split_set_go_token t _ m n h1, ih (by simp) h2]

/-- The tokens `g_strsplit_set (attr, " ", 0)` gives for at least two
space-joined fields without a space. -/
theorem split_set_join (t u : Str) (us : List Str) (h : ∀ x ∈ t :: u :: us, ' ' ∉ x) :
    g_strsplit_set (join_sp (t :: u :: us)) [' '] 0 = t :: u :: us := by
  have hgo := split_set_go_join (t :: u :: us) (by simp) h 0 0
  unfold g_strsplit_set
  split
  · rename_i e
    have : (join_sp (t :: u :: us)).length = 0 := by rw [e]; rfl
    simp [join_sp] at this
  · simpa using hgo

/-- A decimal digit character is a digit with the value it stands for. -/
theorem digitChar_spec (d : Nat) :
    isdigit (digitChar d) = true ∧ (digitChar d).toNat - 48 = d % 10
      ∧ digitChar d ≠ ' ' := by
  have hlt : d % 10 < 10 := Nat.mod_lt _ (by decide)
  unfold digitChar
  generalize d % 10 = k at hlt
  interval_cases k <;> decide

/-- The digits `%u` prints read back as the number. -/
theorem atoi_digits_fmt_u_go (fuel : Nat) :
    ∀ n acc, n < fuel → atoi_digits (fmt_u_go fuel n acc) 0 = atoi_digits acc n := by
  induction fuel with
  | zero => intro n acc h; omega
  | succ fuel ih =>
    intro n acc h
    unfold fmt_u_go
    by_cases h10 : n < 10
    · rw [if_pos h10]
      have hd := digitChar_spec n
      simp only [atoi_digits, hd.1, if_true, hd.2.1]
      congr 1
      omega
    · rw [if_neg h10, ih (n / 10) _ (by omega)]
      have hd := digitChar_spec n
      simp only [atoi_digits, hd.1, if_true, hd.2.1]
      congr 1
      omega

/-- Every character `%u` prints is a digit, given that the tail is. -/
theorem fmt_u_go_digits (fuel : Nat) :
    ∀ n acc, (∀ c ∈ acc, isdigit c = true) → ∀ c ∈ fmt_u_go fuel n acc, isdigit c = true := by
  induction fuel with
  | zero => intro n acc h; simpa [fmt_u_go] using h
  | succ fuel ih =>
    intro n acc h
    unfold fmt_u_go
    have hd := digitChar_spec n
    by_cases h10 : n < 10
    · rw [if_pos h10]
      intro c hc
      rcases List.mem_cons.1 hc with e | e
      · rw [e]; exact hd.1
      · exact h c e
    · rw [if_neg h10]
      apply ih
      intro c hc
      rcases List.mem_cons.1 hc with e | e
      · rw [e]; exact hd.1
      · exact h c e

/-- A digit is neither a space nor a sign. -/
theorem isdigit_not_special (c : Char) (h : isdigit c = true) :
    c ≠ ' ' ∧ c ≠ '-' ∧ c ≠ '+' ∧ isspace c = false := by
  have hb : 48 ≤ c.toNat ∧ c.toNat ≤ 57 := by
    unfold isdigit at h
    simp only [Bool.and_eq_true, decide_eq_true_eq] at h
    exact h
  refine ⟨?_, ?_, ?_, ?_⟩
  · intro e; rw [e] at h; exact absurd h (by decide)
  · intro e; rw [e] at h; exact absurd h (by decide)
  · intro e; rw [e] at h; exact absurd h (by decide)
  · unfold isspace
    have h1 : ¬ c = ' ' := by intro e; rw [e] at h; exact absurd h (by decide)
    have h2 : ¬ c = '\t' := by intro e; rw [e] at h; exact absurd h (by decide)
    have h3 : ¬ c = '\n' := by intro e; rw [e] at h; exact absurd h (by decide)
    have h4 : ¬ c = '\r' := by intro e; rw [e] at h; exact absurd h (by decide)
    have h5 : ¬ c.toNat = 11 := by omega
    have h6 : ¬ c.toNat = 12 := by omega
    simp [h1, h2, h3, h4, h5, h6]

/-- A value that fits a C `int` is what `atoi` returns for it. -/
theorem int_of_long_of_is_int (v : Int) (h : is_int v) : int_of_long (strtol_value v) = v := by
  obtain ⟨h1, h2⟩ := h
  unfold strtol_value int_of_long
  rw [if_neg (by omega), if_neg (by omega)]
  omega

/-- The value `atoi` returns fits a C `int`. -/
theorem int_of_long_is_int (v : Int) : is_int (int_of_long v) := by
  unfold is_int int_of_long
  constructor <;> omega

/-- Storing what `atoi` returns in a `guint32` or in a `guint16` gives the value
of the digits modulo 2^32 or 2^16, as long as the value fits a `long`. -/
theorem int_of_long_mod (v : Int) (h1 : -(2 ^ 63) ≤ v) (h2 : v < 2 ^ 63) :
    int_of_long (strtol_value v) % 2 ^ 32 = v % 2 ^ 32
      ∧ int_of_long (strtol_value v) % 2 ^ 16 = v % 2 ^ 16 := by
  unfold strtol_value int_of_long
  rw [if_neg (by omega), if_neg (by omega)]
  constructor <;> omega

/-- On a string of digits `atoi` is the value of the digits, as a C `int`. -/
theorem atoi_str_digits (s : Str) (h : ∀ c ∈ s, isdigit c = true) :
    atoi_str s = int_of_long (strtol_value (atoi_digits s 0 : Int)) := by
  cases s with
  | nil => rfl
  | cons c t =>
    have hc := isdigit_not_special c (h c (by simp))
    unfold atoi_str
    rw [List.dropWhile_cons_of_neg (by simp [hc.2.2.2])]
    unfold atoi_signed
    split
    · rename_i e; exact absurd (List.cons.inj e).1 hc.2.1
    · rename_i e; exact absurd (List.cons.inj e).1 hc.2.2.1
    · rfl

/-- The text of `%u` has no space and reads back as the number, as a C `int`. -/
theorem fmt_u_spec (n : Nat) :
    ' ' ∉ fmt_u n ∧ atoi_str (fmt_u n) = int_of_long (strtol_value (n : Int)) := by
  have hd : ∀ c ∈ fmt_u n, isdigit c = true :=
    fmt_u_go_digits (n + 1) n [] (by simp)
  constructor
  · intro hmem
    exact absurd (hd _ hmem) (by decide)
  · rw [atoi_str_digits _ hd]
    have := atoi_digits_fmt_u_go (n + 1) n [] (by omega)
    unfold fmt_u
    rw [this]
    rfl

/-- The text of `%u` of a number below 2^31 reads back as the number. -/
theorem atoi_str_fmt_u (n : Nat) (h : n < 2 ^ 31) : atoi_str (fmt_u n) = (n : Int) := by
  rw [(fmt_u_spec n).2]
  exact int_of_long_of_is_int _ ⟨by omega, by omega⟩

/-- What `parse_candidate` returns when the attribute splits into at least eight
tokens, the third being `UDP` and the eighth a known type. -/
theorem parse_candidate_of_tokens (attr F C P IP PORT x T : Str) (rest : List Str)
    (typ : SipeCandidateType)
    (h : g_strsplit_set attr [' '] 0 = F :: C :: "UDP".toList :: P :: IP :: PORT :: x :: T :: rest)
    (hT : candidate_type_of (some T) = some typ) :
    parse_candidate attr = some (some
      { foundation := some F, component := component_of_id (atoi_str C), type := typ,
        protocol := SipeNetworkProtocol.SIPE_NETWORK_PROTOCOL_UDP, ip := some IP,
        port := (atoi_str PORT % 2 ^ 16).toNat, priority := (atoi_str P % 2 ^ 32).toNat,
        username := none, password := none, base_ip := none, base_port := 0 }) := by
  unfold parse_candidate
  simp only [h, strv_get, List.length_cons, List.get?_cons_succ, List.get?_cons_zero]
  simp [atoi, sipe_strequal, hT, sipe_backend_candidate_new, sipe_backend_candidate_set_priority]

/-- The type text is read back as the type. -/
theorem candidate_type_of_type_text (typ : SipeCandidateType) :
    candidate_type_of (some (type_text typ)) = some typ ∧ ' ' ∉ type_text typ := by
  cases typ <;> exact ⟨by decide, by decide⟩

/-- The component id text is read back as the component. -/
theorem component_of_id_fmt_u (comp : SipeComponentType) :
    component_of_id (atoi_str (fmt_u comp.toNat)) = comp := by
  cases comp <;> decide

/-- The related-address clause of a candidate without base address, as
space-joined fields after the type. -/
theorem related_text_fields (c : sipe_backend_candidate) (hip : c.base_ip = none)
    (hport : c.base_port = 0) :
    ∃ extra : List Str, extra ≠ [] ∧ (∀ t ∈ extra, ' ' ∉ t) ∧ related_text c = join_sp extra := by
  unfold related_text
  cases c.type
  · exact ⟨[[]], by simp, by simp, rfl⟩
  · exact ⟨[[]], by simp, by simp, rfl⟩
  · refine ⟨["raddr".toList, "(null)".toList, "rport".toList, "0".toList], by simp, by decide, ?_⟩
    simp only [hip, hport]
    decide
  · exact ⟨[[]], by simp, by simp, rfl⟩

/-- The candidate parsed from a valid attribute value. -/
theorem parse_candidate_attr_value (F P IP PORT : Str) (comp : SipeComponentType)
    (typ : SipeCandidateType) (hF : ' ' ∉ F) (hP : ' ' ∉ P) (hIP : ' ' ∉ IP)
    (hPORT : ∀ c ∈ PORT, isdigit c = true) (hrange : atoi_digits PORT 0 < 2 ^ 16) :
    parse_candidate (candidate_attr_value F comp P IP PORT typ) = some (some
      { foundation := some F, component := comp, type := typ,
        protocol := SipeNetworkProtocol.SIPE_NETWORK_PROTOCOL_UDP, ip := some IP,
        port := atoi_digits PORT 0, priority := (atoi_str P % 2 ^ 32).toNat,
        username := none, password := none, base_ip := none, base_port := 0 }) := by
  have hPORTsp : ' ' ∉ PORT := fun hm => absurd (hPORT _ hm) (by decide)
  have hjoin : candidate_attr_value F comp P IP PORT typ
      = join_sp [F, fmt_u comp.toNat, "UDP".toList, P, IP, PORT, "typ".toList, type_text typ] := by
    simp [candidate_attr_value, join_sp]
  have hsplit := split_set_join F (fmt_u comp.toNat)
    ["UDP".toList, P, IP, PORT, "typ".toList, type_text typ] (by
      intro x hx
      simp only [List.mem_cons, List.mem_singleton, List.not_mem_nil, or_false] at hx
      rcases hx with e | e | e | e | e | e | e | e
      · rw [e]; exact hF
      · rw [e]; exact (fmt_u_spec _).1
      · rw [e]; decide
      · rw [e]; exact hP
      · rw [e]; exact hIP
      · rw [e]; exact hPORTsp
      · rw [e]; decide
      · rw [e]; exact (candidate_type_of_type_text typ).2)
  rw [← hjoin] at hsplit
  have hat : atoi_str PORT = (atoi_digits PORT 0 : Int) := by
    rw [atoi_str_digits PORT hPORT]
    exact int_of_long_of_is_int _ ⟨by omega, by omega⟩
  rw [parse_candidate_of_tokens _ _ _ _ _ _ _ _ _ typ hsplit (candidate_type_of_type_text typ).1,
    component_of_id_fmt_u, hat]
  have hp : ((atoi_digits PORT 0 : Int) % 2 ^ 16).toNat = atoi_digits PORT 0 := by omega
  rw [hp]

/-- C5: for every valid candidate attribute value `F C UDP P IP PORT typ T`
(fields without spaces, separated by single spaces, `PORT` a decimal number
below 65536), `sipe_media_parse_remote_candidates` parses one candidate `c`
carrying the fields of the line; the `a=candidate:` line that
`sipe_media_sdp_candidates_format` prints for `c` is
`a=candidate:F C UDP <priority> IP <port> typ T <related>` with the same
foundation, component, protocol, IP, port number and type (the number texts are
re-printed and a related-address clause may follow, so the text need not be
byte-identical), and parsing that line's value gives these six fields back. -/
theorem candidate_format_parse_roundtrip (F P IP PORT : Str) (comp : SipeComponentType)
    (typ : SipeCandidateType) (hF : ' ' ∉ F) (hP : ' ' ∉ P) (hIP : ' ' ∉ IP)
    (hPORT : ∀ c ∈ PORT, isdigit c = true) (hrange : atoi_digits PORT 0 < 2 ^ 16) :
    ∃ c c1 : sipe_backend_candidate,
      sipe_media_parse_remote_candidates
          [⟨"candidate".toList, candidate_attr_value F comp P IP PORT typ⟩] = some [c]
      ∧ (c.foundation = some F ∧ c.component = comp
          ∧ c.protocol = SipeNetworkProtocol.SIPE_NETWORK_PROTOCOL_UDP ∧ c.ip = some IP
          ∧ c.port = atoi_digits PORT 0 ∧ c.type = typ)
      ∧ candidate_line c = "a=candidate:".toList
          ++ (candidate_attr_value F comp (fmt_u c.priority) IP (fmt_u (atoi_digits PORT 0)) typ
              ++ ' ' :: related_text c)
          ++ "\r\n".toList
      ∧ parse_candidate
          (candidate_attr_value F comp (fmt_u c.priority) IP (fmt_u (atoi_digits PORT 0)) typ
              ++ ' ' :: related_text c) = some (some c1)
      ∧ (c1.foundation = some F ∧ c1.component = comp
          ∧ c1.protocol = SipeNetworkProtocol.SIPE_NETWORK_PROTOCOL_UDP ∧ c1.ip = some IP
          ∧ c1.port = atoi_digits PORT 0 ∧ c1.type = typ) := by
  have hparse := parse_candidate_attr_value F P IP PORT comp typ hF hP hIP hPORT hrange
  have hPORTsp : ' ' ∉ PORT := fun hm => absurd (hPORT _ hm) (by decide)
  obtain ⟨extra, hne, hsp, hrel⟩ := related_text_fields
    { foundation := some F, component := comp, type := typ,
      protocol := SipeNetworkProtocol.SIPE_NETWORK_PROTOCOL_UDP, ip := some IP,
      port := atoi_digits PORT 0, priority := (atoi_str P % 2 ^ 32).toNat,
      username := none, password := none, base_ip := none, base_port := 0 } rfl rfl
  have hmod : atoi_digits PORT 0 % 2 ^ 16 = atoi_digits PORT 0 := Nat.mod_eq_of_lt hrange
  refine ⟨
    { foundation := some F, component := comp, type := typ,
      protocol := SipeNetworkProtocol.SIPE_NETWORK_PROTOCOL_UDP, ip := some IP,
      port := atoi_digits PORT 0, priority := (atoi_str P % 2 ^ 32).toNat,
      username := none, password := none, base_ip := none, base_port := 0 },
    { foundation := some F, component := comp, type := typ,
      protocol := SipeNetworkProtocol.SIPE_NETWORK_PROTOCOL_UDP, ip := some IP,
      port := atoi_digits PORT 0, priority := (atoi_str P % 2 ^ 32).toNat,
      username := none, password := none, base_ip := none, base_port := 0 }, ?_, ?_, ?_, ?_, ?_⟩
  · have hinst : nameval_instances
        [⟨"candidate".toList, candidate_attr_value F comp P IP PORT typ⟩] "candidate".toList
        = [candidate_attr_value F comp P IP PORT typ] := by
      simp [nameval_instances]
    have hfind : sipe_utils_nameval_find
        [⟨"candidate".toList, candidate_attr_value F comp P IP PORT typ⟩] "ice-ufrag".toList
        = none := by
      simp [sipe_utils_nameval_find, sipe_utils_nameval_find_instance]
    unfold sipe_media_parse_remote_candidates
    simp only [hinst, hfind, parse_candidates, hparse]
  · exact ⟨rfl, rfl, rfl, rfl, rfl, rfl⟩
  · simp only [candidate_line, fmt_s, Option.getD_some, hmod, candidate_attr_value,
      protocol_text, List.append_assoc, List.cons_append, List.nil_append, String.toList]
  · cases extra with
    | nil => exact absurd rfl hne
    | cons e es =>
      have hjoin : candidate_attr_value F comp (fmt_u ((atoi_str P % 2 ^ 32).toNat)) IP
            (fmt_u (atoi_digits PORT 0)) typ ++ ' ' :: join_sp (e :: es)
          = join_sp (F :: fmt_u comp.toNat :: "UDP".toList
              :: fmt_u ((atoi_str P % 2 ^ 32).toNat) :: IP :: fmt_u (atoi_digits PORT 0)
              :: "typ".toList :: type_text typ :: e :: es) := by
        simp [candidate_attr_value, join_sp]
      have hsplit := split_set_join F (fmt_u comp.toNat)
        ("UDP".toList :: fmt_u ((atoi_str P % 2 ^ 32).toNat) :: IP
          :: fmt_u (atoi_digits PORT 0) :: "typ".toList :: type_text typ :: e :: es) (by
          intro x hx
          simp only [List.mem_cons] at hx
          rcases hx with h1 | h1 | h1 | h1 | h1 | h1 | h1 | h1 | h1
          · rw [h1]; exact hF
          · rw [h1]; exact (fmt_u_spec _).1
          · rw [h1]; decide
          · rw [h1]; exact (fmt_u_spec _).1
          · rw [h1]; exact hIP
          · rw [h1]; exact (fmt_u_spec _).1
          · rw [h1]; decide
          · rw [h1]; exact (candidate_type_of_type_text typ).2
          · exact hsp x (by simpa using h1))
      rw [← hjoin] at hsplit
      rw [hrel, parse_candidate_of_tokens _ _ _ _ _ _ _ _ _ typ hsplit
        (candidate_type_of_type_text typ).1, component_of_id_fmt_u]
      have h1 : atoi_str (fmt_u (atoi_digits PORT 0)) = (atoi_digits PORT 0 : Int) :=
        atoi_str_fmt_u _ (by omega)
      have h2 : ((atoi_digits PORT 0 : Int) % 2 ^ 16).toNat = atoi_digits PORT 0 := by omega
      have h3 : (atoi_str (fmt_u ((atoi_str P % 2 ^ 32).toNat)) % 2 ^ 32).toNat
          = (atoi_str P % 2 ^ 32).toNat := by
        have hm := (int_of_long_mod (((atoi_str P % 2 ^ 32).toNat : Nat) : Int)
          (by omega) (by omega)).1
        rw [(fmt_u_spec _).2, hm]
        omega
      rw [h1, h2, h3]
  · exact ⟨rfl, rfl, rfl, rfl, rfl, rfl⟩

/-- C5 at the line `1 1 UDP 100 10.0.0.5 5000 typ host`. -/
theorem candidate_format_parse_roundtrip_witness :
    ∃ c c1 : sipe_backend_candidate,
      sipe_media_parse_remote_candidates
          [⟨"candidate".toList, "1 1 UDP 100 10.0.0.5 5000 typ host".toList⟩] = some [c]
      ∧ candidate_line c = "a=candidate:1 1 UDP 100 10.0.0.5 5000 typ host \r\n".toList
      ∧ parse_candidate "1 1 UDP 100 10.0.0.5 5000 typ host ".toList = some (some c1)
      ∧ (c1.foundation = some "1".toList ∧ c1.component = SipeComponentType.SIPE_COMPONENT_RTP
          ∧ c1.protocol = SipeNetworkProtocol.SIPE_NETWORK_PROTOCOL_UDP
          ∧ c1.ip = some "10.0.0.5".toList ∧ c1.port = 5000
          ∧ c1.type = SipeCandidateType.SIPE_CANDIDATE_TYPE_HOST) := by
  obtain ⟨c, c1, h1, _, h3, h4, h5⟩ := candidate_format_parse_roundtrip "1".toList "100".toList
    "10.0.0.5".toList "5000".toList SipeComponentType.SIPE_COMPONENT_RTP
    SipeCandidateType.SIPE_CANDIDATE_TYPE_HOST (by decide) (by decide) (by decide) (by decide)
    (by decide)
  have e1 : candidate_attr_value "1".toList SipeComponentType.SIPE_COMPONENT_RTP "100".toList
      "10.0.0.5".toList "5000".toList SipeCandidateType.SIPE_CANDIDATE_TYPE_HOST
      = "1 1 UDP 100 10.0.0.5 5000 typ host".toList := by decide
  rw [e1] at h1
  have hc : c = sample_remote_candidate := by
    have h0 : sipe_media_parse_remote_candidates
        [⟨"candidate".toList, "1 1 UDP 100 10.0.0.5 5000 typ host".toList⟩]
        = some [sample_remote_candidate] := by decide
    rw [h0] at h1
    simp only [Option.some.injEq, List.cons.injEq, and_true] at h1
    exact h1.symm
  subst hc
  exact ⟨_, c1, h1, by decide, by simpa using h4, h5⟩

/-! ### Lines of the SDP body -/

/-- Appending a text that ends with a line break gives one that does. -/
theorem ends_crlf_append (a b : Str) (h : ends_crlf b) : ends_crlf (a ++ b) := by
  obtain ⟨p, hp⟩ := h
  exact ⟨a ++ p, by rw [hp, List.append_assoc]⟩

/-- A text in front of an empty or line-terminated text. -/
theorem ends_crlf_append_or (a b : Str) (ha : ends_crlf a) (hb : b = [] ∨ ends_crlf b) :
    ends_crlf (a ++ b) := by
  rcases hb with hb | hb
  · rw [hb, List.append_nil]; exact ha
  · exact ends_crlf_append a b hb

/-- Each candidate line ends with a line break. -/
theorem candidate_line_ends_crlf (c : sipe_backend_candidate) : ends_crlf (candidate_line c) :=
  ⟨_, rfl⟩

/-- The candidate loop keeps the text line-terminated. -/
theorem candidates_loop_ends_crlf (cands : List sipe_backend_candidate) :
    ∀ st : cand_fmt_state, ends_crlf st.result → ends_crlf (candidates_loop cands st).result := by
  induction cands with
  | nil => intro st h; exact h
  | cons c cs ih =>
    intro st _
    unfold candidates_loop
    exact ih _ (ends_crlf_append _ _ (candidate_line_ends_crlf c))

/-- The candidate block is empty or ends with a line break. -/
theorem candidates_format_ends_crlf (backend_media : sipe_backend_media) (legacy_mode : Bool)
    (local_port : Nat) (text : Str) (port : Nat)
    (h : sipe_media_sdp_candidates_format backend_media legacy_mode local_port
          = some (text, port)) :
    text = [] ∨ ends_crlf text := by
  unfold sipe_media_sdp_candidates_format at h
  cases legacy_mode with
  | true =>
    simp only [if_true, Option.some.injEq, Prod.mk.injEq] at h
    exact Or.inl h.1.symm
  | false =>
    simp only [Bool.false_eq_true, if_false] at h
    generalize l_candidates_of backend_media = l at h
    cases l with
    | nil => exact absurd h (by simp)
    | cons first rest =>
      simp only [Option.some.injEq, Prod.mk.injEq] at h
      right
      rw [← h.1]
      have h0 := candidates_loop_ends_crlf (first :: rest)
        { result := "a=ice-ufrag:".toList ++ fmt_s first.username ++ "\r\na=ice-pwd:".toList
            ++ fmt_s first.password ++ "\r\n".toList,
          local_port := local_port, rtcp_port := 0 } ⟨_, rfl⟩
      split
      · exact ⟨_, rfl⟩
      · split
        · exact h0
        · exact ⟨_, rfl⟩

/-- The SDP body can be built in legacy mode and whenever the backend has a
local candidate. -/
theorem create_sdp_defined (ip : Str) (call_private : sipe_media_call_private)
    (h : call_private.legacy_mode = true ∨ l_candidates_of call_private.backend_private ≠ []) :
    ∃ body, sipe_media_create_sdp ip call_private = some body := by
  unfold sipe_media_create_sdp sipe_media_sdp_candidates_format
  cases hl : call_private.legacy_mode with
  | true => exact ⟨_, rfl⟩
  | false =>
    rw [hl] at h
    cases hc : l_candidates_of call_private.backend_private with
    | nil => rcases h with h | h
             · exact absurd h (by simp)
             · exact absurd hc h
    | cons first rest => exact ⟨_, rfl⟩

/-- Parsing the scenario body stores its two attributes and its candidate. -/
theorem parse_sample_ice_sdp (call_private : sipe_media_call_private) :
    sipe_media_parse_sdp_attributes_and_candidates call_private (some sample_ice_sdp)
      = some (true, { call_private with sdp_attrs := sample_ice_attrs, remote_ip := none,
                                        remote_port := 0,
                                        remote_candidates := [sample_remote_candidate] }) := by
  have h1 : parse_sdp_lines (g_strsplit sample_ice_sdp "\r\n".toList 0)
      { sdp_attrs := [], remote_ip := none, remote_port := 0, no_error := true }
      = some { sdp_attrs := sample_ice_attrs, remote_ip := none, remote_port := 0,
               no_error := true } := by decide
  have h2 : sipe_media_parse_remote_candidates sample_ice_attrs
      = some [sample_remote_candidate] := by decide
  simp only [sipe_media_parse_sdp_attributes_and_candidates, h1, h2, if_true]

/-- C9 (code at the failing input): a final response 480 is reported with the
title "Call rejected", and its description says both that the user is not
available and that the user rejected the call: `case 480:` has no `break` and
runs on into `case 603:`. -/
theorem response_480_reported_as_rejected :
    (process_invite_call_response (sample_endpoint (some sample_outbound_call))
        sample_response_480 sample_transaction).map (fun r => (r.1, r.2.trace.drop 2))
      = some (true,
          [effect.sipe_backend_notify_error "Call rejected".toList
            ("User sip:bob@example.com is not available".toList
              ++ "User sip:bob@example.com rejected call".toList
              ++ "\n480 Temporarily Unavailable".toList)]) := by
  decide

/-- What `sipe_media_parse_remote_codecs` does when the remote codecs parse and
share a name with a local codec: the pruned list is stored and handed to the
backend, whose answer is returned. -/
theorem parse_remote_codecs_shared (call_private : sipe_media_call_private)
    (codecs : List sipe_backend_codec)
    (hparse : sipe_media_parse_codecs call_private.sdp_attrs = some codecs)
    (hshare : sipe_media_prune_remote_codecs call_private.backend_private.local_codecs codecs
                ≠ []) :
    sipe_media_parse_remote_codecs call_private
      = some (call_private.backend_private.set_remote_codecs_ok,
          { call_private with
            remote_codecs := sipe_media_prune_remote_codecs
              call_private.backend_private.local_codecs codecs },
          [effect.sipe_backend_set_remote_codecs call_private.voice_stream
            (sipe_media_prune_remote_codecs call_private.backend_private.local_codecs
              codecs)]) := by
  unfold sipe_media_parse_remote_codecs
  simp only [hparse]

/-- C10 (amended): a 183 response to the pending INVITE of the active call,
whose SDP parses and whose codecs share a name with a local codec, on a backend
that accepts the remote codecs (`sipe_backend_set_remote_codecs` returns
`TRUE`), makes `process_invite_call_response` return `TRUE` after sending
exactly one request on the call's dialog, a PRACK whose extra header is
`RAck: <RSeq> <CSeq>` built from the RSeq and CSeq headers of the response; no
ACK and no INVITE is sent (the other two actions are the backend calls that
store the codecs and the candidates). -/
theorem response_183_sends_prack (sipe_private : sipe_core_private)
    (call_private call1 : sipe_media_call_private) (dialog : sip_dialog) (msg : sipmsg)
    (trans : transaction) (codecs : List sipe_backend_codec)
    (hslot : sipe_private.media_call = some call_private)
    (hdialog : call_private.dialog = some dialog)
    (hid : dialog.callid = sipmsg_find_header msg "Call-ID".toList)
    (hcode : msg.response = 183)
    (hsdp : sipe_media_parse_sdp_attributes_and_candidates
              { call_private with dialog := some { dialog with outgoing_invite := none } }
              msg.body = some (true, call1))
    (hparse : sipe_media_parse_codecs call1.sdp_attrs = some codecs)
    (hshare : sipe_media_prune_remote_codecs call1.backend_private.local_codecs codecs ≠ [])
    (hset : call1.backend_private.set_remote_codecs_ok = true) :
    process_invite_call_response sipe_private msg trans
      = some (true,
          { sipe_private with
            media_call := some
              { call1 with
                remote_codecs := sipe_media_prune_remote_codecs
                  call1.backend_private.local_codecs codecs },
            trace := sipe_private.trace
              ++ [effect.sipe_backend_set_remote_codecs call1.voice_stream
                    (sipe_media_prune_remote_codecs call1.backend_private.local_codecs codecs),
                  effect.sipe_backend_media_add_remote_candidates call1.voice_stream
                    call1.remote_candidates,
                  effect.sip_transport_request "PRACK".toList dialog.with_ dialog.with_
                    ("RAck: ".toList ++ fmt_s (sipmsg_find_header msg "RSeq".toList)
                      ++ " ".toList ++ fmt_s (sipmsg_find_header msg "CSeq".toList)
                      ++ "\r\n".toList)
                    none { dialog with outgoing_invite := none }] }) := by
  have heq : sipe_strequal dialog.callid (sipmsg_find_header msg "Call-ID".toList) = true := by
    unfold sipe_strequal
    simp only [hid, decide_True]
  have hcodecs := parse_remote_codecs_shared call1 codecs hparse hshare
  rw [hset] at hcodecs
  have h400 : ¬ ((183 : Int) ≥ 400) := by decide
  simp only [process_invite_call_response, hslot, hdialog, heq, hcode, h400, hsdp, hcodecs, emit,
    Bool.not_true, Bool.false_eq_true, if_false, if_true, List.append_assoc,
    List.singleton_append]
  rfl

/-- C10 (amended) on the sample outbound call: the only SIP message sent is the PRACK with
`RAck: 1 1 INVITE`. -/
theorem response_183_sends_prack_witness :
    (process_invite_call_response (sample_endpoint (some sample_outbound_call))
        sample_response_183 sample_transaction).map (fun r => (r.1, r.2.trace.drop 2))
      = some (true,
          [effect.sip_transport_request "PRACK".toList (some "sip:bob@example.com".toList)
            (some "sip:bob@example.com".toList) "RAck: 1 1 INVITE\r\n".toList none
            sample_dialog]) := by
  rw [response_183_sends_prack (sample_endpoint (some sample_outbound_call))
    sample_outbound_call _ sample_outbound_dialog sample_response_183 sample_transaction
    [sample_pcmu] rfl rfl rfl rfl (parse_sample_ice_sdp _) (by decide) (by decide) rfl]
  decide

/-- The SDP body of a held session has the line `a=inactive`. -/
theorem create_sdp_has_inactive (ip : Str) (call_private : sipe_media_call_private)
    (body : Str) (h : sipe_media_create_sdp ip call_private = some body)
    (hold : (call_private.local_on_hold || call_private.remote_on_hold) = true) :
    has_line body "a=inactive".toList := by
  unfold sipe_media_create_sdp at h
  simp only at h
  split at h
  · exact absurd h (by simp)
  · rename_i text port hfmt
    simp only [Option.some.injEq, hold, if_true] at h
    have htext := candidates_format_ends_crlf _ _ _ _ _ hfmt
    refine ⟨"v=0\r\no=- 0 0 IN IP4 ".toList ++ ip ++ "\r\ns=session\r\nc=IN IP4 ".toList ++ ip
      ++ "\r\nb=CT:99980\r\nt=0 0\r\nm=audio ".toList ++ fmt_u port ++ " RTP/AVP".toList
      ++ sipe_media_sdp_codec_ids_format call_private.backend_private.local_codecs
      ++ "\r\n".toList ++ text,
      sipe_media_sdp_codecs_format call_private.backend_private.local_codecs
        ++ "a=encryption:rejected\r\n".toList, ?_, Or.inr ?_⟩
    · rw [← h]
      simp only [List.append_assoc]
      rfl
    · exact ends_crlf_append_or _ _ ⟨_, rfl⟩ htext

/-- What `sipe_invite_call` does when the SDP body can be built: the dialog's
sequence counter advances, one INVITE with that body goes out and its
transaction is stored in the dialog. -/
theorem sipe_invite_call_sends (sipe_private : sipe_core_private)
    (call_private : sipe_media_call_private) (dialog : sip_dialog) (body : Str)
    (tc : TransCallback)
    (hslot : sipe_private.media_call = some call_private)
    (hdialog : call_private.dialog = some dialog)
    (hsdp : sipe_media_create_sdp sipe_private.local_ip call_private = some body) :
    sipe_invite_call sipe_private tc
      = some { sipe_private with
               media_call := some
                 { call_private with
                   dialog := some
                     { dialog with
                       cseq := dialog.cseq + 1,
                       outgoing_invite := some
                         { key := transaction_key dialog.callid (dialog.cseq + 1),
                           callback := tc } } },
               trace := sipe_private.trace
                 ++ [effect.sip_transport_invite (invite_hdr sipe_private.contact call_private)
                       body { dialog with cseq := dialog.cseq + 1 } tc] } := by
  simp only [sipe_invite_call, hslot, hdialog, hsdp, sip_transport_invite, emit]

/-- The INVITEs of a concatenation. -/
theorem invites_append (a b : List effect) : invites (a ++ b) = invites a ++ invites b := by
  induction a with
  | nil => rfl
  | cons e es ih => cases e <;> simp [invites, ih]

/-- A response with session description adds no INVITE to the trace. -/
theorem send_response_no_invite (sipe_private sp1 : sipe_core_private)
    (call_private : sipe_media_call_private) (code : Nat) (text : Str)
    (h : send_response_with_session_description sipe_private call_private code text = some sp1) :
    invites sp1.trace = invites sipe_private.trace := by
  unfold send_response_with_session_description at h
  split at h
  · exact absurd h (by simp)
  · split at h
    · exact absurd h (by simp)
    · simp only [Option.some.injEq] at h
      rw [← h]
      simp only [emit, invites_append, invites, List.append_nil]

/-- C8: for an active session (in the slot, with its dialog) that is not on
local hold and whose SDP body can be built, `call_hold_cb (call, TRUE, TRUE)`
sets `local_on_hold` and sends exactly one INVITE, whose SDP body contains the
line `a=inactive` (`held_endpoint`); handling the success response of an INVITE
with `sipe_media_send_ack` returns `TRUE` and leaves `local_on_hold` set
(`acked_endpoint`); and a further `call_hold_cb (call, TRUE, TRUE)` adds no
INVITE to the trace. -/
theorem local_hold_sends_one_invite (sipe_private : sipe_core_private)
    (call_private : sipe_media_call_private) (dialog : sip_dialog) (body : Str)
    (msg : sipmsg) (trans : transaction) (trans_cseq : Int)
    (hslot : sipe_private.media_call = some call_private)
    (hdialog : call_private.dialog = some dialog)
    (hhold : call_private.local_on_hold = false)
    (hsdp : sipe_media_create_sdp sipe_private.local_ip
              { call_private with local_on_hold := true } = some body)
    (hkey : sscanf_trans_cseq trans.key = some trans_cseq) :
    has_line body "a=inactive".toList
    ∧ call_hold_cb sipe_private true true
        = some (held_endpoint sipe_private call_private dialog body)
    ∧ invites (held_endpoint sipe_private call_private dialog body).trace
        = invites sipe_private.trace
            ++ [effect.sip_transport_invite
                  (invite_hdr sipe_private.contact { call_private with local_on_hold := true })
                  body { dialog with cseq := dialog.cseq + 1 }
                  TransCallback.sipe_media_send_ack]
    ∧ sipe_media_send_ack (held_endpoint sipe_private call_private dialog body) msg trans
        = some (true, acked_endpoint sipe_private call_private dialog body trans_cseq)
    ∧ (acked_endpoint sipe_private call_private dialog body trans_cseq).media_call.map
        (fun k => k.local_on_hold) = some true
    ∧ ∀ sp3, call_hold_cb (acked_endpoint sipe_private call_private dialog body trans_cseq)
          true true = some sp3 →
        invites sp3.trace
          = invites (acked_endpoint sipe_private call_private dialog body trans_cseq).trace := by
  have hline := create_sdp_has_inactive _ _ _ hsdp rfl
  refine ⟨hline, ?_, ?_, ?_, rfl, ?_⟩
  · have hinv := sipe_invite_call_sends
      { sipe_private with media_call := some { call_private with local_on_hold := true } }
      { call_private with local_on_hold := true } dialog body TransCallback.sipe_media_send_ack
      rfl hdialog hsdp
    simp only [call_hold_cb, hslot, hhold, bne_iff_ne, ne_eq, Bool.true_and,
      Bool.false_eq_true, not_false_eq_true, decide_True, if_true]
    rw [hinv]
    rfl
  · simp only [held_endpoint, invites_append, invites]
  · simp only [sipe_media_send_ack, held_endpoint, hkey, emit]
    rfl
  · intro sp3 h3
    simp only [call_hold_cb, acked_endpoint, bne_self_eq_false, Bool.and_false,
      Bool.false_eq_true, if_false] at h3
    split at h3
    · exact send_response_no_invite _ _ _ _ _ h3
    · simp only [Option.some.injEq] at h3
      rw [← h3]
      rfl

/-- C8 on the active sample session: one INVITE with `a=inactive` is sent, the
ACK leaves the session on hold, and the second hold request sends no INVITE. -/
theorem local_hold_sends_one_invite_witness :
    ∃ body,
      has_line body "a=inactive".toList
      ∧ call_hold_cb (sample_endpoint (some sample_active_call)) true true
          = some (held_endpoint (sample_endpoint (some sample_active_call)) sample_active_call
              sample_dialog body)
      ∧ sipe_media_send_ack
          (held_endpoint (sample_endpoint (some sample_active_call)) sample_active_call
            sample_dialog body) sample_invite
          { key := "<abc123><2 INVITE>".toList, callback := TransCallback.sipe_media_send_ack }
          = some (true, acked_endpoint (sample_endpoint (some sample_active_call))
              sample_active_call sample_dialog body 2) := by
  obtain ⟨body, hb⟩ := create_sdp_defined (sample_endpoint (some sample_active_call)).local_ip
    { sample_active_call with local_on_hold := true } (Or.inr (by decide))
  have h := local_hold_sends_one_invite (sample_endpoint (some sample_active_call))
    sample_active_call sample_dialog body sample_invite
    { key := "<abc123><2 INVITE>".toList, callback := TransCallback.sipe_media_send_ack } 2
    rfl rfl rfl hb (by decide)
  exact ⟨body, h.1, h.2.1, h.2.2.2.1⟩

/-! ### The lines of a body built by `sipe_media_create_sdp` -/

/-- Splitting at line breaks: a line without carriage return is split off. -/
theorem split_crlf_go_token (t rest : Str) (k : Nat) (ht : '\r' ∉ t) :
    g_strsplit_go "\r\n".toList true (t ++ '\r' :: '\n' :: rest) 0 k
      = t :: g_strsplit_go "\r\n".toList true rest 0 (k - 1) := by
  induction t with
  | nil =>
    simp [g_strsplit_go, List.isPrefixOf]
  | cons c t ih =>
    have hc : ¬ c = '\r' := fun e => ht (by simp [e])
    have hc2 : ¬ '\r' = c := fun e => hc e.symm
    have ht1 : '\r' ∉ t := fun e => ht (by simp [e])
    have hpre : List.isPrefixOf "\r\n".toList (c :: (t ++ '\r' :: '\n' :: rest)) = false := by
      simp [List.isPrefixOf, hc2]
    rw [List.cons_append, g_strsplit_go, hpre, ih ht1]
    simp [consHead]

/-- Splitting a text made of lines without carriage return gives the lines and
the empty rest after the last line break. -/
theorem split_crlf_go_lines (ls : List Str) (h : ∀ l ∈ ls, '\r' ∉ l) :
    ∀ k, g_strsplit_go "\r\n".toList true (crlf_lines ls) 0 k = ls ++ [[]] := by
  induction ls with
  | nil => intro k; simp [crlf_lines, g_strsplit_go]
  | cons l ls ih =>
    intro k
    have h1 : '\r' ∉ l := h l (by simp)
    have h2 : ∀ x ∈ ls, '\r' ∉ x := fun x hx => h x (by simp [hx])
    simp only [crlf_lines]
    rw [split_crlf_go_token l _ k h1, ih h2]
    rfl

/-- The lines `g_strsplit (body, "\r\n", 0)` gives for a non-empty list of lines
without carriage return. -/
theorem split_crlf_lines (l : Str) (ls : List Str) (h : ∀ x ∈ l :: ls, '\r' ∉ x) :
    g_strsplit (crlf_lines (l :: ls)) "\r\n".toList 0 = (l :: ls) ++ [[]] := by
  have hgo := split_crlf_go_lines (l :: ls) h 0
  unfold g_strsplit
  split
  · rename_i e
    have : (crlf_lines (l :: ls)).length = 0 := by rw [e]; rfl
    simp [crlf_lines] at this
  · simpa using hgo

/-- Lines of a concatenation. -/
theorem crlf_lines_append (a b : List Str) :
    crlf_lines (a ++ b) = crlf_lines a ++ crlf_lines b := by
  induction a with
  | nil => rfl
  | cons l ls ih => simp [crlf_lines, ih]

/-- The codec block is its lines, each followed by a line break. -/
theorem sdp_codecs_format_eq_lines (codecs : List sipe_backend_codec) :
    sipe_media_sdp_codecs_format codecs = crlf_lines (codec_lines codecs) := by
  induction codecs with
  | nil => rfl
  | cons c cs ih =>
    rw [sipe_media_sdp_codecs_format, codec_lines, ih]
    cases hp : c.optional_parameters with
    | nil => simp [crlf_lines, rtpmap_line]
    | cons p ps => simp [crlf_lines, rtpmap_line, crlf_lines_append]

/-- In legacy mode the SDP body has no candidate block: it is made of the lines
`sdp_lines_without_candidates`. -/
theorem create_sdp_legacy (ip : Str) (call_private : sipe_media_call_private)
    (hlegacy : call_private.legacy_mode = true) :
    sipe_media_create_sdp ip call_private
      = some (crlf_lines (sdp_lines_without_candidates ip
          (legacy_local_port (l_candidates_of call_private.backend_private) 0)
          (call_private.local_on_hold || call_private.remote_on_hold)
          call_private.backend_private.local_codecs)) := by
  unfold sipe_media_create_sdp sipe_media_sdp_candidates_format
  simp only [hlegacy, if_true, sdp_lines_without_candidates, sdp_codecs_format_eq_lines,
    crlf_lines_append]
  cases (call_private.local_on_hold || call_private.remote_on_hold) <;>
    simp [crlf_lines]

/-- The text of `%u` has no carriage return. -/
theorem fmt_u_clean (n : Nat) : '\r' ∉ fmt_u n := by
  intro hmem
  have hd : ∀ c ∈ fmt_u n, isdigit c = true := fmt_u_go_digits (n + 1) n [] (by simp)
  exact absurd (hd _ hmem) (by decide)

/-- The text of `%d` has no carriage return. -/
theorem fmt_d_clean (i : Int) : '\r' ∉ fmt_d i := by
  unfold fmt_d
  split
  · intro hmem
    rcases List.mem_cons.1 hmem with e | e
    · exact absurd e (by decide)
    · exact fmt_u_clean _ e
  · exact fmt_u_clean _

/-- The codec id list of the `m=` line has no carriage return. -/
theorem codec_ids_format_clean (codecs : List sipe_backend_codec) :
    '\r' ∉ sipe_media_sdp_codec_ids_format codecs := by
  induction codecs with
  | nil => simp [sipe_media_sdp_codec_ids_format]
  | cons c cs ih =>
    simp only [sipe_media_sdp_codec_ids_format, List.mem_append, not_or]
    exact ⟨⟨by decide, fmt_d_clean _⟩, ih⟩

/-- The parameter list of an `a=fmtp:` line has no carriage return when the
parameters have none. -/
theorem codec_params_format_clean (params : List sipnameval)
    (h : ∀ p ∈ params, '\r' ∉ p.name ∧ '\r' ∉ p.value) :
    '\r' ∉ sdp_codec_params_format params := by
  induction params with
  | nil => simp [sdp_codec_params_format]
  | cons p ps ih =>
    have hp := h p (by simp)
    simp only [sdp_codec_params_format, List.mem_append, not_or]
    exact ⟨⟨⟨⟨by decide, hp.1⟩, by decide⟩, hp.2⟩, ih (fun q hq => h q (by simp [hq]))⟩

/-- A line of the codec block has no carriage return and is not an
`a=candidate` line. -/
theorem codec_lines_ok (codecs : List sipe_backend_codec)
    (h : ∀ c ∈ codecs, codec_text_clean c) :
    ∀ line ∈ codec_lines codecs,
      '\r' ∉ line ∧ g_str_has_prefix line "a=candidate".toList = false := by
  induction codecs with
  | nil => intro line hl; simp [codec_lines] at hl
  | cons c cs ih =>
    intro line hl
    have hc := h c (by simp)
    have ih1 := ih (fun d hd => h d (by simp [hd]))
    simp only [codec_lines, List.mem_cons, List.mem_append] at hl
    rcases hl with e | e | e
    · subst e
      refine ⟨?_, by simp [ g_str_has_prefix, rtpmap_line, List.isPrefixOf]⟩
      simp only [rtpmap_line, List.mem_append, not_or]
      exact ⟨⟨⟨⟨⟨by decide, fmt_d_clean _⟩, by decide⟩, hc.1⟩, by decide⟩, fmt_d_clean _⟩
    · cases hp : c.optional_parameters with
      | nil => rw [hp] at e; simp at e
      | cons p ps =>
        rw [hp] at e
        simp only [List.mem_singleton] at e
        subst e
        refine ⟨?_, by simp [ g_str_has_prefix, List.isPrefixOf]⟩
        simp only [List.mem_append, not_or]
        exact ⟨⟨by decide, fmt_d_clean _⟩,
          codec_params_format_clean _ (fun q hq => hc.2 q (by rw [hp]; exact hq))⟩
    · exact ih1 line e

/-- A line of a body without candidate block has no carriage return and is not
an `a=candidate` line. -/
theorem sdp_lines_without_candidates_ok (ip : Str) (local_port : Nat) (hold : Bool)
    (codecs : List sipe_backend_codec) (hip : '\r' ∉ ip)
    (h : ∀ c ∈ codecs, codec_text_clean c) :
    ∀ line ∈ sdp_lines_without_candidates ip local_port hold codecs,
      '\r' ∉ line ∧ g_str_has_prefix line "a=candidate".toList = false := by
  intro line hl
  unfold sdp_lines_without_candidates at hl
  rcases List.mem_append.1 hl with h1 | h1
  · rcases List.mem_append.1 h1 with h2 | h2
    · rcases List.mem_append.1 h2 with h3 | h3
      · simp only [List.mem_cons, List.mem_singleton, List.not_mem_nil, or_false] at h3
        rcases h3 with e | e | e | e | e | e | e
        · subst e; exact ⟨by decide, by decide⟩
        · subst e
          refine ⟨?_, by simp [ g_str_has_prefix, List.isPrefixOf]⟩
          simp only [List.mem_append, not_or]
          exact ⟨by decide, hip⟩
        · subst e; exact ⟨by decide, by decide⟩
        · subst e
          refine ⟨?_, by simp [ g_str_has_prefix, List.isPrefixOf]⟩
          simp only [List.mem_append, not_or]
          exact ⟨by decide, hip⟩
        · subst e; exact ⟨by decide, by decide⟩
        · subst e; exact ⟨by decide, by decide⟩
        · subst e
          refine ⟨?_, by simp [ g_str_has_prefix, List.isPrefixOf]⟩
          simp only [List.mem_append, not_or]
          exact ⟨⟨⟨by decide, fmt_u_clean _⟩, by decide⟩, codec_ids_format_clean _⟩
      · cases hold with
        | false => simp at h3
        | true =>
          simp only [if_true, List.mem_singleton] at h3
          subst h3; exact ⟨by decide, by decide⟩
    · exact codec_lines_ok codecs h line h2
  · simp only [List.mem_singleton] at h1
    subst h1; exact ⟨by decide, by decide⟩

/-- A body built in legacy mode from clean texts has no `a=candidate` line. -/
theorem create_sdp_legacy_no_candidate_line (ip : Str)
    (call_private : sipe_media_call_private) (body : Str)
    (hlegacy : call_private.legacy_mode = true)
    (hbody : sipe_media_create_sdp ip call_private = some body)
    (hip : '\r' ∉ ip)
    (h : ∀ c ∈ call_private.backend_private.local_codecs, codec_text_clean c) :
    ∀ line ∈ g_strsplit body "\r\n".toList 0,
      g_str_has_prefix line "a=candidate".toList = false := by
  rw [create_sdp_legacy ip call_private hlegacy] at hbody
  simp only [Option.some.injEq] at hbody
  have hok := sdp_lines_without_candidates_ok ip
    (legacy_local_port (l_candidates_of call_private.backend_private) 0)
    (call_private.local_on_hold || call_private.remote_on_hold)
    call_private.backend_private.local_codecs hip h
  intro line hl
  rw [← hbody] at hl
  have hsplit : g_strsplit (crlf_lines (sdp_lines_without_candidates ip
      (legacy_local_port (l_candidates_of call_private.backend_private) 0)
      (call_private.local_on_hold || call_private.remote_on_hold)
      call_private.backend_private.local_codecs)) "\r\n".toList 0
      = sdp_lines_without_candidates ip
          (legacy_local_port (l_candidates_of call_private.backend_private) 0)
          (call_private.local_on_hold || call_private.remote_on_hold)
          call_private.backend_private.local_codecs ++ [[]] := by
    have hform : ∃ l ls, sdp_lines_without_candidates ip
        (legacy_local_port (l_candidates_of call_private.backend_private) 0)
        (call_private.local_on_hold || call_private.remote_on_hold)
        call_private.backend_private.local_codecs = l :: ls := ⟨_, _, rfl⟩
    obtain ⟨l, ls, hls⟩ := hform
    rw [hls] at hok ⊢
    exact split_crlf_lines l ls (fun x hx => (hok x hx).1)
  rw [hsplit] at hl
  rcases List.mem_append.1 hl with e | e
  · exact (hok line e).2
  · simp only [List.mem_singleton] at e
    subst e
    decide

/-- The session after parsing a body whose scan succeeds and yields no
candidate: the scan is stored with the two legacy candidates, and `legacy_mode`
is set. -/
theorem parse_sdp_legacy (call_private : sipe_media_call_private) (frame : Str)
    (st : sdp_scan)
    (hscan : parse_sdp_lines (g_strsplit frame "\r\n".toList 0) sdp_scan_init = some st)
    (hok : st.no_error = true)
    (hnone : sipe_media_parse_remote_candidates st.sdp_attrs = some []) :
    sipe_media_parse_sdp_attributes_and_candidates call_private (some frame)
      = some (true,
          { call_private with
            legacy_mode := true, sdp_attrs := st.sdp_attrs, remote_ip := st.remote_ip,
            remote_port := st.remote_port,
            remote_candidates :=
              sipe_media_parse_remote_candidates_legacy st.remote_ip st.remote_port }) := by
  unfold sdp_scan_init at hscan
  simp only [sipe_media_parse_sdp_attributes_and_candidates, hscan, hnone, hok, if_true]

/-- Removing a stream leaves the other backend answers unchanged. -/
theorem remove_stream_keeps (media : sipe_backend_media) (s : Option sipe_backend_stream) :
    (sipe_backend_media_remove_stream media s).local_codecs = media.local_codecs
    ∧ (sipe_backend_media_remove_stream media s).set_remote_codecs_ok
        = media.set_remote_codecs_ok
    ∧ (sipe_backend_media_remove_stream media s).initiator = media.initiator
    ∧ l_candidates_of (sipe_backend_media_remove_stream media s) = l_candidates_of media := by
  cases s <;> exact ⟨rfl, rfl, rfl, rfl⟩

/-- C7 (amended): an outbound call that still uses connectivity checks, on a
backend that accepts the remote codecs (`sipe_backend_set_remote_codecs` returns
`TRUE`), receives a 200 OK whose SDP parses, has no `a=candidate` attribute and
has a codec matching a local codec; the key of the transaction holds the
sequence number of the INVITE. `process_invite_call_response` returns
`TRUE` and leaves the session `downgraded_call`: `legacy_mode` is `TRUE`,
`using_nice` is `FALSE`, the previous voice stream is removed and replaced by a
newly added stream without connectivity checks; its actions are
`downgrade_trace`, with exactly one ACK and no INVITE. The next
`candidates_prepared_cb` sends one INVITE, and (the local IP and codec texts
being free of carriage returns) no line of its SDP body is an `a=candidate`
line. -/
theorem legacy_answer_downgrades (sipe_private : sipe_core_private)
    (call_private : sipe_media_call_private) (dialog : sip_dialog) (msg : sipmsg)
    (trans : transaction) (frame : Str) (st : sdp_scan) (codecs : List sipe_backend_codec)
    (trans_cseq : Int)
    (hslot : sipe_private.media_call = some call_private)
    (hdialog : call_private.dialog = some dialog)
    (hid : dialog.callid = sipmsg_find_header msg "Call-ID".toList)
    (hinit : call_private.backend_private.initiator = true)
    (hnice : call_private.using_nice = true)
    (hcode : msg.response = 200)
    (hbody : msg.body = some frame)
    (hscan : parse_sdp_lines (g_strsplit frame "\r\n".toList 0) sdp_scan_init = some st)
    (hok : st.no_error = true)
    (hnocand : nameval_instances st.sdp_attrs "candidate".toList = [])
    (hcodecs : sipe_media_parse_codecs st.sdp_attrs = some codecs)
    (hshare : sipe_media_prune_remote_codecs call_private.backend_private.local_codecs codecs
                ≠ [])
    (hset : call_private.backend_private.set_remote_codecs_ok = true)
    (hkey : sscanf_trans_cseq trans.key = some trans_cseq)
    (hip : '\r' ∉ sipe_private.local_ip)
    (hclean : ∀ c ∈ call_private.backend_private.local_codecs, codec_text_clean c) :
    process_invite_call_response sipe_private msg trans
        = some (true,
            { sipe_private with
              media_call := some (downgraded_call call_private dialog st
                (sipe_media_prune_remote_codecs call_private.backend_private.local_codecs
                  codecs)),
              trace := sipe_private.trace
                ++ downgrade_trace call_private dialog st
                    (sipe_media_prune_remote_codecs call_private.backend_private.local_codecs
                      codecs) trans_cseq })
    ∧ (downgraded_call call_private dialog st
        (sipe_media_prune_remote_codecs call_private.backend_private.local_codecs
          codecs)).legacy_mode = true
    ∧ (downgraded_call call_private dialog st
        (sipe_media_prune_remote_codecs call_private.backend_private.local_codecs
          codecs)).using_nice = false
    ∧ (legacy_replacement_stream call_private dialog).using_nice = false
    ∧ invites (downgrade_trace call_private dialog st
        (sipe_media_prune_remote_codecs call_private.backend_private.local_codecs codecs)
        trans_cseq) = []
    ∧ ∃ body : Str,
        (∀ line ∈ g_strsplit body "\r\n".toList 0,
          g_str_has_prefix line "a=candidate".toList = false)
        ∧ (candidates_prepared_cb
            { sipe_private with
              media_call := some (downgraded_call call_private dialog st
                (sipe_media_prune_remote_codecs call_private.backend_private.local_codecs
                  codecs)),
              trace := sipe_private.trace
                ++ downgrade_trace call_private dialog st
                    (sipe_media_prune_remote_codecs call_private.backend_private.local_codecs
                      codecs) trans_cseq }).map (fun s => s.trace)
          = some (sipe_private.trace
              ++ downgrade_trace call_private dialog st
                  (sipe_media_prune_remote_codecs call_private.backend_private.local_codecs
                    codecs) trans_cseq
              ++ [effect.sip_transport_invite
                    (invite_hdr sipe_private.contact
                      (downgraded_call call_private dialog st
                        (sipe_media_prune_remote_codecs
                          call_private.backend_private.local_codecs codecs)))
                    body { dialog with cseq := dialog.cseq + 1, outgoing_invite := none }
                    TransCallback.process_invite_call_response]) := by
  have heq : sipe_strequal dialog.callid (sipmsg_find_header msg "Call-ID".toList) = true := by
    unfold sipe_strequal
    simp only [hid, decide_True]
  have hnone := parse_remote_candidates_without_candidate_attr st.sdp_attrs hnocand
  have hp := fun c => parse_sdp_legacy c frame st hscan hok hnone
  have h400 : ¬ ((200 : Int) ≥ 400) := by decide
  have h183 : ¬ ((200 : Int) = 183) := by decide
  refine ⟨?_, rfl, rfl, rfl, rfl, ?_⟩
  · simp only [process_invite_call_response, hslot, hdialog, heq, hcode, h400, h183, hbody, hp,
      sipe_media_parse_remote_codecs, hcodecs, hshare, hset, emit, sipe_media_send_ack, hkey,
      hnice, remove_stream_keeps, sipe_backend_media_add_stream,
      Bool.not_true, Bool.false_eq_true, if_false, if_true, Bool.and_self]
    simp only [downgraded_call, downgrade_trace, legacy_replacement_stream,
      sipe_backend_media_add_stream, hset, List.append_assoc, List.cons_append,
      List.nil_append]
  · have hleg : (downgraded_call call_private dialog st
        (sipe_media_prune_remote_codecs call_private.backend_private.local_codecs
          codecs)).legacy_mode = true := rfl
    have hcod : (downgraded_call call_private dialog st
        (sipe_media_prune_remote_codecs call_private.backend_private.local_codecs
          codecs)).backend_private.local_codecs = call_private.backend_private.local_codecs :=
      (remove_stream_keeps _ _).1
    have hini : (downgraded_call call_private dialog st
        (sipe_media_prune_remote_codecs call_private.backend_private.local_codecs
          codecs)).backend_private.initiator = true := by
      rw [← hinit]
      exact (remove_stream_keeps _ _).2.2.1
    obtain ⟨body, hsdp⟩ := create_sdp_defined sipe_private.local_ip
      (downgraded_call call_private dialog st
        (sipe_media_prune_remote_codecs call_private.backend_private.local_codecs codecs))
      (Or.inl hleg)
    have hlines := create_sdp_legacy_no_candidate_line _ _ body hleg hsdp hip
      (by rw [hcod]; exact hclean)
    refine ⟨body, hlines, ?_⟩
    have hsend := sipe_invite_call_sends
      { sipe_private with
        media_call := some (downgraded_call call_private dialog st
          (sipe_media_prune_remote_codecs call_private.backend_private.local_codecs codecs)),
        trace := sipe_private.trace
          ++ downgrade_trace call_private dialog st
              (sipe_media_prune_remote_codecs call_private.backend_private.local_codecs
                codecs) trans_cseq }
      (downgraded_call call_private dialog st
        (sipe_media_prune_remote_codecs call_private.backend_private.local_codecs codecs))
      { dialog with outgoing_invite := none } body
      TransCallback.process_invite_call_response rfl rfl hsdp
    simp only [candidates_prepared_cb, sipe_backend_media_is_initiator, hini, if_true]
    rw [hsend]
    rfl

/-- C7 (amended) on the sample outbound call answered by a body without candidates: the
handler returns `TRUE`, the session is legacy without connectivity checks on a
replacement stream, one ACK and no INVITE went out. -/
theorem legacy_answer_downgrades_witness :
    (process_invite_call_response (sample_endpoint (some sample_outbound_call))
        sample_response_200 sample_transaction).map
      (fun r => (r.1,
        r.2.media_call.map (fun k =>
          (k.legacy_mode, k.using_nice, k.voice_stream.map (fun s => s.using_nice),
           k.backend_private.streams.map (fun s => s.id))),
        invites r.2.trace, r.2.trace.length))
      = some (true, some (true, false, some false, [1]), [], 7) := by
  rw [(legacy_answer_downgrades (sample_endpoint (some sample_outbound_call))
    sample_outbound_call sample_outbound_dialog sample_response_200 sample_transaction
    sample_legacy_sdp sample_legacy_scan [sample_pcmu] 1 rfl rfl rfl rfl rfl rfl rfl
    (by decide) rfl (by decide) (by decide) (by decide) rfl (by decide) (by decide)
    (by
      intro c hc
      have e : c = sample_pcmu := by simpa [sample_outbound_call, sample_backend] using hc
      subst e
      exact ⟨by decide, by intro p hp; simp [sample_pcmu, sipe_backend_codec_new] at hp⟩)).1]
  rfl

/-- The text of `sipe_media_sdp_codec_ids_format` is the codec ids, each
preceded by one space. -/
theorem codec_ids_format_eq_text (codecs : List sipe_backend_codec) :
    sipe_media_sdp_codec_ids_format codecs = codec_ids_text codecs := by
  induction codecs with
  | nil => rfl
  | cons c cs ih =>
    rw [sipe_media_sdp_codec_ids_format, ih]
    simp [codec_ids_text]

/-- C11: the body built by `sipe_media_create_sdp` is, for every session and
backend state in which the candidate block can be built, the fixed
`v=`/`o=`/`s=`/`c=`/`b=`/`t=` lines, the line `m=audio <port> RTP/AVP` with the
local codec ids each preceded by one space, the candidate block, the hold
marker, the codec block and the trailer `a=encryption:rejected`; the hold marker
is the line `a=inactive` when `local_on_hold` or `remote_on_hold` is set and
empty otherwise; the body exists in legacy mode and whenever the backend has a
local candidate. -/
theorem create_sdp_layout (ip : Str) (call_private : sipe_media_call_private) :
    sipe_media_create_sdp ip call_private
        = (sipe_media_sdp_candidates_format call_private.backend_private
            call_private.legacy_mode 0).map
          (fun block => sdp_body_layout ip block.2 call_private.backend_private.local_codecs
            block.1 call_private.local_on_hold call_private.remote_on_hold)
      ∧ hold_marker call_private.local_on_hold call_private.remote_on_hold
          = (if call_private.local_on_hold = true ∨ call_private.remote_on_hold = true
             then "a=inactive\r\n".toList else [])
      ∧ ((call_private.legacy_mode = true
            ∨ l_candidates_of call_private.backend_private ≠ [])
          → (sipe_media_create_sdp ip call_private).isSome = true) := by
  refine ⟨?_, rfl, ?_⟩
  · unfold sipe_media_create_sdp
    cases hb : sipe_media_sdp_candidates_format call_private.backend_private
        call_private.legacy_mode 0 with
    | none => rfl
    | some block =>
      obtain ⟨cands, port⟩ := block
      simp only [Option.map_some', sdp_body_layout, hold_marker, codec_ids_format_eq_text,
        crlf_lines, Bool.or_eq_true]
      simp only [List.append_assoc, List.cons_append, List.nil_append, String.toList]
  · intro h
    obtain ⟨body, hbody⟩ := create_sdp_defined ip call_private h
    rw [hbody]; rfl

/-- Pruning keeps a remote list as it is when each of its codecs is found in the
local list by name. -/
theorem prune_keeps_found (local_codecs : List sipe_backend_codec) :
    ∀ remote_codecs : List sipe_backend_codec,
      (∀ c ∈ remote_codecs, c.name ∈ local_codecs.map (fun d => d.name)) →
      sipe_media_prune_remote_codecs local_codecs remote_codecs = remote_codecs := by
  intro remote_codecs
  induction remote_codecs with
  | nil => intro _; rfl
  | cons c r ih =>
    intro h
    unfold sipe_media_prune_remote_codecs
    rw [if_pos ((g_list_find_custom_iff local_codecs c).2 (h c (List.mem_cons_self _ _))),
      ih (fun d hd => h d (List.mem_cons_of_mem _ hd))]

/-- C20: pruning a codec list against itself returns the list: every codec of
`L` is found in `L` by its own name, so the result holds exactly the codecs of
`L`, in the order of `L` and each as many times as in `L`. -/
theorem prune_self_keeps_all (L : List sipe_backend_codec) :
    sipe_media_prune_remote_codecs L L = L
      ∧ (sipe_media_prune_remote_codecs L L).Perm L
      ∧ ∀ c, (sipe_media_prune_remote_codecs L L).count c = L.count c := by
  have h : sipe_media_prune_remote_codecs L L = L :=
    prune_keeps_found L L (fun c hc => List.mem_map_of_mem (fun d => d.name) hc)
  exact ⟨h, by rw [h], fun c => by rw [h]⟩

/-- C13: `call_hold_cb (call, TRUE, TRUE)` on a session that is already on local
hold and not on remote hold runs the remote branch: `remote_on_hold` goes from
`FALSE` to `TRUE` and a 200 OK with a session description is sent. The guard of
the second branch does not test `local`. -/
theorem local_hold_repeat_sets_remote_hold :
    hold_flags (sample_endpoint (some sample_locally_held_call)) = some (true, false)
      ∧ (call_hold_cb (sample_endpoint (some sample_locally_held_call)) true true).map
          (fun sp => (hold_flags sp, sdp_answers sp.trace))
        = some (some (true, true), [200]) := by
  constructor
  · rfl
  · rfl

/-- C15: the three discard paths release the session and leave the active-call
slot pointing to it. With a remote SDP that offers only PCMA and a backend that
has only PCMU, `candidates_prepared_cb`, the same-Call-ID branch of
`sipe_media_incoming_invite` and `process_invite_call_response` each end with a
non-empty slot whose session has been released. -/
theorem discard_paths_leave_slot_set :
    (candidates_prepared_cb
        (sample_endpoint (some (sample_inbound_call sample_pcma_attrs)))).map slot_state
        = some (some true)
      ∧ (sipe_media_incoming_invite (sample_endpoint (some sample_active_call))
          { sample_invite with body := some sample_pcma_sdp }).map slot_state
        = some (some true)
      ∧ (process_invite_call_response (sample_endpoint (some sample_outbound_call))
          { sample_response_200 with body := some sample_pcma_sdp } sample_transaction).map
          (fun r => (r.1, slot_state r.2))
        = some (false, some true) := by
  refine ⟨?_, ?_, ?_⟩
  · rfl
  · rfl
  · rfl

/-- C17: on the body `sample_bare_attr_sdp`, whose fourth line is `a=`,
`sipe_media_parse_sdp_attributes_and_candidates` returns `FALSE` and the session,
which was not in legacy mode, is left in legacy mode; the other fields are
unchanged. -/
theorem failed_parse_sets_legacy_mode :
    sample_call.legacy_mode = false
      ∧ sipe_media_parse_sdp_attributes_and_candidates sample_call (some sample_bare_attr_sdp)
        = some (false, { sample_call with legacy_mode := true }) := by
  constructor
  · rfl
  · rfl

/-- C18: an inbound INVITE of a peer that requires encryption creates a session
whose attribute set has `encryption` equal to `required`. A local hold request,
`call_hold_cb (call, TRUE, TRUE)`, sends an INVITE and sets `local_on_hold`;
when the request is repeated, the first branch is skipped and the second one,
which tests neither `local` nor the encryption level, sends a 200 OK carrying a
session description. -/
theorem repeated_local_hold_answers_required_encryption :
    (sipe_media_incoming_invite (sample_endpoint none)
        { sample_invite with body := some sample_required_sdp }).map
        (fun sp => (sp.media_call.map encryption_levels_compatible, sdp_answers sp.trace))
        = some (some false, [])
      ∧ ((sipe_media_incoming_invite (sample_endpoint none)
            { sample_invite with body := some sample_required_sdp }).bind
          (fun sp => call_hold_cb sp true true)).map
          (fun sp => (sp.media_call.map encryption_levels_compatible, sdp_answers sp.trace,
            hold_flags sp))
        = some (some false, [], some (true, false))
      ∧ (((sipe_media_incoming_invite (sample_endpoint none)
            { sample_invite with body := some sample_required_sdp }).bind
          (fun sp => call_hold_cb sp true true)).bind
          (fun sp => call_hold_cb sp true true)).map
          (fun sp => (sp.media_call.map encryption_levels_compatible, sdp_answers sp.trace,
            hold_flags sp))
        = some (some false, [200], some (true, true)) := by
  refine ⟨rfl, rfl, rfl⟩

/-- C19: `sipe_media_send_ack` given a response whose Call-ID (`other999`) is not
the call id of the active call's dialog (`abc123`) returns `TRUE`, sends an ACK
on that dialog and clears its outstanding INVITE. -/
theorem send_ack_acts_on_foreign_response :
    sipmsg_find_header sample_late_response "Call-ID".toList ≠ sample_outbound_dialog.callid
      ∧ sample_outbound_dialog.outgoing_invite = some sample_transaction
      ∧ callback_outcome (sipe_media_send_ack (sample_endpoint (some sample_outbound_call))
          sample_late_response sample_hold_transaction)
        = some (true, 1, some { sample_outbound_dialog with outgoing_invite := none }) := by
  refine ⟨by decide, rfl, ?_⟩
  rfl

/-- A scan that comes across a line `a=` ends there with the error flag set and
the attributes released, whatever the lines before it stored. -/
theorem parse_sdp_lines_bare_attr (pre post : List Str) :
    ∀ st : sdp_scan, (parse_sdp_lines pre st).isSome = true →
      ∃ st1, parse_sdp_lines (pre ++ "a=".toList :: post) st = some st1
        ∧ st1.no_error = false ∧ st1.sdp_attrs = [] := by
  induction pre with
  | nil => intro st _; exact ⟨_, rfl, rfl, rfl⟩
  | cons line rest ih =>
    intro st h
    rw [List.cons_append, parse_sdp_lines]
    rw [parse_sdp_lines] at h
    split
    · rw [if_pos (by assumption)] at h
      simp only at h ⊢
      split
      · simp_all
      · exact ⟨_, rfl, rfl, rfl⟩
      · split
        · simp_all
        · simp_all
    · rw [if_neg (by assumption)] at h
      split
      · rw [if_pos (by assumption)] at h
        simp only at h ⊢
        split
        · simp_all
        · simp_all
      · rw [if_neg (by assumption)] at h
        split
        · rw [if_pos (by assumption)] at h
          simp only at h ⊢
          split
          · simp_all
          · split
            · simp_all
            · simp_all
        · rw [if_neg (by assumption)] at h
          exact ih st h

/-- A scan that starts without error and ends with the error flag set has
released the attributes. -/
theorem parse_sdp_lines_error_attrs (lines : List Str) :
    ∀ st st1 : sdp_scan, parse_sdp_lines lines st = some st1 → st.no_error = true →
      st1.no_error = false → st1.sdp_attrs = [] := by
  induction lines with
  | nil =>
    intro st st1 h h1 h2
    simp only [parse_sdp_lines, Option.some.injEq] at h
    subst h; rw [h1] at h2; cases h2
  | cons line rest ih =>
    intro st st1 h h1 h2
    rw [parse_sdp_lines] at h
    split at h
    · simp only at h
      split at h
      · cases h
      · simp only [Option.some.injEq] at h
        subst h; rfl
      · split at h
        · cases h
        · exact ih _ _ h h1 h2
    · split at h
      · simp only at h
        split at h
        · cases h
        · exact ih _ _ h h1 h2
      · split at h
        · simp only at h
          split at h
          · cases h
          · split at h
            · cases h
            · exact ih _ _ h h1 h2
        · exact ih _ _ h h1 h2

/-- Whenever `sipe_media_parse_sdp_attributes_and_candidates` returns `FALSE`, the
session keeps its attribute set, remote IP, remote port, remote candidates and
every other field, except that `legacy_mode` is set. -/
theorem failed_parse_keeps_session (call_private call1 : sipe_media_call_private)
    (frame : CStr)
    (h : sipe_media_parse_sdp_attributes_and_candidates call_private frame
      = some (false, call1)) :
    call1 = { call_private with legacy_mode := true } := by
  unfold sipe_media_parse_sdp_attributes_and_candidates at h
  cases frame with
  | none => cases h
  | some f =>
    simp only at h
    cases hs : parse_sdp_lines (g_strsplit f "\r\n".toList 0)
        { sdp_attrs := [], remote_ip := none, remote_port := 0, no_error := true } with
    | none => rw [hs] at h; cases h
    | some st =>
      rw [hs] at h
      simp only at h
      cases hn : st.no_error with
      | true =>
        rw [hn] at h
        cases hp : sipe_media_parse_remote_candidates st.sdp_attrs with
        | none => rw [hp] at h; cases h
        | some parsed => rw [hp] at h; simp at h
      | false =>
        have ha := parse_sdp_lines_error_attrs _ _ _ hs rfl hn
        rw [ha, hn] at h
        have hp : sipe_media_parse_remote_candidates [] = some [] := rfl
        rw [hp] at h
        simp only [Bool.false_eq_true, if_false, Option.some.injEq, Prod.mk.injEq,
          true_and] at h
        exact h.symm

/-- A text without colon is a single part for `g_strsplit (text, ":", n)`. -/
theorem split_colon_go_single (unl : Bool) (k : Nat) (s : Str) (hs : ':' ∉ s) :
    g_strsplit_go ":".toList unl s 0 k = [s] := by
  induction s with
  | nil => rfl
  | cons c t ih =>
    have hc : c ≠ ':' := fun e => hs (by rw [e]; exact List.mem_cons_self _ _)
    have ht : ':' ∉ t := fun e => hs (List.mem_cons_of_mem _ e)
    have hpre : List.isPrefixOf ":".toList (c :: t) = false := by
      show List.isPrefixOf [':'] (c :: t) = false
      simp [List.isPrefixOf, hc.symm]
    rw [g_strsplit_go, hpre, ih ht]
    simp [consHead]

/-- An attribute line with a name and no colon is stored as an attribute without
value. -/
theorem parse_sdp_lines_valueless (name : Str) (rest : List Str) (st : sdp_scan)
    (hne : name ≠ []) (hcolon : ':' ∉ name) :
    parse_sdp_lines (("a=".toList ++ name) :: rest) st
      = parse_sdp_lines rest
          { st with sdp_attrs := sipe_utils_nameval_add st.sdp_attrs name none } := by
  have hpre : g_str_has_prefix ("a=".toList ++ name) "a=".toList = true := by
    show List.isPrefixOf ['a', '='] ('a' :: '=' :: name) = true
    simp [List.isPrefixOf]
  have hdrop : ("a=".toList ++ name).drop 2 = name := rfl
  have hsplit : g_strsplit name ":".toList 2 = [name] := by
    cases name with
    | nil => exact absurd rfl hne
    | cons c t => exact split_colon_go_single _ _ _ hcolon
  rw [parse_sdp_lines, if_pos hpre]
  simp only [hdrop, hsplit]
  rfl

/-- C16 (counterexample): the body `sample_inactive_sdp` contains the line
`a=inactive`, an `a=` line without colon, and
`sipe_media_parse_sdp_attributes_and_candidates` returns `TRUE` on it, storing
the attribute `inactive` without value. -/
theorem valueless_attribute_line_accepted :
    ("a=inactive".toList ∈ g_strsplit sample_inactive_sdp "\r\n".toList 0
        ∧ g_str_has_prefix "a=inactive".toList "a=".toList = true
        ∧ ':' ∉ "a=inactive".toList)
      ∧ (sipe_media_parse_sdp_attributes_and_candidates sample_call
          (some sample_inactive_sdp)).map (fun r => (r.1, r.2.sdp_attrs))
        = some (true, [⟨"rtpmap".toList, "0 PCMU/8000".toList⟩, ⟨"inactive".toList, []⟩]) := by
  refine ⟨⟨by decide, by decide, by decide⟩, ?_⟩
  rfl

/-- C16 (amended): when the body has a line that is `a=` alone (an attribute
line with an empty name) and the lines before it can be scanned,
`sipe_media_parse_sdp_attributes_and_candidates` returns `FALSE`; an `a=` line
with a name and no colon is not an error, it is stored as an attribute without
value. -/
theorem bare_attribute_line_fails (call_private : sipe_media_call_private) (frame : Str)
    (pre post : List Str)
    (hlines : g_strsplit frame "\r\n".toList 0 = pre ++ "a=".toList :: post)
    (hpre : (parse_sdp_lines pre sdp_scan_init).isSome = true) :
    sipe_media_parse_sdp_attributes_and_candidates call_private (some frame)
        = some (false, { call_private with legacy_mode := true })
      ∧ ∀ (name : Str) (rest : List Str) (st : sdp_scan), name ≠ [] → ':' ∉ name →
          parse_sdp_lines (("a=".toList ++ name) :: rest) st
            = parse_sdp_lines rest
                { st with sdp_attrs := sipe_utils_nameval_add st.sdp_attrs name none } := by
  refine ⟨?_, fun name rest st hne hc => parse_sdp_lines_valueless name rest st hne hc⟩
  obtain ⟨st1, hst, herr, hattrs⟩ := parse_sdp_lines_bare_attr pre post sdp_scan_init hpre
  have hp : sipe_media_parse_remote_candidates [] = some [] := rfl
  unfold sipe_media_parse_sdp_attributes_and_candidates
  simp only [hlines]
  rw [show ({ sdp_attrs := [], remote_ip := none, remote_port := 0, no_error := true }
      : sdp_scan) = sdp_scan_init from rfl, hst]
  simp only [hattrs, hp, herr, Bool.false_eq_true, if_false]

/-- C16 (amended), on `sample_bare_attr_sdp`: three lines, then the line `a=`. -/
theorem bare_attribute_line_fails_witness :
    sipe_media_parse_sdp_attributes_and_candidates sample_call (some sample_bare_attr_sdp)
      = some (false, { sample_call with legacy_mode := true }) :=
  (bare_attribute_line_fails sample_call sample_bare_attr_sdp
    ["v=0".toList, "o=- 0 0 IN IP4 10.0.0.5".toList, "m=audio 5000 RTP/AVP 0".toList]
    ["a=rtpmap:0 PCMU/8000".toList, []] (by rfl) (by rfl)).1

/-- Removing a stream leaves the local codecs of the backend alone. -/
theorem remove_stream_local_codecs (media : sipe_backend_media)
    (stream : Option sipe_backend_stream) :
    (sipe_backend_media_remove_stream media stream).local_codecs = media.local_codecs := by
  cases stream <;> rfl

/-- The function `sipe_invite_call` keeps a session invariant. -/
theorem sipe_invite_call_preserves (P : sipe_media_call_private → Prop)
    (hP : session_invariant P) (sp sp1 : sipe_core_private) (tc : TransCallback)
    (h : sipe_invite_call sp tc = some sp1) (hinv : slot_holds P sp) : slot_holds P sp1 := by
  unfold sipe_invite_call at h
  cases hslot : sp.media_call with
  | none => rw [hslot] at h; cases h
  | some call =>
    rw [hslot] at h
    simp only at h
    cases hd : call.dialog with
    | none => rw [hd] at h; cases h
    | some dialog =>
      rw [hd] at h
      simp only at h
      cases hb : sipe_media_create_sdp sp.local_ip call with
      | none => rw [hb] at h; cases h
      | some body =>
        rw [hb] at h
        simp only [Option.some.injEq] at h
        subst h
        intro c hc
        simp only [Option.some.injEq] at hc
        subst hc
        exact hP.frame call _ ⟨rfl, rfl, rfl, rfl, rfl⟩ (hinv call hslot)

/-- The function `send_response_with_session_description` keeps a session
invariant. -/
theorem send_response_preserves (P : sipe_media_call_private → Prop)
    (hP : session_invariant P) (sp sp1 : sipe_core_private) (call : sipe_media_call_private)
    (code : Nat) (text : Str)
    (h : send_response_with_session_description sp call code text = some sp1)
    (hc : P call) : slot_holds P sp1 := by
  unfold send_response_with_session_description at h
  cases hb : sipe_media_create_sdp sp.local_ip call with
  | none => rw [hb] at h; cases h
  | some body =>
    rw [hb] at h
    simp only at h
    cases hi : call.invitation with
    | none => rw [hi] at h; cases h
    | some invitation =>
      rw [hi] at h
      simp only [Option.some.injEq] at h
      subst h
      intro c hc1
      simp only [emit, Option.some.injEq] at hc1
      subst hc1
      exact hP.frame call _ ⟨rfl, rfl, rfl, rfl, rfl⟩ hc

/-- The function `handle_incompatible_encryption_level` keeps a session
invariant. -/
theorem handle_incompatible_preserves (P : sipe_media_call_private → Prop)
    (hP : session_invariant P) (sp sp1 : sipe_core_private) (call : sipe_media_call_private)
    (h : handle_incompatible_encryption_level sp call = some sp1)
    (hc : P call) : slot_holds P sp1 := by
  unfold handle_incompatible_encryption_level at h
  cases hi : call.invitation with
  | none => rw [hi] at h; cases h
  | some invitation =>
    rw [hi] at h
    simp only [Option.some.injEq] at h
    subst h
    intro c hc1
    simp only [emit, Option.some.injEq] at hc1
    subst hc1
    exact hP.frame call _ ⟨rfl, rfl, rfl, rfl, rfl⟩ hc

/-- The function `sipe_media_send_ack` keeps a session invariant. -/
theorem send_ack_preserves (P : sipe_media_call_private → Prop)
    (hP : session_invariant P) (sp sp1 : sipe_core_private) (msg : sipmsg)
    (trans : transaction) (r : Bool)
    (h : sipe_media_send_ack sp msg trans = some (r, sp1)) (hinv : slot_holds P sp) :
    slot_holds P sp1 := by
  unfold sipe_media_send_ack at h
  cases hslot : sp.media_call with
  | none =>
    rw [hslot] at h
    simp only [Option.some.injEq, Prod.mk.injEq] at h
    rw [← h.2]; exact hinv
  | some call =>
    rw [hslot] at h
    simp only at h
    cases hd : call.dialog with
    | none =>
      rw [hd] at h
      simp only [Option.some.injEq, Prod.mk.injEq] at h
      rw [← h.2]; exact hinv
    | some dialog =>
      rw [hd] at h
      simp only at h
      cases hk : sscanf_trans_cseq trans.key with
      | none => rw [hk] at h; cases h
      | some v =>
        rw [hk] at h
        simp only [Option.some.injEq, Prod.mk.injEq] at h
        rw [← h.2]
        intro c hc1
        simp only [emit, Option.some.injEq] at hc1
        subst hc1
        exact hP.frame call _ ⟨rfl, rfl, rfl, rfl, rfl⟩ (hinv call hslot)

/-- The callback `candidates_prepared_cb` keeps a session invariant. -/
theorem candidates_prepared_cb_preserves (P : sipe_media_call_private → Prop)
    (hP : session_invariant P) (sp sp1 : sipe_core_private)
    (h : candidates_prepared_cb sp = some sp1) (hinv : slot_holds P sp) : slot_holds P sp1 := by
  unfold candidates_prepared_cb at h
  cases hslot : sp.media_call with
  | none => rw [hslot] at h; cases h
  | some call =>
    rw [hslot] at h
    simp only at h
    split at h
    · exact sipe_invite_call_preserves P hP sp sp1 _ h hinv
    · cases hc : sipe_media_parse_remote_codecs call with
      | none => rw [hc] at h; cases h
      | some res =>
        obtain ⟨ok, call1, es⟩ := res
        rw [hc] at h
        simp only at h
        have h1 : P call1 := hP.prune call ok call1 es hc (hinv call hslot)
        split at h
        · simp only [Option.some.injEq] at h
          subst h
          intro c hc1
          simp only [emit, Option.some.injEq] at hc1
          subst hc1
          exact hP.frame call1 _ ⟨rfl, rfl, rfl, rfl, rfl⟩ h1
        · split at h
          · exact send_response_preserves P hP _ sp1 call1 _ _ h h1
          · simp only [Option.some.injEq] at h
            subst h
            intro c hc1
            simp only [emit, Option.some.injEq] at hc1
            subst hc1
            exact h1

/-- The callback `call_accept_cb` keeps a session invariant. -/
theorem call_accept_cb_preserves (P : sipe_media_call_private → Prop)
    (hP : session_invariant P) (sp sp1 : sipe_core_private) (is_local : Bool)
    (h : call_accept_cb sp is_local = some sp1) (hinv : slot_holds P sp) : slot_holds P sp1 := by
  unfold call_accept_cb at h
  cases hslot : sp.media_call with
  | none => rw [hslot] at h; cases h
  | some call =>
    rw [hslot] at h
    simp only at h
    split at h
    · split at h
      · exact handle_incompatible_preserves P hP sp sp1 call h (hinv call hslot)
      · exact send_response_preserves P hP sp sp1 call _ _ h (hinv call hslot)
    · simp only [Option.some.injEq] at h
      subst h; exact hinv

/-- The callback `call_hold_cb` keeps a session invariant. -/
theorem call_hold_cb_preserves (P : sipe_media_call_private → Prop)
    (hP : session_invariant P) (sp sp1 : sipe_core_private) (is_local state : Bool)
    (h : call_hold_cb sp is_local state = some sp1) (hinv : slot_holds P sp) :
    slot_holds P sp1 := by
  unfold call_hold_cb at h
  cases hslot : sp.media_call with
  | none => rw [hslot] at h; cases h
  | some call =>
    rw [hslot] at h
    simp only at h
    have hc := hinv call hslot
    split at h
    · refine sipe_invite_call_preserves P hP _ sp1 _ h ?_
      intro c hc1
      simp only [Option.some.injEq] at hc1
      subst hc1
      exact hP.frame call _ ⟨rfl, rfl, rfl, rfl, rfl⟩ hc
    · split at h
      · exact send_response_preserves P hP sp sp1 _ _ _ h
          (hP.frame call _ ⟨rfl, rfl, rfl, rfl, rfl⟩ hc)
      · simp only [Option.some.injEq] at h
        subst h; exact hinv

/-- The callbacks `call_reject_cb` and `call_hangup_cb` end with an empty
active-call slot. -/
theorem terminal_callbacks_clear_slot (sp sp1 : sipe_core_private) (is_local : Bool) :
    (call_reject_cb sp is_local = some sp1 → sp1.media_call = none)
      ∧ (call_hangup_cb sp is_local = some sp1 → sp1.media_call = none) := by
  constructor
  · intro h
    unfold call_reject_cb at h
    cases hslot : sp.media_call with
    | none => rw [hslot] at h; cases h
    | some call =>
      rw [hslot] at h
      simp only at h
      split at h
      · cases hi : call.invitation with
        | none => rw [hi] at h; cases h
        | some inv =>
          rw [hi] at h
          simp only [Option.some.injEq] at h
          subst h; rfl
      · simp only [Option.some.injEq] at h
        subst h; rfl
  · intro h
    unfold call_hangup_cb at h
    cases hslot : sp.media_call with
    | none => rw [hslot] at h; cases h
    | some call =>
      rw [hslot] at h
      simp only at h
      split at h
      · simp only [Option.some.injEq] at h
        subst h; rfl
      · simp only [Option.some.injEq] at h
        subst h; rfl

/-- An endpoint with an empty active-call slot satisfies every slot property. -/
theorem slot_holds_of_empty (P : sipe_media_call_private → Prop) (sp : sipe_core_private)
    (h : sp.media_call = none) : slot_holds P sp := by
  intro c hc
  rw [h] at hc; cases hc

/-- The function `sipe_media_incoming_invite`, given an endpoint with an active
call, keeps a session invariant. -/
theorem incoming_invite_preserves (P : sipe_media_call_private → Prop)
    (hP : session_invariant P) (sp sp1 : sipe_core_private) (msg : sipmsg)
    (call : sipe_media_call_private) (hslot : sp.media_call = some call)
    (h : sipe_media_incoming_invite sp msg = some sp1) (hinv : slot_holds P sp) :
    slot_holds P sp1 := by
  unfold sipe_media_incoming_invite at h
  rw [hslot] at h
  simp only at h
  have hc := hinv call hslot
  cases hd : call.dialog with
  | none => rw [hd] at h; cases h
  | some dialog =>
    rw [hd] at h
    simp only at h
    split at h
    · split at h
      · cases h
      · rename_i ok call2 hs
        have hc1 := hP.clear call (some msg) hc
        rw [hd] at hc1
        have hc2 : P call2 := hP.scan _ _ ok call2 hs hc1
        split at h
        · exact handle_incompatible_preserves P hP sp sp1 call2 h hc2
        · cases hp : sipe_media_parse_remote_codecs call2 with
          | none => rw [hp] at h; cases h
          | some res3 =>
            obtain ⟨ok3, call3, es⟩ := res3
            rw [hp] at h
            simp only at h
            have hc3 : P call3 := hP.prune call2 ok3 call3 es hp hc2
            split at h
            · simp only [Option.some.injEq] at h
              subst h
              intro c hcc
              simp only [emit, Option.some.injEq] at hcc
              subst hcc
              exact hP.frame call3 _ ⟨rfl, rfl, rfl, rfl, rfl⟩ hc3
            · split at h
              · simp only [Option.some.injEq] at h
                subst h
                intro c hcc
                simp only [emit, Option.some.injEq] at hcc
                subst hcc
                exact hc3
              · split at h
                · simp only [Option.some.injEq] at h
                  subst h
                  intro c hcc
                  simp only [emit, Option.some.injEq] at hcc
                  subst hcc
                  exact hc3
                · split at h
                  · simp only [Option.some.injEq] at h
                    subst h
                    intro c hcc
                    simp only [emit, Option.some.injEq] at hcc
                    subst hcc
                    exact hc3
                  · exact send_response_preserves P hP _ sp1 call3 _ _ h hc3
    · simp only [Option.some.injEq] at h
      subst h
      intro c hcc
      simp only [emit] at hcc
      exact hinv c hcc

/-- A session that `sipe_media_incoming_invite` creates on an endpoint without
active call satisfies every session invariant that new sessions satisfy. -/
theorem incoming_invite_new_session (P : sipe_media_call_private → Prop)
    (hP : session_invariant P)
    (hinit : ∀ sp participant initiator, P (sipe_media_call_init sp participant initiator))
    (sp sp1 : sipe_core_private) (msg : sipmsg) (hslot : sp.media_call = none)
    (h : sipe_media_incoming_invite sp msg = some sp1) : slot_holds P sp1 := by
  unfold sipe_media_incoming_invite at h
  rw [hslot] at h
  simp only at h
  split at h
  · cases h
  · rename_i ok call1 hs
    simp only [Option.some.injEq] at h
    subst h
    intro c hcc
    simp only [emit, Option.some.injEq] at hcc
    subst hcc
    have h1 : P call1 := by
      refine hP.scan _ _ _ _ hs ?_
      exact hP.frame (sipe_media_call_init sp none false) _ ⟨rfl, rfl, rfl, rfl, rfl⟩ (hinit sp none false)
    exact hP.frame call1 _ ⟨rfl, rfl, rfl, rfl, rfl⟩ h1

/-- A session that `sipe_core_media_initiate_call` creates satisfies every
session invariant that new sessions satisfy; an active call is left alone. -/
theorem initiate_call_preserves (P : sipe_media_call_private → Prop)
    (hP : session_invariant P)
    (hinit : ∀ sp participant initiator, P (sipe_media_call_init sp participant initiator))
    (sp : sipe_core_private) (participant : CStr) (hinv : slot_holds P sp) :
    slot_holds P (sipe_core_media_initiate_call sp participant) := by
  unfold sipe_core_media_initiate_call
  cases hslot : sp.media_call with
  | some call => simp only; exact hinv
  | none =>
    simp only
    intro c hcc
    simp only [emit, Option.some.injEq] at hcc
    subst hcc
    exact hP.frame (sipe_media_call_init sp participant true) _ ⟨rfl, rfl, rfl, rfl, rfl⟩
      (hinit sp participant true)

/-- The transaction callback `process_invite_call_response` keeps a session
invariant. -/
theorem process_invite_call_response_preserves (P : sipe_media_call_private → Prop)
    (hP : session_invariant P) (sp sp1 : sipe_core_private) (msg : sipmsg)
    (trans : transaction) (r : Bool)
    (h : process_invite_call_response sp msg trans = some (r, sp1))
    (hinv : slot_holds P sp) : slot_holds P sp1 := by
  unfold process_invite_call_response at h
  cases hslot : sp.media_call with
  | none =>
    rw [hslot] at h
    simp only [Option.some.injEq, Prod.mk.injEq] at h
    rw [← h.2]; exact hinv
  | some call =>
    rw [hslot] at h
    simp only at h
    have hc := hinv call hslot
    split at h
    · cases h
    · rename_i dialog hd
      split at h
      · simp only [Option.some.injEq, Prod.mk.injEq] at h
        rw [← h.2]; exact hinv
      · have hc0 : P { call with dialog := some { dialog with outgoing_invite := none } } :=
          hP.frame call _ ⟨rfl, rfl, rfl, rfl, rfl⟩ hc
        split at h
        · split at h
          · cases h
          · rename_i b spa hack
            simp only [Option.some.injEq, Prod.mk.injEq] at h
            rw [← h.2]
            have hs := send_ack_preserves P hP _ spa msg trans b hack (by
              intro c hcc
              simp only [emit, Option.some.injEq] at hcc
              subst hcc
              exact hc0)
            intro c hcc
            exact hs c hcc
        · split at h
          · cases h
          · rename_i call1 hs1
            simp only [Option.some.injEq, Prod.mk.injEq] at h
            rw [← h.2]
            intro c hcc
            simp only [Option.some.injEq] at hcc
            subst hcc
            exact hP.scan _ _ _ _ hs1 hc0
          · rename_i call1 hs1
            have hc1 : P call1 := hP.scan _ _ _ _ hs1 hc0
            split at h
            · cases h
            · rename_i call2 es hp2
              simp only [Option.some.injEq, Prod.mk.injEq] at h
              rw [← h.2]
              intro c hcc
              simp only [emit, Option.some.injEq] at hcc
              subst hcc
              exact hP.frame call2 _ ⟨rfl, rfl, rfl, rfl, rfl⟩ (hP.prune _ _ _ _ hp2 hc1)
            · rename_i call2 es hp2
              have hc2 : P call2 := hP.prune _ _ _ _ hp2 hc1
              split at h
              · simp only [Option.some.injEq, Prod.mk.injEq] at h
                rw [← h.2]
                intro c hcc
                simp only [emit, Option.some.injEq] at hcc
                subst hcc
                exact hc2
              · split at h
                · cases h
                · rename_i b sp3 hack
                  have hs3 : slot_holds P sp3 := by
                    refine send_ack_preserves P hP _ sp3 msg trans b hack ?_
                    intro c hcc
                    simp only [emit, Option.some.injEq] at hcc
                    subst hcc
                    exact hc2
                  split at h
                  · cases h
                  · rename_i call3 hm3
                    have hc3 : P call3 := hs3 call3 hm3
                    split at h
                    · have hc4 : P { call3 with
                          using_nice := false,
                          backend_private := sipe_backend_media_remove_stream
                            (sipe_backend_media_add_stream call3.backend_private dialog.with_
                              false true).2 call3.voice_stream,
                          voice_stream := some (sipe_backend_media_add_stream
                            call3.backend_private dialog.with_ false true).1 } :=
                        hP.frame call3 _
                          ⟨rfl, rfl, rfl, rfl, (remove_stream_local_codecs _ _).trans rfl⟩ hc3
                      split at h
                      · cases h
                      · rename_i call5 hs5
                        simp only [Option.some.injEq, Prod.mk.injEq] at h
                        rw [← h.2]
                        intro c hcc
                        simp only [Option.some.injEq] at hcc
                        subst hcc
                        exact hP.scan _ _ _ _ hs5 hc4
                      · rename_i call5 hs5
                        have hc5 : P call5 := hP.scan _ _ _ _ hs5 hc4
                        split at h
                        · cases h
                        · rename_i call6 es6 hp6
                          simp only [Option.some.injEq, Prod.mk.injEq] at h
                          rw [← h.2]
                          intro c hcc
                          simp only [emit, Option.some.injEq] at hcc
                          subst hcc
                          exact hP.frame call6 _ ⟨rfl, rfl, rfl, rfl, rfl⟩
                            (hP.prune _ _ _ _ hp6 hc5)
                        · rename_i call6 es6 hp6
                          simp only [Option.some.injEq, Prod.mk.injEq] at h
                          rw [← h.2]
                          intro c hcc
                          simp only [emit, Option.some.injEq] at hcc
                          subst hcc
                          exact hP.prune _ _ _ _ hp6 hc5
                    · split at h
                      · cases h
                      · rename_i sp5 hinv5
                        simp only [Option.some.injEq, Prod.mk.injEq] at h
                        rw [← h.2]
                        exact sipe_invite_call_preserves P hP sp3 sp5 _ hinv5 hs3

/-- What `sipe_media_parse_sdp_attributes_and_candidates` returns, in terms of
the scan of the body and of the candidates parsed from the scanned attributes. -/
theorem parse_sdp_cases (c c1 : sipe_media_call_private) (body : CStr) (ok : Bool)
    (h : sipe_media_parse_sdp_attributes_and_candidates c body = some (ok, c1)) :
    ∃ frame st parsed, body = some frame
      ∧ parse_sdp_lines (g_strsplit frame "\r\n".toList 0) sdp_scan_init = some st
      ∧ sipe_media_parse_remote_candidates st.sdp_attrs = some parsed
      ∧ ok = st.no_error
      ∧ c1.legacy_mode = (c.legacy_mode || parsed.isEmpty)
      ∧ c1.remote_codecs = c.remote_codecs
      ∧ c1.backend_private = c.backend_private
      ∧ (ok = true → c1.sdp_attrs = st.sdp_attrs
          ∧ c1.remote_candidates
              = (match parsed with
                 | [] => sipe_media_parse_remote_candidates_legacy st.remote_ip st.remote_port
                 | _ => parsed)) := by
  unfold sipe_media_parse_sdp_attributes_and_candidates at h
  cases body with
  | none => cases h
  | some frame =>
    simp only at h
    split at h
    · cases h
    · rename_i st hst
      split at h
      · cases h
      · rename_i parsed hparsed
        refine ⟨frame, st, parsed, rfl, hst, hparsed, ?_⟩
        cases hn : st.no_error with
        | true =>
          rw [hn] at h
          simp only [if_true, Option.some.injEq, Prod.mk.injEq] at h
          obtain ⟨hok, hc1⟩ := h
          subst hok; subst hc1
          cases parsed with
          | nil => simp
          | cons p ps => simp
        | false =>
          rw [hn] at h
          simp only [Bool.false_eq_true, if_false, Option.some.injEq, Prod.mk.injEq] at h
          obtain ⟨hok, hc1⟩ := h
          subst hok; subst hc1
          cases parsed with
          | nil => simp
          | cons p ps => simp

/-- What `sipe_media_parse_remote_codecs` returns: the session unchanged when no
codec is shared, and otherwise the session with the pruned codecs stored. -/
theorem parse_remote_codecs_cases (c c1 : sipe_media_call_private) (ok : Bool)
    (es : List effect) (h : sipe_media_parse_remote_codecs c = some (ok, c1, es)) :
    ∃ parsed, sipe_media_parse_codecs c.sdp_attrs = some parsed
      ∧ (c1 = c
          ∨ c1 = { c with remote_codecs :=
                    sipe_media_prune_remote_codecs c.backend_private.local_codecs parsed }) := by
  unfold sipe_media_parse_remote_codecs at h
  simp only at h
  split at h
  · cases h
  · rename_i parsed hparsed
    refine ⟨parsed, hparsed, ?_⟩
    split at h
    · simp only [Option.some.injEq, Prod.mk.injEq] at h
      exact Or.inl h.2.1.symm
    · simp only [Option.some.injEq, Prod.mk.injEq] at h
      exact Or.inr h.2.1.symm

/-- Being in legacy mode is a session invariant. -/
theorem legacy_mode_invariant : session_invariant (fun c => c.legacy_mode = true) := by
  refine ⟨?_, ?_, ?_, ?_⟩
  · intro c c1 hsame hc
    exact hsame.1.trans hc
  · intro c invitation hc
    exact hc
  · intro c body ok c1 h hc
    obtain ⟨frame, st, parsed, _, _, _, _, hleg, _⟩ := parse_sdp_cases c c1 body ok h
    simp only at hc
    rw [hleg, hc, Bool.true_or]
  · intro c ok c1 es h hc
    obtain ⟨parsed, _, h1 | h1⟩ := parse_remote_codecs_cases c c1 ok es h
    · rw [h1]; exact hc
    · rw [h1]; exact hc

/-- C12: `legacy_mode` is sticky. For an endpoint whose active session has
`legacy_mode = TRUE`, after SDP parsing, an incoming INVITE, the two INVITE
transaction callbacks, candidates-prepared, accept and hold, the session in the
slot, whenever there still is one, has `legacy_mode = TRUE`; session creation
(`sipe_media_call_init`) is where it is set to `FALSE`. -/
theorem legacy_mode_sticky (sp : sipe_core_private) (call : sipe_media_call_private)
    (hslot : sp.media_call = some call) (hlegacy : call.legacy_mode = true) :
    (∀ body ok call1,
        sipe_media_parse_sdp_attributes_and_candidates call body = some (ok, call1) →
        call1.legacy_mode = true)
      ∧ (∀ ok call1 es, sipe_media_parse_remote_codecs call = some (ok, call1, es) →
        call1.legacy_mode = true)
      ∧ (∀ msg sp1, sipe_media_incoming_invite sp msg = some sp1 →
        slot_holds (fun c => c.legacy_mode = true) sp1)
      ∧ (∀ msg trans r sp1, process_invite_call_response sp msg trans = some (r, sp1) →
        slot_holds (fun c => c.legacy_mode = true) sp1)
      ∧ (∀ msg trans r sp1, sipe_media_send_ack sp msg trans = some (r, sp1) →
        slot_holds (fun c => c.legacy_mode = true) sp1)
      ∧ (∀ sp1, candidates_prepared_cb sp = some sp1 →
        slot_holds (fun c => c.legacy_mode = true) sp1)
      ∧ (∀ is_local sp1, call_accept_cb sp is_local = some sp1 →
        slot_holds (fun c => c.legacy_mode = true) sp1)
      ∧ (∀ is_local state sp1, call_hold_cb sp is_local state = some sp1 →
        slot_holds (fun c => c.legacy_mode = true) sp1)
      ∧ (∀ sp0 participant initiator,
        (sipe_media_call_init sp0 participant initiator).legacy_mode = false) := by
  have hP := legacy_mode_invariant
  have hinv : slot_holds (fun c => c.legacy_mode = true) sp := by
    intro c hc
    rw [hslot] at hc
    simp only [Option.some.injEq] at hc
    subst hc
    exact hlegacy
  refine ⟨?_, ?_, ?_, ?_, ?_, ?_, ?_, ?_, ?_⟩
  · intro body ok call1 h
    exact hP.scan call body ok call1 h hlegacy
  · intro ok call1 es h
    exact hP.prune call ok call1 es h hlegacy
  · intro msg sp1 h
    exact incoming_invite_preserves _ hP sp sp1 msg call hslot h hinv
  · intro msg trans r sp1 h
    exact process_invite_call_response_preserves _ hP sp sp1 msg trans r h hinv
  · intro msg trans r sp1 h
    exact send_ack_preserves _ hP sp sp1 msg trans r h hinv
  · intro sp1 h
    exact candidates_prepared_cb_preserves _ hP sp sp1 h hinv
  · intro is_local sp1 h
    exact call_accept_cb_preserves _ hP sp sp1 is_local h hinv
  · intro is_local state sp1 h
    exact call_hold_cb_preserves _ hP sp sp1 is_local state h hinv
  · intro sp0 participant initiator
    rfl

/-- C12 on the legacy sample session: the remote-hold callback answers with
200 OK and the session left in the slot is still in legacy mode. -/
theorem legacy_mode_sticky_witness :
    call_hold_cb (sample_endpoint (some sample_legacy_call)) false true
        = some sample_legacy_held_endpoint
      ∧ sdp_answers sample_legacy_held_endpoint.trace = [200]
      ∧ ∃ c, sample_legacy_held_endpoint.media_call = some c ∧ c.legacy_mode = true :=
  ⟨rfl, rfl, sample_legacy_held_endpoint.media_call.getD sample_call, rfl,
    (legacy_mode_sticky (sample_endpoint (some sample_legacy_call)) sample_legacy_call rfl
      rfl).2.2.2.2.2.2.2.1 false true sample_legacy_held_endpoint rfl _ rfl⟩

/-- Without active call both INVITE transaction callbacks return `FALSE` and
leave the endpoint as it is; with an active call whose dialog has another call
id than the response, `process_invite_call_response` does so as well. -/
theorem late_response_ignored (sp : sipe_core_private) (msg : sipmsg) (trans : transaction) :
    (sp.media_call = none →
        process_invite_call_response sp msg trans = some (false, sp)
          ∧ sipe_media_send_ack sp msg trans = some (false, sp))
      ∧ (∀ call dialog, sp.media_call = some call → call.dialog = some dialog →
          dialog.callid ≠ sipmsg_find_header msg "Call-ID".toList →
          process_invite_call_response sp msg trans = some (false, sp)) := by
  constructor
  · intro h
    unfold process_invite_call_response sipe_media_send_ack
    rw [h]
    exact ⟨rfl, rfl⟩
  · intro call dialog hslot hd hne
    unfold process_invite_call_response
    rw [hslot]
    simp only [hd]
    have hneq : sipe_strequal dialog.callid (sipmsg_find_header msg "Call-ID".toList) = false := by
      unfold sipe_strequal
      exact decide_eq_false hne
    rw [hneq]
    rfl

/-- The callback `call_hold_cb (call, FALSE, state)` leaves `local_on_hold` as it
is. -/
theorem remote_hold_keeps_local_flag (sp sp1 : sipe_core_private)
    (call : sipe_media_call_private) (state : Bool) (hslot : sp.media_call = some call)
    (h : call_hold_cb sp false state = some sp1) :
    ∃ call1, sp1.media_call = some call1 ∧ call1.local_on_hold = call.local_on_hold := by
  unfold call_hold_cb at h
  rw [hslot] at h
  simp only [Bool.false_and, Bool.false_eq_true, if_false] at h
  split at h
  · unfold send_response_with_session_description at h
    split at h
    · cases h
    · split at h
      · cases h
      · simp only [Option.some.injEq] at h
        subst h
        exact ⟨_, rfl, rfl⟩
  · simp only [Option.some.injEq] at h
    subst h
    exact ⟨call, hslot, rfl⟩

/-- The answers of a trace are the answers of its parts. -/
theorem sdp_answers_append (a b : List effect) :
    sdp_answers (a ++ b) = sdp_answers a ++ sdp_answers b := by
  induction a with
  | nil => rfl
  | cons e es ih =>
    cases e with
    | sip_transport_response msg code text body =>
      cases body with
      | none => simpa [sdp_answers] using ih
      | some b => simp [sdp_answers, ih]
    | _ => simpa [sdp_answers] using ih

/-- The function `sipe_media_parse_remote_codecs` sends no answer and keeps the
attribute set. -/
theorem parse_remote_codecs_no_answer (c c1 : sipe_media_call_private) (ok : Bool)
    (es : List effect) (h : sipe_media_parse_remote_codecs c = some (ok, c1, es)) :
    sdp_answers es = [] ∧ c1.sdp_attrs = c.sdp_attrs := by
  unfold sipe_media_parse_remote_codecs at h
  simp only at h
  split at h
  · cases h
  · split at h
    · simp only [Option.some.injEq, Prod.mk.injEq] at h
      obtain ⟨_, h1, h2⟩ := h
      subst h1; subst h2
      exact ⟨rfl, rfl⟩
    · simp only [Option.some.injEq, Prod.mk.injEq] at h
      obtain ⟨_, h1, h2⟩ := h
      subst h1; subst h2
      exact ⟨rfl, rfl⟩

/-- The function `sipe_invite_call` sends no answer. -/
theorem sipe_invite_call_no_answer (sp sp1 : sipe_core_private) (tc : TransCallback)
    (h : sipe_invite_call sp tc = some sp1) : sdp_answers sp1.trace = sdp_answers sp.trace := by
  unfold sipe_invite_call at h
  split at h
  · cases h
  · split at h
    · cases h
    · split at h
      · cases h
      · simp only [Option.some.injEq] at h
        subst h
        simp [sip_transport_invite, emit, sdp_answers_append, sdp_answers]

/-- The function `handle_incompatible_encryption_level` sends no answer with a
session description. -/
theorem handle_incompatible_no_answer (sp sp1 : sipe_core_private)
    (call : sipe_media_call_private)
    (h : handle_incompatible_encryption_level sp call = some sp1) :
    sdp_answers sp1.trace = sdp_answers sp.trace := by
  unfold handle_incompatible_encryption_level at h
  split at h
  · cases h
  · simp only [Option.some.injEq] at h
    subst h
    simp [emit, sdp_answers_append, sdp_answers]

/-- After `send_response_with_session_description` the session in the slot has
the attribute set of the session that was answered for. -/
theorem send_response_keeps_attrs (sp sp1 : sipe_core_private)
    (call : sipe_media_call_private) (code : Nat) (text : Str)
    (h : send_response_with_session_description sp call code text = some sp1)
    (hc : encryption_levels_compatible call = true) :
    slot_holds (fun c => encryption_levels_compatible c = true) sp1 := by
  unfold send_response_with_session_description at h
  split at h
  · cases h
  · split at h
    · cases h
    · simp only [Option.some.injEq] at h
      subst h
      intro c hcc
      simp only [emit, Option.some.injEq] at hcc
      subst hcc
      exact hc

/-- The encryption gate of the three handlers that have it: when
`candidates_prepared_cb`, `call_accept_cb` or `sipe_media_incoming_invite` on an
endpoint with an active call adds an answer carrying a session description to
the trace, the attribute set of the session does not have `encryption` equal to
`required`. -/
theorem encryption_gate_of_answering_handlers (sp sp1 : sipe_core_private)
    (call : sipe_media_call_private) (hslot : sp.media_call = some call) :
    (candidates_prepared_cb sp = some sp1 →
        sdp_answers sp1.trace = sdp_answers sp.trace
          ∨ slot_holds (fun c => encryption_levels_compatible c = true) sp1)
      ∧ (∀ is_local, call_accept_cb sp is_local = some sp1 →
        sdp_answers sp1.trace = sdp_answers sp.trace
          ∨ slot_holds (fun c => encryption_levels_compatible c = true) sp1)
      ∧ (∀ msg, sipe_media_incoming_invite sp msg = some sp1 →
        sdp_answers sp1.trace = sdp_answers sp.trace
          ∨ slot_holds (fun c => encryption_levels_compatible c = true) sp1) := by
  refine ⟨?_, ?_, ?_⟩
  · intro h
    unfold candidates_prepared_cb at h
    rw [hslot] at h
    simp only at h
    split at h
    · exact Or.inl (sipe_invite_call_no_answer sp sp1 _ h)
    · split at h
      · cases h
      · rename_i ok call1 es hp
        obtain ⟨hes, _⟩ := parse_remote_codecs_no_answer _ _ _ _ hp
        split at h
        · simp only [Option.some.injEq] at h
          subst h
          exact Or.inl (by simp [emit, sdp_answers_append, hes])
        · split at h
          · rename_i hgate
            simp only [Bool.and_eq_true] at hgate
            exact Or.inr (send_response_keeps_attrs _ sp1 call1 _ _ h hgate.2)
          · simp only [Option.some.injEq] at h
            subst h
            exact Or.inl (by simp [emit, sdp_answers_append, hes])
  · intro is_local h
    unfold call_accept_cb at h
    rw [hslot] at h
    simp only at h
    split at h
    · split at h
      · exact Or.inl (handle_incompatible_no_answer sp sp1 call h)
      · rename_i hgate
        simp only [Bool.not_eq_true', Bool.not_eq_false] at hgate
        exact Or.inr (send_response_keeps_attrs sp sp1 call _ _ h hgate)
    · simp only [Option.some.injEq] at h
      subst h
      exact Or.inl rfl
  · intro msg h
    unfold sipe_media_incoming_invite at h
    rw [hslot] at h
    simp only at h
    split at h
    · cases h
    · split at h
      · split at h
        · cases h
        · rename_i ok call2 hs
          split at h
          · exact Or.inl (handle_incompatible_no_answer sp sp1 call2 h)
          · rename_i hgate
            simp only [Bool.not_eq_true', Bool.not_eq_false] at hgate
            split at h
            · cases h
            · rename_i ok3 call3 es hp
              obtain ⟨hes, hattrs⟩ := parse_remote_codecs_no_answer _ _ _ _ hp
              have hgate3 : encryption_levels_compatible call3 = true := by
                unfold encryption_levels_compatible at hgate ⊢
                rw [hattrs]; exact hgate
              split at h
              · simp only [Option.some.injEq] at h
                subst h
                exact Or.inl (by simp [emit, sdp_answers_append, hes])
              · split at h
                · simp only [Option.some.injEq] at h
                  subst h
                  exact Or.inl (by simp [emit, sdp_answers_append, hes, sdp_answers])
                · split at h
                  · simp only [Option.some.injEq] at h
                    subst h
                    exact Or.inl (by simp [emit, sdp_answers_append, hes, sdp_answers])
                  · split at h
                    · simp only [Option.some.injEq] at h
                      subst h
                      exact Or.inl (by simp [emit, sdp_answers_append, hes, sdp_answers])
                    · exact Or.inr (send_response_keeps_attrs _ sp1 call3 _ _ h hgate3)
      · simp only [Option.some.injEq] at h
        subst h
        exact Or.inl (by simp [emit, sdp_answers_append, sdp_answers])

/-- The port the legacy loop stores: the port of the first candidate of type
host and component RTP, or the previous value. -/
theorem legacy_local_port_eq_find (cands : List sipe_backend_candidate) (local_port : Nat) :
    legacy_local_port cands local_port
      = ((cands.find? is_host_rtp).map (fun c => c.port % 2 ^ 16)).getD local_port := by
  induction cands with
  | nil => rfl
  | cons c cs ih =>
    rw [legacy_local_port, List.find?_cons]
    by_cases h : c.type = SipeCandidateType.SIPE_CANDIDATE_TYPE_HOST
        ∧ c.component = SipeComponentType.SIPE_COMPONENT_RTP
    · have hb : is_host_rtp c = true := decide_eq_true h
      rw [if_pos h, hb]
      rfl
    · have hb : is_host_rtp c = false := decide_eq_false h
      rw [if_neg h, hb, ih]

/-- C24: in legacy mode `sipe_media_sdp_candidates_format` returns the empty
string, whatever the local candidates are, and the local port becomes the port
(as stored in the `guint16`) of the first local candidate of type host and
component RTP; without such a candidate it keeps its value. -/
theorem legacy_candidates_format_empty (backend_media : sipe_backend_media) (local_port : Nat) :
    sipe_media_sdp_candidates_format backend_media true local_port
        = some ([], (((l_candidates_of backend_media).find? is_host_rtp).map
                      (fun c => c.port % 2 ^ 16)).getD local_port)
      ∧ (∀ c, (l_candidates_of backend_media).find? is_host_rtp = some c → c.port < 2 ^ 16 →
          sipe_media_sdp_candidates_format backend_media true local_port = some ([], c.port))
      ∧ ((l_candidates_of backend_media).find? is_host_rtp = none →
          sipe_media_sdp_candidates_format backend_media true local_port
            = some ([], local_port)) := by
  have h : sipe_media_sdp_candidates_format backend_media true local_port
      = some ([], (((l_candidates_of backend_media).find? is_host_rtp).map
                    (fun c => c.port % 2 ^ 16)).getD local_port) := by
    unfold sipe_media_sdp_candidates_format
    simp only [if_true, legacy_local_port_eq_find]
  refine ⟨h, ?_, ?_⟩
  · intro c hc hlt
    rw [h, hc]
    simp only [Option.map_some', Option.getD_some, Nat.mod_eq_of_lt hlt]
  · intro hnone
    rw [h, hnone]
    rfl

/-- The last host/RTP candidate of a list is one of its host/RTP candidates. -/
theorem last_host_rtp_mem (cands : List sipe_backend_candidate) (d : sipe_backend_candidate)
    (h : last_host_rtp cands = some d) : d ∈ cands ∧ is_host_rtp d = true := by
  induction cands with
  | nil => cases h
  | cons c cs ih =>
    rw [last_host_rtp] at h
    cases hl : last_host_rtp cs with
    | some e =>
      rw [hl] at h
      simp only [Option.some.injEq] at h
      subst h
      exact ⟨List.mem_cons_of_mem _ (ih hl).1, (ih hl).2⟩
    | none =>
      rw [hl] at h
      simp only at h
      split at h
      · simp only [Option.some.injEq] at h
        subst h
        exact ⟨List.mem_cons_self _ _, by assumption⟩
      · cases h

/-- A list with a host/RTP candidate has a last one. -/
theorem last_host_rtp_of_mem (cands : List sipe_backend_candidate) (c : sipe_backend_candidate)
    (hc : c ∈ cands) (hb : is_host_rtp c = true) : ∃ d, last_host_rtp cands = some d := by
  induction cands with
  | nil => cases hc
  | cons a cs ih =>
    rw [last_host_rtp]
    cases hl : last_host_rtp cs with
    | some e => exact ⟨e, rfl⟩
    | none =>
      rcases List.mem_cons.1 hc with e | e
      · subst e
        simp only [hb, if_true]
        exact ⟨c, rfl⟩
      · obtain ⟨d, hd⟩ := ih e
        rw [hl] at hd; cases hd

/-- The local port after the candidate loop of the non-legacy branch: the port
of the last candidate of type host and component RTP, or the previous value. -/
theorem candidates_loop_local_port (cands : List sipe_backend_candidate) :
    ∀ st : cand_fmt_state, (candidates_loop cands st).local_port
      = ((last_host_rtp cands).map (fun c => c.port % 2 ^ 16)).getD st.local_port := by
  induction cands with
  | nil => intro st; rfl
  | cons c cs ih =>
    intro st
    rw [candidates_loop, ih, last_host_rtp]
    cases hl : last_host_rtp cs with
    | some d => rfl
    | none =>
      simp only [Option.map_none', Option.getD_none]
      by_cases h1 : c.type = SipeCandidateType.SIPE_CANDIDATE_TYPE_HOST
      · by_cases h2 : c.component = SipeComponentType.SIPE_COMPONENT_RTP
        · have hb : is_host_rtp c = true := decide_eq_true ⟨h1, h2⟩
          simp [h1, h2, hb]
        · have hb : is_host_rtp c = false := decide_eq_false (fun h => h2 h.2)
          by_cases h3 : c.component = SipeComponentType.SIPE_COMPONENT_RTCP
          · simp [h1, h3, hb]
          · simp [h1, h2, h3, hb]
      · have hb : is_host_rtp c = false := decide_eq_false (fun h => h1 h.1)
        simp [h1, hb]

/-- The local port the non-legacy branch of `sipe_media_sdp_candidates_format`
returns. -/
theorem candidates_format_local_port (backend_media : sipe_backend_media) (local_port : Nat)
    (block : Str) (port : Nat)
    (h : sipe_media_sdp_candidates_format backend_media false local_port = some (block, port)) :
    port = ((last_host_rtp (l_candidates_of backend_media)).map
              (fun c => c.port % 2 ^ 16)).getD local_port := by
  unfold sipe_media_sdp_candidates_format at h
  simp only [Bool.false_eq_true, if_false] at h
  split at h
  · cases h
  · rename_i first rest hl
    simp only [Option.some.injEq, Prod.mk.injEq] at h
    rw [← h.2, candidates_loop_local_port, hl]

/-- C30 (counterexample): with two local host candidates for RTP, on ports 6000
and 7000, the local port is 6000 in legacy mode and 7000 otherwise. -/
theorem local_port_depends_on_legacy_mode :
    (sample_two_host_backend.local_candidates.map (fun c => (is_host_rtp c, c.port))
        = [(true, 6000), (true, 7000)])
      ∧ (sipe_media_sdp_candidates_format sample_two_host_backend true 0).map Prod.snd
        = some 6000
      ∧ (sipe_media_sdp_candidates_format sample_two_host_backend false 0).map Prod.snd
        = some 7000 := by
  refine ⟨rfl, rfl, rfl⟩

/-- C30 (amended): for a local candidate list with at least one candidate of
type host and component RTP, `sipe_media_sdp_candidates_format` sets the local
port to the port of the first such candidate in legacy mode and to the port of
the last such candidate otherwise; the two values are the same when all these
candidates have the same port, in particular when there is only one. -/
theorem local_port_first_or_last (backend_media : sipe_backend_media) (local_port : Nat)
    (c : sipe_backend_candidate) (hc : c ∈ l_candidates_of backend_media)
    (hb : is_host_rtp c = true) :
    ∃ first last block,
      (l_candidates_of backend_media).find? is_host_rtp = some first
        ∧ last_host_rtp (l_candidates_of backend_media) = some last
        ∧ sipe_media_sdp_candidates_format backend_media true local_port
            = some ([], first.port % 2 ^ 16)
        ∧ sipe_media_sdp_candidates_format backend_media false local_port
            = some (block, last.port % 2 ^ 16)
        ∧ ((∀ d ∈ l_candidates_of backend_media, is_host_rtp d = true → d.port = c.port) →
            first.port % 2 ^ 16 = last.port % 2 ^ 16) := by
  obtain ⟨last, hlast⟩ := last_host_rtp_of_mem _ c hc hb
  cases hfirst : (l_candidates_of backend_media).find? is_host_rtp with
  | none =>
    have := List.find?_eq_none.1 hfirst c hc
    exact absurd hb this
  | some first =>
    have hne : l_candidates_of backend_media ≠ [] := List.ne_nil_of_mem hc
    have hdef : ∃ r, sipe_media_sdp_candidates_format backend_media false local_port = some r := by
      unfold sipe_media_sdp_candidates_format
      simp only [Bool.false_eq_true, if_false]
      cases hl : l_candidates_of backend_media with
      | nil => exact absurd hl hne
      | cons a as => exact ⟨_, rfl⟩
    obtain ⟨⟨block, port⟩, hr⟩ := hdef
    have hport := candidates_format_local_port backend_media local_port block port hr
    rw [hlast] at hport
    simp only [Option.map_some', Option.getD_some] at hport
    refine ⟨first, last, block, rfl, hlast, ?_, ?_, ?_⟩
    · unfold sipe_media_sdp_candidates_format
      simp only [if_true, legacy_local_port_eq_find, hfirst, Option.map_some',
        Option.getD_some]
    · rw [hr, hport]
    · intro hsame
      have h1 := hsame first (List.mem_of_find?_eq_some hfirst)
        (List.find?_some hfirst)
      have h2 := hsame last (last_host_rtp_mem _ _ hlast).1 (last_host_rtp_mem _ _ hlast).2
      rw [h1, h2]

/-- C30 (amended) on the sample backend, whose only local candidate is a host
candidate for RTP on port 6000: legacy or not, the local port is 6000. -/
theorem local_port_first_or_last_witness :
    (sipe_media_sdp_candidates_format sample_backend true 0).map Prod.snd = some 6000
      ∧ (sipe_media_sdp_candidates_format sample_backend false 0).map Prod.snd = some 6000 := by
  obtain ⟨first, last, block, h1, h2, h3, h4, _⟩ :=
    local_port_first_or_last sample_backend 0 sample_local_candidate
      (List.mem_cons_self _ _) rfl
  have e1 : first = sample_local_candidate := by
    have : (l_candidates_of sample_backend).find? is_host_rtp = some sample_local_candidate := rfl
    rw [this] at h1
    exact (Option.some.inj h1).symm
  have e2 : last = sample_local_candidate := by
    have : last_host_rtp (l_candidates_of sample_backend) = some sample_local_candidate := rfl
    rw [this] at h2
    exact (Option.some.inj h2).symm
  subst e1
  rw [h3, h4, e2]
  exact ⟨rfl, rfl⟩

/-- The text of the candidate loop: one `a=candidate:` line per candidate, in
list order, after the text already there. -/
theorem candidates_loop_result (cands : List sipe_backend_candidate) :
    ∀ st : cand_fmt_state, (candidates_loop cands st).result
      = st.result ++ (cands.map candidate_line).flatten := by
  induction cands with
  | nil => intro st; simp [candidates_loop]
  | cons c cs ih =>
    intro st
    rw [candidates_loop, ih]
    simp only [List.map_cons, List.flatten_cons, List.append_assoc]
    split
    · split
      · rfl
      · split
        · rfl
        · rfl
    · rfl

/-- The entries of the `a=remote-candidates:` line: per candidate the component
id, the IP and the port, each followed by one space. -/
theorem remote_candidates_entries_eq (cands : List sipe_backend_candidate) :
    remote_candidates_entries cands
      = (cands.map (fun c => fmt_u c.component.toNat ++ " ".toList ++ fmt_s c.ip
          ++ " ".toList ++ fmt_u c.port ++ " ".toList)).flatten := by
  induction cands with
  | nil => rfl
  | cons c cs ih =>
    rw [remote_candidates_entries, ih]
    simp [List.append_assoc]

/-- C23: for a session that is not in legacy mode and has a local candidate,
the block of `sipe_media_sdp_candidates_format` is the `a=ice-ufrag` and
`a=ice-pwd` lines (credentials of the first local candidate), one `a=candidate`
line per local candidate in list order, an `a=remote-candidates` line exactly
when the backend reports an active remote candidate, and the optional RTCP
lines. The entries of the `a=remote-candidates` line are, for the active remote
candidates ordered by component id ascending, the component id, the IP and the
port, each followed by a space. A candidate line is
`a=candidate:<foundation> <component id> <protocol> <priority> <ip> <port> typ <type> <related>`
with the protocol texts `TCP` and `UDP`, the type texts `host`, `relay`, `srflx`
and `prflx`, and the related-address clause `raddr <base ip> rport <base port>`
for a server-reflexive candidate, empty for every other type. -/
theorem candidates_format_block (backend_media : sipe_backend_media) (local_port : Nat)
    (first : sipe_backend_candidate) (rest : List sipe_backend_candidate)
    (hl : l_candidates_of backend_media = first :: rest) :
    ∃ (sorted : List sipe_backend_candidate) (tail : Str) (port : Nat),
      sipe_media_sdp_candidates_format backend_media false local_port
          = some ("a=ice-ufrag:".toList ++ fmt_s first.username ++ "\r\n".toList
                    ++ "a=ice-pwd:".toList ++ fmt_s first.password ++ "\r\n".toList
                    ++ ((first :: rest).map candidate_line).flatten
                    ++ (if backend_media.active_remote_candidates = [] then []
                        else "a=remote-candidates:".toList
                          ++ (sorted.map (fun c => fmt_u c.component.toNat ++ " ".toList
                                ++ fmt_s c.ip ++ " ".toList ++ fmt_u c.port
                                ++ " ".toList)).flatten
                          ++ "\r\n".toList)
                    ++ tail, port)
        ∧ sorted.Perm backend_media.active_remote_candidates
        ∧ sorted.Sorted (fun a b => a.component.toNat ≤ b.component.toNat)
        ∧ (tail = [] ∨ ∃ rtcp_port, tail
            = "a=maxptime:200\r\na=rtcp:".toList ++ fmt_u rtcp_port ++ "\r\n".toList)
        ∧ (∀ c : sipe_backend_candidate,
            candidate_line c
                = "a=candidate:".toList ++ fmt_s c.foundation ++ " ".toList
                  ++ fmt_u c.component.toNat ++ " ".toList ++ protocol_text c.protocol
                  ++ " ".toList ++ fmt_u c.priority ++ " ".toList ++ fmt_s c.ip ++ " ".toList
                  ++ fmt_u (c.port % 2 ^ 16) ++ " typ ".toList ++ type_text c.type
                  ++ " ".toList ++ related_text c ++ "\r\n".toList
              ∧ related_text c
                = (if c.type = SipeCandidateType.SIPE_CANDIDATE_TYPE_SRFLX then
                     "raddr ".toList ++ fmt_s c.base_ip ++ " rport ".toList
                       ++ fmt_u c.base_port
                   else []))
        ∧ (protocol_text SipeNetworkProtocol.SIPE_NETWORK_PROTOCOL_TCP = "TCP".toList
            ∧ protocol_text SipeNetworkProtocol.SIPE_NETWORK_PROTOCOL_UDP = "UDP".toList)
        ∧ (type_text SipeCandidateType.SIPE_CANDIDATE_TYPE_HOST = "host".toList
            ∧ type_text SipeCandidateType.SIPE_CANDIDATE_TYPE_RELAY = "relay".toList
            ∧ type_text SipeCandidateType.SIPE_CANDIDATE_TYPE_SRFLX = "srflx".toList
            ∧ type_text SipeCandidateType.SIPE_CANDIDATE_TYPE_PRFLX = "prflx".toList) := by
  haveI : IsTotal sipe_backend_candidate candidate_compare_by_component_id :=
    ⟨fun a b => Nat.le_total _ _⟩
  haveI : IsTrans sipe_backend_candidate candidate_compare_by_component_id :=
    ⟨fun _ _ _ h1 h2 => Nat.le_trans h1 h2⟩
  have hperm := List.perm_insertionSort candidate_compare_by_component_id
    backend_media.active_remote_candidates
  have hsorted := List.sorted_insertionSort candidate_compare_by_component_id
    backend_media.active_remote_candidates
  obtain ⟨st, hst⟩ : ∃ st, st = candidates_loop (first :: rest)
      { result := "a=ice-ufrag:".toList ++ fmt_s first.username ++ "\r\na=ice-pwd:".toList
          ++ fmt_s first.password ++ "\r\n".toList,
        local_port := local_port, rtcp_port := 0 } := ⟨_, rfl⟩
  have hres : st.result = "a=ice-ufrag:".toList ++ fmt_s first.username
      ++ "\r\na=ice-pwd:".toList ++ fmt_s first.password ++ "\r\n".toList
      ++ ((first :: rest).map candidate_line).flatten := by
    rw [hst, candidates_loop_result]
  refine ⟨List.insertionSort candidate_compare_by_component_id
      backend_media.active_remote_candidates,
    (if st.rtcp_port ≠ 0 then
       "a=maxptime:200\r\na=rtcp:".toList ++ fmt_u st.rtcp_port ++ "\r\n".toList
     else []), st.local_port, ?_, hperm, hsorted, ?_, ?_, ⟨rfl, rfl⟩, ⟨rfl, rfl, rfl, rfl⟩⟩
  · rw [← remote_candidates_entries_eq]
    unfold sipe_media_sdp_candidates_format
    simp only [Bool.false_eq_true, if_false, hl]
    rw [← hst, hres]
    congr 1
    congr 1
    cases ha : backend_media.active_remote_candidates with
    | nil =>
      simp only [List.insertionSort, if_true]
      split <;> simp [List.append_assoc]
    | cons a as =>
      have hne : List.insertionSort candidate_compare_by_component_id (a :: as) ≠ [] := by
        intro he
        have := hperm.length_eq
        rw [ha, he] at this
        cases this
      cases hs : List.insertionSort candidate_compare_by_component_id (a :: as) with
      | nil => exact absurd hs hne
      | cons s ss =>
        simp only [reduceCtorEq, if_false]
        split <;> simp [List.append_assoc]
  · split
    · exact Or.inr ⟨_, rfl⟩
    · exact Or.inl rfl
  · intro c
    refine ⟨rfl, ?_⟩
    unfold related_text
    cases c.type <;> rfl

/-- C23 on `sample_srflx_backend`: two local candidates, one of them
server-reflexive, and two active remote candidates that the sort reorders. The
block is the text given, with the local port 6000 of the host candidate for
RTP. -/
theorem candidates_format_block_witness :
    (∃ (sorted : List sipe_backend_candidate) (tail : Str) (port : Nat),
        sipe_media_sdp_candidates_format sample_srflx_backend false 0
            = some ("a=ice-ufrag:".toList ++ fmt_s sample_local_candidate.username
                      ++ "\r\n".toList ++ "a=ice-pwd:".toList
                      ++ fmt_s sample_local_candidate.password ++ "\r\n".toList
                      ++ (sample_srflx_backend.local_candidates.map candidate_line).flatten
                      ++ (if sample_srflx_backend.active_remote_candidates = [] then []
                          else "a=remote-candidates:".toList
                            ++ (sorted.map (fun c => fmt_u c.component.toNat ++ " ".toList
                                  ++ fmt_s c.ip ++ " ".toList ++ fmt_u c.port
                                  ++ " ".toList)).flatten
                            ++ "\r\n".toList)
                      ++ tail, port)
          ∧ sorted.Perm sample_srflx_backend.active_remote_candidates
          ∧ sorted.Sorted (fun a b => a.component.toNat ≤ b.component.toNat))
      ∧ sipe_media_sdp_candidates_format sample_srflx_backend false 0
        = some (("a=ice-ufrag:user\r\na=ice-pwd:pass\r\n"
            ++ "a=candidate:1 1 UDP 100 192.168.1.2 6000 typ host \r\n"
            ++ "a=candidate:2 1 UDP 100 203.0.113.9 7000 typ srflx raddr 192.168.1.2 rport 6000\r\n"
            ++ "a=remote-candidates:1 10.0.0.5 5000 2 10.0.0.5 5001 \r\n").toList, 6000) := by
  obtain ⟨sorted, tail, port, h1, h2, h3, _⟩ :=
    candidates_format_block sample_srflx_backend 0 sample_local_candidate
      (sample_srflx_backend.local_candidates.drop 1) rfl
  exact ⟨⟨sorted, tail, port, h1, h2, h3⟩, rfl⟩

/-- The `switch` of the parser on the component id follows the table of the
specification. -/
theorem component_for_id_eq (id : Int) : component_of_id id = component_for_id id := by
  unfold component_of_id component_for_id
  by_cases h1 : id = 1
  · subst h1; rfl
  · by_cases h2 : id = 2
    · subst h2; rfl
    · have b1 : (id == 1) = false := beq_eq_false_iff_ne.2 h1
      have b2 : (id == 2) = false := beq_eq_false_iff_ne.2 h2
      simp only [List.lookup, b1, b2, if_neg h1, if_neg h2]
      rfl

/-- The `if / else if` chain of the parser on the type token follows the table of
the specification. -/
theorem type_for_token_eq (t : Str) : candidate_type_of (some t) = type_for_token t := by
  unfold candidate_type_of type_for_token sipe_strequal
  by_cases h1 : t = "host".toList
  · subst h1; rfl
  · by_cases h2 : t = "relay".toList
    · subst h2; rfl
    · by_cases h3 : t = "srflx".toList
      · subst h3; rfl
      · by_cases h4 : t = "prflx".toList
        · subst h4; rfl
        · have b1 : (t == "host".toList) = false := beq_eq_false_iff_ne.2 h1
          have b2 : (t == "relay".toList) = false := beq_eq_false_iff_ne.2 h2
          have b3 : (t == "srflx".toList) = false := beq_eq_false_iff_ne.2 h3
          have b4 : (t == "prflx".toList) = false := beq_eq_false_iff_ne.2 h4
          have d1 : decide (some t = some "host".toList) = false :=
            decide_eq_false (fun e => h1 (Option.some.inj e))
          have d2 : decide (some t = some "relay".toList) = false :=
            decide_eq_false (fun e => h2 (Option.some.inj e))
          have d3 : decide (some t = some "srflx".toList) = false :=
            decide_eq_false (fun e => h3 (Option.some.inj e))
          have d4 : decide (some t = some "prflx".toList) = false :=
            decide_eq_false (fun e => h4 (Option.some.inj e))
          simp only [List.lookup, b1, b2, b3, b4, d1, d2, d3, d4, Bool.false_eq_true, if_false]

/-- The first value of a name among the attributes is what the "find first"
lookup returns. -/
theorem nameval_find_eq_head (sdp_attrs : List sipnameval) (name : Str) :
    sipe_utils_nameval_find sdp_attrs name = (nameval_instances sdp_attrs name).head? := by
  unfold sipe_utils_nameval_find nameval_instances
  induction sdp_attrs with
  | nil => rfl
  | cons e l ih =>
    rw [sipe_utils_nameval_find_instance, List.filter_cons]
    by_cases h : e.name = name
    · simp [h]
    · simp [h, ih]

/-- A candidate attribute with at least eight fields is parsed into the
candidate its fields stand for, or dropped. -/
theorem parse_candidate_eq_fields (attr : Str)
    (h : 8 ≤ (g_strsplit_set attr [' '] 0).length) :
    parse_candidate attr = some (candidate_of_fields (g_strsplit_set attr [' '] 0)) := by
  obtain ⟨F, C, T, P, IP, PORT, x, TY, rest, hs⟩ :
      ∃ F C T P IP PORT x TY rest,
        g_strsplit_set attr [' '] 0 = F :: C :: T :: P :: IP :: PORT :: x :: TY :: rest := by
    match hm : g_strsplit_set attr [' '] 0, h with
    | F :: C :: T :: P :: IP :: PORT :: x :: TY :: rest, _ =>
      exact ⟨F, C, T, P, IP, PORT, x, TY, rest, rfl⟩
    | [], h => simp at h
    | [_], h => simp at h
    | [_, _], h => simp at h
    | [_, _, _], h => simp at h
    | [_, _, _, _], h => simp at h
    | [_, _, _, _, _], h => simp at h
    | [_, _, _, _, _, _], h => simp at h
    | [_, _, _, _, _, _, _], h => simp at h
  rw [hs]
  have hspec : candidate_of_fields (F :: C :: T :: P :: IP :: PORT :: x :: TY :: rest)
      = if T = "UDP".toList then
          (candidate_type_of (some TY)).map (fun typ =>
            { foundation := some F, component := component_of_id (atoi_str C),
              type := typ, protocol := SipeNetworkProtocol.SIPE_NETWORK_PROTOCOL_UDP,
              ip := some IP, port := (atoi_str PORT % 2 ^ 16).toNat,
              priority := (atoi_str P % 2 ^ 32).toNat, username := none, password := none,
              base_ip := none, base_port := 0 })
        else none := by
    simp only [candidate_of_fields, type_for_token_eq, component_for_id_eq]
  rw [hspec]
  by_cases hT : T = "UDP".toList
  · subst hT
    cases hty : candidate_type_of (some TY) with
    | some typ => rw [parse_candidate_of_tokens _ _ _ _ _ _ _ _ _ typ hs hty]
                  simp
    | none =>
      unfold parse_candidate
      simp only [hs, strv_get, List.length_cons, List.get?_cons_succ, List.get?_cons_zero]
      simp [atoi, sipe_strequal, hty]
  · have hT1 : ¬ T = ['U', 'D', 'P'] := hT
    unfold parse_candidate
    simp only [hs, strv_get, List.length_cons, List.get?_cons_succ, List.get?_cons_zero]
    simp [atoi, sipe_strequal, hT1]

/-- The candidate loop over attributes with at least eight fields each. -/
theorem parse_candidates_eq_fields (values : List Str)
    (h : ∀ a ∈ values, 8 ≤ (g_strsplit_set a [' '] 0).length) :
    parse_candidates values
      = some (values.filterMap (fun a => candidate_of_fields (g_strsplit_set a [' '] 0))) := by
  induction values with
  | nil => rfl
  | cons a rest ih =>
    have ha := parse_candidate_eq_fields a (h a (List.mem_cons_self _ _))
    have hrest := ih (fun b hb => h b (List.mem_cons_of_mem _ hb))
    rw [parse_candidates, ha, hrest]
    cases hc : candidate_of_fields (g_strsplit_set a [' '] 0) with
    | none => simp [List.filterMap_cons, hc]
    | some c => simp [List.filterMap_cons, hc]

/-- C21: when every `candidate` attribute has at least eight space-separated
fields, `sipe_media_parse_remote_candidates` returns, in attribute order, the
candidate of each attribute whose transport is `UDP` and whose eighth field is
one of `host`, `relay`, `srflx`, `prflx`, and nothing for any other attribute
(`candidate_of_fields`, written from the specification's tables); the candidate
has the foundation and the IP of the attribute, its priority and port numbers as
`atoi` reads them into a `guint32` and a `guint16`, the component RTP when the
component id `atoi` reads is 1, RTCP when it is 2 and none otherwise, and the
`ice-ufrag` / `ice-pwd` credentials when the attribute set has an `ice-ufrag`. -/
theorem parse_remote_candidates_per_attribute (sdp_attrs : List sipnameval)
    (h : ∀ a ∈ nameval_instances sdp_attrs "candidate".toList,
      8 ≤ (g_strsplit_set a [' '] 0).length) :
    sipe_media_parse_remote_candidates sdp_attrs
      = some (((nameval_instances sdp_attrs "candidate".toList).filterMap
                (fun a => candidate_of_fields (g_strsplit_set a [' '] 0))).map
              (stamp_credentials sdp_attrs)) := by
  unfold sipe_media_parse_remote_candidates
  simp only [parse_candidates_eq_fields _ h]
  cases hu : sipe_utils_nameval_find sdp_attrs "ice-ufrag".toList with
  | none =>
    simp only [Option.some.injEq]
    have : stamp_credentials sdp_attrs = id := by
      funext c
      unfold stamp_credentials
      rw [← nameval_find_eq_head, hu]
      rfl
    rw [this, List.map_id]
  | some u =>
    simp only [Option.some.injEq]
    apply List.map_congr_left
    intro c _
    unfold stamp_credentials
    rw [← nameval_find_eq_head, ← nameval_find_eq_head, hu]
    rfl

/-- C21 on `sample_mixed_candidate_attrs`: the TCP attribute and the one of
unknown type are left out; the five other attributes give, in order, a host
candidate for RTP, a relay candidate for RTCP, a server-reflexive candidate
without component (id 3) on port 70000 - 65536, a peer-reflexive candidate for
RTP (the id 4294967297 is read as the `int` 1) with priority 2^32 - 1, and a
host candidate without component (id 0); all carry the credentials. -/
theorem parse_remote_candidates_per_attribute_witness :
    (sipe_media_parse_remote_candidates sample_mixed_candidate_attrs).map
        (fun l => l.map (fun c => (c.foundation, c.component, c.priority, c.ip, c.port,
          c.type, c.username, c.password)))
      = some [(some "1".toList, SipeComponentType.SIPE_COMPONENT_RTP, 100,
                some "10.0.0.5".toList, 5000, SipeCandidateType.SIPE_CANDIDATE_TYPE_HOST,
                some "u".toList, some "p".toList),
              (some "4".toList, SipeComponentType.SIPE_COMPONENT_RTCP, 7,
                some "10.0.0.6".toList, 5001, SipeCandidateType.SIPE_CANDIDATE_TYPE_RELAY,
                some "u".toList, some "p".toList),
              (some "5".toList, SipeComponentType.SIPE_COMPONENT_NONE, 1,
                some "10.0.0.7".toList, 4464, SipeCandidateType.SIPE_CANDIDATE_TYPE_SRFLX,
                some "u".toList, some "p".toList),
              (some "6".toList, SipeComponentType.SIPE_COMPONENT_RTP, 4294967295,
                some "10.0.0.8".toList, 1, SipeCandidateType.SIPE_CANDIDATE_TYPE_PRFLX,
                some "u".toList, some "p".toList),
              (some "7".toList, SipeComponentType.SIPE_COMPONENT_NONE, 2,
                some "10.0.0.9".toList, 2, SipeCandidateType.SIPE_CANDIDATE_TYPE_HOST,
                some "u".toList, some "p".toList)] := by
  rw [parse_remote_candidates_per_attribute sample_mixed_candidate_attrs (by decide)]
  rfl

/-- C25 (counterexample): a re-INVITE with the Call-ID of the active call, whose
body passes the encryption gate and the codec pruning, handled while the session
is in legacy mode and not on remote hold, makes `sipe_media_incoming_invite`
issue the backend hold signal, and no answer is sent. -/
theorem legacy_reinvite_issues_hold :
    (sample_legacy_call.legacy_mode = true ∧ sample_legacy_call.remote_on_hold = false)
      ∧ (sipe_media_incoming_invite (sample_endpoint (some sample_legacy_call))
          sample_invite).map (fun sp => (hold_signals sp.trace, sdp_answers sp.trace))
        = some ([false], []) := by
  refine ⟨⟨rfl, rfl⟩, ?_⟩
  rfl

/-- C25 (amended): for a re-INVITE with the Call-ID of the active call that
passes the encryption gate and the codec pruning and leaves the session in
legacy mode with `remote_on_hold = FALSE`, `sipe_media_incoming_invite` issues
the backend hold signal `sipe_backend_media_hold (backend, FALSE)` right after
the codecs are set, and sends no answer itself. -/
theorem legacy_reinvite_holds (sp : sipe_core_private)
    (call call2 call3 : sipe_media_call_private) (dialog : sip_dialog) (msg : sipmsg)
    (ok : Bool) (es : List effect)
    (hslot : sp.media_call = some call) (hdialog : call.dialog = some dialog)
    (hid : dialog.callid = sipmsg_find_header msg "Call-ID".toList)
    (hparse : sipe_media_parse_sdp_attributes_and_candidates
      { call with invitation := some msg, sdp_attrs := [] } msg.body = some (ok, call2))
    (hgate : encryption_levels_compatible call2 = true)
    (hprune : sipe_media_parse_remote_codecs call2 = some (true, call3, es))
    (hlegacy : call3.legacy_mode = true) (hhold : call3.remote_on_hold = false) :
    sipe_media_incoming_invite sp msg
        = some (emit { (emit sp es) with media_call := some call3 }
            [effect.sipe_backend_media_hold false])
      ∧ hold_signals [effect.sipe_backend_media_hold false] = [false]
      ∧ sdp_answers (es ++ [effect.sipe_backend_media_hold false]) = [] := by
  refine ⟨?_, rfl, ?_⟩
  · unfold sipe_media_incoming_invite
    have heq : sipe_strequal dialog.callid (sipmsg_find_header msg "Call-ID".toList) = true := by
      unfold sipe_strequal
      exact decide_eq_true hid
    rw [hdialog] at hparse
    simp only [hslot, hdialog, heq, if_true, hparse, hgate, Bool.not_true, Bool.false_eq_true,
      if_false, hprune, hlegacy, hhold, Bool.not_false, Bool.and_self]
  · rw [sdp_answers_append, (parse_remote_codecs_no_answer _ _ _ _ hprune).1]
    rfl

/-- C25 (amended) on the legacy sample session and the re-INVITE
`sample_invite`. -/
theorem legacy_reinvite_holds_witness :
    (sipe_media_incoming_invite (sample_endpoint (some sample_legacy_call)) sample_invite).map
        (fun sp => sp.trace)
      = some [effect.sipe_backend_set_remote_codecs none [sample_pcmu],
              effect.sipe_backend_media_hold false] := by
  rw [(legacy_reinvite_holds (sample_endpoint (some sample_legacy_call)) sample_legacy_call
    { sample_legacy_call with
      invitation := some sample_invite, sdp_attrs := sample_legacy_scan.sdp_attrs,
      remote_ip := sample_legacy_scan.remote_ip, remote_port := sample_legacy_scan.remote_port,
      remote_candidates := sipe_media_parse_remote_candidates_legacy
        sample_legacy_scan.remote_ip sample_legacy_scan.remote_port }
    { sample_legacy_call with
      invitation := some sample_invite, sdp_attrs := sample_legacy_scan.sdp_attrs,
      remote_ip := sample_legacy_scan.remote_ip, remote_port := sample_legacy_scan.remote_port,
      remote_candidates := sipe_media_parse_remote_candidates_legacy
        sample_legacy_scan.remote_ip sample_legacy_scan.remote_port,
      remote_codecs := [sample_pcmu] }
    sample_dialog sample_invite true
    [effect.sipe_backend_set_remote_codecs none [sample_pcmu]]
    rfl rfl rfl rfl rfl rfl rfl rfl).1]
  rfl

/-- C27: the parsers index the split of a line without looking at its length.
For the body `m=` (an `m=` line with no field) `parts[1]` lies behind the
terminator of the empty vector; for the line `o=- 0 0`, with three fields,
`parts[5]` lies behind the terminator; for the candidate attribute
`1 1 UDP 100`, with four fields, `tokens[5]` does; and for the rtpmap attribute
`0`, without name and clock rate, `tokens[2]` does. In each case the function
reads out of range (`none`). -/
theorem short_lines_read_out_of_range :
    (strv_get (g_strsplit [] " ".toList 3) 1 = none
        ∧ sipe_media_parse_sdp_attributes_and_candidates sample_call (some "m=\r\n".toList)
          = none)
      ∧ (strv_get (g_strsplit "- 0 0".toList " ".toList 6) 5 = none
        ∧ sipe_media_parse_sdp_attributes_and_candidates sample_call
            (some "o=- 0 0\r\n".toList) = none)
      ∧ (strv_get (g_strsplit_set "1 1 UDP 100".toList [' '] 0) 5 = none
        ∧ sipe_media_parse_remote_candidates [⟨"candidate".toList, "1 1 UDP 100".toList⟩]
          = none)
      ∧ (strv_get (g_strsplit_set "0".toList [' ', '/'] 3) 2 = none
        ∧ sipe_media_parse_codecs [⟨"rtpmap".toList, "0".toList⟩] = none) := by
  refine ⟨⟨?_, ?_⟩, ⟨?_, ?_⟩, ⟨?_, ?_⟩, ⟨?_, ?_⟩⟩ <;> rfl

/-- The scanning loop of `g_strsplit_set` always gives at least one token. -/
theorem split_set_go_ne_nil (delims : List Char) (unl : Bool) (m : Nat) :
    ∀ (s : Str) (n : Nat), g_strsplit_set_go delims unl m s n ≠ [] := by
  intro s
  induction s with
  | nil => intro n; simp [g_strsplit_set_go]
  | cons c t ih =>
    intro n
    rw [g_strsplit_set_go]
    split
    · simp
    · cases h : g_strsplit_set_go delims unl m t n with
      | nil => exact absurd h (ih n)
      | cons a as => simp [consHead]

/-- A non-empty string splits into at least one token. -/
theorem split_set_ne_nil (s : Str) (delims : List Char) (m : Nat) (hs : s ≠ []) :
    g_strsplit_set s delims m ≠ [] := by
  cases s with
  | nil => exact absurd rfl hs
  | cons c t => exact split_set_go_ne_nil _ _ _ _ _

/-- On a token shorter than 50 characters the `sscanf` of
`sipe_media_parse_codecs` stays inside its buffers and stores the pair of the
token, if it is a `name=value` token. -/
theorem sscanf_name_value_short (tok : Str) (h : tok.length < 50) :
    sscanf_name_value tok = some ((token_pair tok).map (fun p => (p.name, p.value))) := by
  have hn : (tok.takeWhile isalnum).length ≤ tok.length :=
    (List.takeWhile_sublist isalnum).length_le
  have hn1 : ¬ 50 ≤ (tok.takeWhile isalnum).length := by omega
  unfold sscanf_name_value token_pair
  by_cases he : tok.takeWhile isalnum = []
  · simp only [he, if_true, true_or]
    split <;> rfl
  · simp only [he, if_false, hn1, false_or]
    cases hr : tok.dropWhile isalnum with
    | nil => rfl
    | cons c r =>
      by_cases hc : c = '='
      · subst hc
        have hr1 : r.length < tok.length := by
          have := (List.dropWhile_sublist isalnum (l := tok)).length_le
          rw [hr] at this
          simp only [List.length_cons] at this
          omega
        have hv : ((r.dropWhile isspace).takeWhile (fun c => !isspace c)).length ≤ r.length :=
          le_trans (List.takeWhile_sublist _).length_le (List.dropWhile_sublist _).length_le
        have hv1 : ¬ 50 ≤ ((r.dropWhile isspace).takeWhile (fun c => !isspace c)).length := by
          omega
        simp only
        by_cases hve : (r.dropWhile isspace).takeWhile (fun c => !isspace c) = []
        · simp only [hve, if_true]
          rfl
        · simp only [hve, if_false, hv1]
          rfl
      · split
        · rename_i heq
          simp only [List.cons.injEq] at heq
          exact absurd heq.1 hc
        · rfl

/-- The token loop, over tokens on which the `sscanf` stays inside its buffers,
adds the pairs of the `name=value` tokens, in order. -/
theorem parse_fmtp_tokens_short (toks : List Str)
    (h : ∀ tok ∈ toks,
      sscanf_name_value tok = some ((token_pair tok).map (fun p => (p.name, p.value)))) :
    ∀ codec : sipe_backend_codec, parse_fmtp_tokens toks codec
      = some { codec with
          optional_parameters := codec.optional_parameters ++ toks.filterMap token_pair } := by
  induction toks with
  | nil => intro codec; simp [parse_fmtp_tokens]
  | cons tok rest ih =>
    intro codec
    have hrest := ih (fun t ht => h t (List.mem_cons_of_mem _ ht))
    rw [parse_fmtp_tokens, h tok (List.mem_cons_self _ _)]
    cases hp : token_pair tok with
    | none =>
      simp only [Option.map_none', List.filterMap_cons, hp]
      exact hrest codec
    | some p =>
      simp only [Option.map_some', List.filterMap_cons, hp]
      rw [hrest]
      simp [sipe_backend_codec_add_optional_parameter, List.append_assoc]

/-- The `fmtp` loop for the payload id `id`, over non-empty attributes on whose
tokens the `sscanf` stays inside its buffers, adds the parameters
`fmtp_params id`. -/
theorem parse_fmtp_attrs_short (id : Int) (fmtps : List Str)
    (h2 : ∀ p ∈ fmtps, p ≠ [])
    (h3 : ∀ p ∈ fmtps, ∀ tok ∈ (g_strsplit_set p [' '] 0).drop 1,
      sscanf_name_value tok = some ((token_pair tok).map (fun p => (p.name, p.value)))) :
    ∀ codec : sipe_backend_codec, parse_fmtp_attrs id fmtps codec
      = some { codec with
          optional_parameters := codec.optional_parameters ++ fmtp_params id fmtps } := by
  induction fmtps with
  | nil => intro codec; simp [parse_fmtp_attrs, fmtp_params]
  | cons p rest ih =>
    intro codec
    have hrest := ih (fun q hq => h2 q (List.mem_cons_of_mem _ hq))
      (fun q hq => h3 q (List.mem_cons_of_mem _ hq))
    have hne := split_set_ne_nil p [' '] 0 (h2 p (List.mem_cons_self _ _))
    rw [parse_fmtp_attrs]
    cases hs : g_strsplit_set p [' '] 0 with
    | nil => exact absurd hs hne
    | cons t0 ts =>
      have hshort : ∀ tok ∈ ts,
          sscanf_name_value tok = some ((token_pair tok).map (fun p => (p.name, p.value))) := by
        intro tok htok
        have := h3 p (List.mem_cons_self _ _) tok
        rw [hs] at this
        exact this htok
      simp only [strv_get, List.length_cons, Nat.zero_lt_succ, if_true, List.get?_cons_zero,
        atoi, Option.map_some', List.drop_succ_cons, List.drop_zero]
      by_cases hid : atoi_str t0 = id
      · rw [if_pos hid, parse_fmtp_tokens_short ts hshort]
        simp only
        rw [hrest]
        simp [fmtp_params, hs, hid, List.append_assoc]
      · rw [if_neg hid, hrest]
        simp [fmtp_params, hs, hid]

/-- An `rtpmap` attribute with three fields is parsed into the codec it stands
for. -/
theorem parse_rtpmap_eq (fmtps : List Str) (attr : Str)
    (h1 : 3 ≤ (g_strsplit_set attr [' ', '/'] 3).length)
    (h2 : ∀ p ∈ fmtps, p ≠ [])
    (h3 : ∀ p ∈ fmtps, ∀ tok ∈ (g_strsplit_set p [' '] 0).drop 1,
      sscanf_name_value tok = some ((token_pair tok).map (fun p => (p.name, p.value)))) :
    parse_rtpmap fmtps attr = some (codec_of_rtpmap fmtps attr) := by
  unfold parse_rtpmap codec_of_rtpmap
  match hs : g_strsplit_set attr [' ', '/'] 3, h1 with
  | t0 :: t1 :: t2 :: rest, _ =>
    simp only [strv_get, List.length_cons, List.get?_cons_zero, List.get?_cons_succ, atoi,
      Option.map_some', List.getD_cons_zero, List.getD_cons_succ]
    have h0 : 0 < rest.length + 1 + 1 + 1 := by omega
    have h1a : 1 < rest.length + 1 + 1 + 1 := by omega
    have h2a : 2 < rest.length + 1 + 1 + 1 := by omega
    simp only [h0, h1a, h2a, if_true]
    show parse_fmtp_attrs (atoi_str t0) fmtps _ = _
    rw [parse_fmtp_attrs_short _ fmtps h2 h3]
    simp [sipe_backend_codec_new]
  | [], h => simp at h
  | [_], h => simp at h
  | [_, _], h => simp at h

/-- The `rtpmap` loop over attributes with three fields each. -/
theorem parse_rtpmaps_eq (fmtps rtpmaps : List Str)
    (h1 : ∀ a ∈ rtpmaps, 3 ≤ (g_strsplit_set a [' ', '/'] 3).length)
    (h2 : ∀ p ∈ fmtps, p ≠ [])
    (h3 : ∀ p ∈ fmtps, ∀ tok ∈ (g_strsplit_set p [' '] 0).drop 1,
      sscanf_name_value tok = some ((token_pair tok).map (fun p => (p.name, p.value)))) :
    parse_rtpmaps fmtps rtpmaps = some (rtpmaps.map (codec_of_rtpmap fmtps)) := by
  induction rtpmaps with
  | nil => rfl
  | cons a rest ih =>
    rw [parse_rtpmaps, parse_rtpmap_eq fmtps a (h1 a (List.mem_cons_self _ _)) h2 h3,
      ih (fun b hb => h1 b (List.mem_cons_of_mem _ hb))]
    rfl

/-- C22 (counterexample): for the attributes `rtpmap:96 H264/90000` and
`fmtp:96 profile-level-id=42e01f` the codec parsed has no optional parameter,
although the `fmtp` attribute has the leading payload id 96 and its second token
is `profile-level-id=42e01f`: the `sscanf` pattern `%[a-zA-Z0-9]=%s` stops the
name at the first hyphen. -/
theorem hyphenated_parameter_name_dropped :
    g_strsplit_set "96 profile-level-id=42e01f".toList [' '] 0
        = ["96".toList, "profile-level-id=42e01f".toList]
      ∧ sipe_media_parse_codecs sample_h264_attrs
        = some [{ id := 96, name := some "H264".toList, clock_rate := 90000,
                  type := SipeMediaType.SIPE_MEDIA_AUDIO, optional_parameters := [] }] := by
  constructor
  · rfl
  · rfl

/-- The payload ids are compared as C `int` values: the payload id 4294967296 of
an `rtpmap` attribute is read as 0, and the codec gets the parameter of the
`fmtp` attribute with the leading payload id 0. -/
theorem parse_codecs_reads_int_payload_id :
    sipe_media_parse_codecs
        [⟨"rtpmap".toList, "4294967296 PCMU/8000".toList⟩,
         ⟨"fmtp".toList, "0 mode=20".toList⟩]
      = some [{ id := 0, name := some "PCMU".toList, clock_rate := 8000,
                type := SipeMediaType.SIPE_MEDIA_AUDIO,
                optional_parameters := [⟨"mode".toList, "20".toList⟩] }] := rfl

/-- C22 (amended): when every `rtpmap` attribute has three fields (payload id,
name, clock rate), every `fmtp` attribute is non-empty and every `fmtp` token
after the first is shorter than 50 characters, `sipe_media_parse_codecs` returns
one codec per `rtpmap` attribute, in attribute order, with the payload id and
the clock rate `atoi` reads from that attribute (C `int` values) and its
encoding name; its optional parameters are the
pairs of the tokens `name=value` whose name is made of letters and digits
(`token_pair`), of every `fmtp` attribute whose leading payload id is the
codec's id, in order of appearance. -/
theorem parse_codecs_per_rtpmap (sdp_attrs : List sipnameval)
    (h1 : ∀ a ∈ nameval_instances sdp_attrs "rtpmap".toList,
      3 ≤ (g_strsplit_set a [' ', '/'] 3).length)
    (h2 : ∀ p ∈ nameval_instances sdp_attrs "fmtp".toList, p ≠ [])
    (h3 : ∀ p ∈ nameval_instances sdp_attrs "fmtp".toList,
      ∀ tok ∈ (g_strsplit_set p [' '] 0).drop 1, tok.length < 50) :
    sipe_media_parse_codecs sdp_attrs
      = some ((nameval_instances sdp_attrs "rtpmap".toList).map
          (codec_of_rtpmap (nameval_instances sdp_attrs "fmtp".toList))) := by
  unfold sipe_media_parse_codecs
  exact parse_rtpmaps_eq _ _ h1 h2
    (fun p hp tok htok => sscanf_name_value_short tok (h3 p hp tok htok))

/-- C22 (amended) on `sample_fmtp_attrs`: two codecs; the second has the
parameters `mode=20` and `ptime=30`, the token `0-16` is not a `name=value`
token. -/
theorem parse_codecs_per_rtpmap_witness :
    sipe_media_parse_codecs sample_fmtp_attrs
      = some [sample_pcmu,
              { id := 101, name := some "telephone-event".toList, clock_rate := 8000,
                type := SipeMediaType.SIPE_MEDIA_AUDIO,
                optional_parameters := [⟨"mode".toList, "20".toList⟩,
                                        ⟨"ptime".toList, "30".toList⟩] }] := by
  rw [parse_codecs_per_rtpmap sample_fmtp_attrs (by decide) (by decide) (by decide)]
  rfl

/-- Splitting at a one-character delimiter: a token without the delimiter is
split off while splits are allowed. -/
theorem split_char_go_token (d : Char) (unl : Bool) (t rest : Str) (k : Nat) (ht : d ∉ t)
    (hk : unl = true ∨ 0 < k) :
    g_strsplit_go [d] unl (t ++ d :: rest) 0 k = t :: g_strsplit_go [d] unl rest 0 (k - 1) := by
  induction t with
  | nil =>
    have hpre : List.isPrefixOf [d] (d :: rest) = true := by simp [List.isPrefixOf]
    have hcond : (unl || decide (0 < k)) = true := by
      rcases hk with h | h
      · simp [h]
      · simp [h]
    rw [List.nil_append, g_strsplit_go, hpre, hcond]
    simp
  | cons c s ih =>
    have hc : c ≠ d := fun e => ht (by rw [e]; exact List.mem_cons_self _ _)
    have hs : d ∉ s := fun e => ht (List.mem_cons_of_mem _ e)
    have hpre : List.isPrefixOf [d] (c :: (s ++ d :: rest)) = false := by
      simp [List.isPrefixOf, hc.symm]
    rw [List.cons_append, g_strsplit_go, hpre, ih hs]
    simp [consHead]

/-- Splitting with no split left gives the text as one part. -/
theorem split_go_exhausted (delim : Str) (s : Str) :
    g_strsplit_go delim false s 0 0 = [s] := by
  induction s with
  | nil => rfl
  | cons c t ih =>
    rw [g_strsplit_go]
    simp [ih, consHead]

/-- The parts of `name:value` for `g_strsplit (text, ":", 2)`. -/
theorem split_colon_pair (name value : Str) (hn : ':' ∉ name) :
    g_strsplit (name ++ ':' :: value) ":".toList 2 = [name, value] := by
  have h := split_char_go_token ':' false name value 1 hn (Or.inr (by decide))
  have h2 := split_go_exhausted [':'] value
  unfold g_strsplit
  split
  · rename_i heq
    simp at heq
  · show g_strsplit_go [':'] false (name ++ ':' :: value) 0 1 = [name, value]
    rw [h, h2]

/-- An attribute line `a=name:value` adds the attribute `name` with the value
`value` to the scanned attributes. -/
theorem parse_sdp_lines_attr (name value : Str) (rest : List Str) (st : sdp_scan)
    (hn : ':' ∉ name) :
    parse_sdp_lines (("a=".toList ++ name ++ ':' :: value) :: rest) st
      = parse_sdp_lines rest { st with sdp_attrs := st.sdp_attrs ++ [⟨name, value⟩] } := by
  have hpre : g_str_has_prefix ("a=".toList ++ name ++ ':' :: value) "a=".toList = true := by
    show List.isPrefixOf ['a', '='] ('a' :: '=' :: (name ++ ':' :: value)) = true
    simp [List.isPrefixOf]
  have hdrop : ("a=".toList ++ name ++ ':' :: value).drop 2 = name ++ ':' :: value := by
    show ('a' :: '=' :: (name ++ ':' :: value)).drop 2 = _
    rfl
  rw [parse_sdp_lines, if_pos hpre]
  simp only [hdrop, split_colon_pair name value hn]
  rfl

/-- The empty line after the last line break is skipped by the scan. -/
theorem parse_sdp_lines_empty_last (st : sdp_scan) : parse_sdp_lines [[]] st = some st := rfl

/-- Every character `%u` prints is a digit. -/
theorem fmt_u_digits (n : Nat) : ∀ c ∈ fmt_u n, isdigit c = true :=
  fmt_u_go_digits (n + 1) n [] (by simp)

/-- Every character `%d` prints is a digit or the minus sign. -/
theorem fmt_d_chars (i : Int) : ∀ c ∈ fmt_d i, isdigit c = true ∨ c = '-' := by
  intro c hc
  unfold fmt_d at hc
  split at hc
  · rcases List.mem_cons.1 hc with e | e
    · exact Or.inr e
    · exact Or.inl (fmt_u_digits _ c e)
  · exact Or.inl (fmt_u_digits _ c hc)

/-- The text of `%d` has neither space nor slash and, for a C `int`, reads back
as the number. -/
theorem fmt_d_spec (i : Int) :
    ' ' ∉ fmt_d i ∧ '/' ∉ fmt_d i ∧ (is_int i → atoi_str (fmt_d i) = i) := by
  refine ⟨?_, ?_, ?_⟩
  · intro h
    rcases fmt_d_chars i _ h with e | e
    · exact absurd e (by decide)
    · exact absurd e (by decide)
  · intro h
    rcases fmt_d_chars i _ h with e | e
    · exact absurd e (by decide)
    · exact absurd e (by decide)
  · intro hint
    have hint1 := hint
    obtain ⟨hlo, hhi⟩ := hint1
    unfold fmt_d
    split
    · rename_i hneg
      have hd : atoi_digits (fmt_u i.natAbs) 0 = i.natAbs := by
        have := atoi_digits_fmt_u_go (i.natAbs + 1) i.natAbs [] (by omega)
        unfold fmt_u
        rw [this]
        rfl
      have hs : atoi_str ('-' :: fmt_u i.natAbs)
          = int_of_long (strtol_value (- (atoi_digits (fmt_u i.natAbs) 0 : Int))) := by
        unfold atoi_str
        have : List.dropWhile isspace ('-' :: fmt_u i.natAbs) = '-' :: fmt_u i.natAbs := by
          rw [List.dropWhile_cons_of_neg (by decide)]
        rw [this]
        rfl
      rw [hs, hd]
      have e : (-(i.natAbs : Int)) = i := by omega
      rw [e]
      exact int_of_long_of_is_int i hint
    · rename_i hpos
      rw [(fmt_u_spec _).2]
      have e : ((i.natAbs : Nat) : Int) = i := by omega
      rw [e]
      exact int_of_long_of_is_int i hint

/-- The scanning loop of `g_strsplit_set`: a token without delimiter is split off
at a delimiter while another token is allowed. -/
theorem split_set_go_limited_token (delims : List Char) (m : Nat) (t rest : Str) (d : Char)
    (n : Nat) (ht : ∀ c ∈ t, c ∉ delims) (hd : d ∈ delims) (hn : n + 1 < m) :
    g_strsplit_set_go delims false m (t ++ d :: rest) n
      = t :: g_strsplit_set_go delims false m rest (n + 1) := by
  induction t with
  | nil =>
    rw [List.nil_append, g_strsplit_set_go]
    have h1 : delims.contains d = true := by simpa using hd
    rw [h1]
    simp [hn]
  | cons c s ih =>
    have hc : delims.contains c = false := by
      cases hcc : delims.contains c with
      | false => rfl
      | true => exact absurd (by simpa using hcc) (ht c (List.mem_cons_self _ _))
    rw [List.cons_append, g_strsplit_set_go, hc, ih (fun x hx => ht x (List.mem_cons_of_mem _ hx))]
    simp [consHead]

/-- The scanning loop of `g_strsplit_set` with no further token allowed gives the
text as the last token. -/
theorem split_set_go_exhausted (delims : List Char) (m : Nat) (s : Str) (n : Nat)
    (hn : ¬ n + 1 < m) : g_strsplit_set_go delims false m s n = [s] := by
  induction s with
  | nil => rfl
  | cons c t ih =>
    rw [g_strsplit_set_go, ih]
    simp [hn, consHead]

/-- The three fields `g_strsplit_set (attr, " /", 3)` gives for
`<id> <name>/<rate>` when id and name have neither space nor slash. -/
theorem split_set_rtpmap (a b c : Str) (ha : ' ' ∉ a ∧ '/' ∉ a) (hb : ' ' ∉ b ∧ '/' ∉ b)
    (hne : a ++ ' ' :: (b ++ '/' :: c) ≠ []) :
    g_strsplit_set (a ++ ' ' :: (b ++ '/' :: c)) [' ', '/'] 3 = [a, b, c] := by
  have hda : ∀ x ∈ a, x ∉ [' ', '/'] := by
    intro x hx hmem
    simp only [List.mem_cons, List.mem_singleton, List.not_mem_nil, or_false] at hmem
    rcases hmem with e | e
    · exact ha.1 (e ▸ hx)
    · exact ha.2 (e ▸ hx)
  have hdb : ∀ x ∈ b, x ∉ [' ', '/'] := by
    intro x hx hmem
    simp only [List.mem_cons, List.mem_singleton, List.not_mem_nil, or_false] at hmem
    rcases hmem with e | e
    · exact hb.1 (e ▸ hx)
    · exact hb.2 (e ▸ hx)
  unfold g_strsplit_set
  split
  · rename_i heq
    exact absurd heq hne
  · show g_strsplit_set_go [' ', '/'] false 3 (a ++ ' ' :: (b ++ '/' :: c)) 0 = [a, b, c]
    rw [split_set_go_limited_token _ _ a _ ' ' 0 hda (by simp) (by decide),
      split_set_go_limited_token _ _ b _ '/' 1 hdb (by simp) (by decide),
      split_set_go_exhausted _ _ c 2 (by decide)]

/-- The scan of the lines of a codec block adds the attributes of the block. -/
theorem parse_sdp_lines_codec_lines (codecs : List sipe_backend_codec) (rest : List Str) :
    ∀ st : sdp_scan, parse_sdp_lines (codec_lines codecs ++ rest) st
      = parse_sdp_lines rest { st with sdp_attrs := st.sdp_attrs ++ codec_attrs codecs } := by
  induction codecs with
  | nil => intro st; simp [codec_lines, codec_attrs]
  | cons c cs ih =>
    intro st
    have hr : rtpmap_line c = "a=".toList ++ "rtpmap".toList ++ ':' :: rtpmap_value c := by
      simp [rtpmap_line, rtpmap_value, List.append_assoc]
    rw [codec_lines, codec_attrs, List.cons_append, hr,
      parse_sdp_lines_attr _ _ _ _ (by decide)]
    cases hp : c.optional_parameters with
    | nil =>
      simp only [List.nil_append]
      rw [ih]
      simp [List.append_assoc]
    | cons p ps =>
      have hf : "a=fmtp:".toList ++ (fmt_d c.id ++ sdp_codec_params_format (p :: ps))
          = "a=".toList ++ "fmtp".toList ++ ':' :: fmtp_value c := by
        simp [fmtp_value, hp, List.append_assoc]
      simp only [List.cons_append, List.nil_append, List.append_assoc]
      rw [hf, parse_sdp_lines_attr _ _ _ _ (by decide), ih]
      simp [List.append_assoc]

/-- The `rtpmap` and `fmtp` values among the attributes of a codec block. -/
theorem codec_attrs_instances (codecs : List sipe_backend_codec) :
    nameval_instances (codec_attrs codecs) "rtpmap".toList = codecs.map rtpmap_value
      ∧ nameval_instances (codec_attrs codecs) "fmtp".toList = fmtp_values codecs := by
  induction codecs with
  | nil => exact ⟨rfl, rfl⟩
  | cons c cs ih =>
    have hne1 : ¬ "fmtp".toList = "rtpmap".toList := by decide
    have hne2 : ¬ "rtpmap".toList = "fmtp".toList := by decide
    unfold nameval_instances at ih ⊢
    rw [codec_attrs, fmtp_values]
    cases hp : c.optional_parameters with
    | nil =>
      simp only [List.nil_append, List.filter_cons, decide_True, decide_False, hne2,
        if_true, List.map_cons]
      exact ⟨by rw [ih.1], by simpa using ih.2⟩
    | cons p ps =>
      simp only [List.cons_append, List.nil_append, List.filter_cons, decide_True,
        decide_False, hne1, hne2, if_true, List.map_cons]
      exact ⟨by simpa using ih.1, by simpa using ih.2⟩

/-- The leading run of letters and digits of `name=rest` is `name`. -/
theorem takeWhile_isalnum_token (name rest : Str) (h : ∀ ch ∈ name, isalnum ch = true) :
    (name ++ '=' :: rest).takeWhile isalnum = name
      ∧ (name ++ '=' :: rest).dropWhile isalnum = '=' :: rest := by
  induction name with
  | nil =>
    have : isalnum '=' = false := by decide
    simp [List.takeWhile, List.dropWhile, this]
  | cons c s ih =>
    have hc := h c (List.mem_cons_self _ _)
    have hs := ih (fun x hx => h x (List.mem_cons_of_mem _ hx))
    simp [List.takeWhile, List.dropWhile, hc, hs.1, hs.2]

/-- A text without white space is its own `%s` conversion. -/
theorem scan_value_self (value : Str) (h : ∀ ch ∈ value, isspace ch = false) :
    (value.dropWhile isspace).takeWhile (fun c => !isspace c) = value := by
  have hd : value.dropWhile isspace = value := by
    cases value with
    | nil => rfl
    | cons c s => simp [List.dropWhile, h c (List.mem_cons_self _ _)]
  rw [hd]
  induction value with
  | nil => rfl
  | cons c s ih =>
    have hc := h c (List.mem_cons_self _ _)
    have hs : List.dropWhile isspace s = s := by
      cases s with
      | nil => rfl
      | cons d r => simp [List.dropWhile, h d (List.mem_cons_of_mem _ (List.mem_cons_self _ _))]
    simp [List.takeWhile, hc, ih (fun x hx => h x (List.mem_cons_of_mem _ hx)) hs]

/-- The token of a parameter that round-trips is scanned back into the
parameter, inside the buffers. -/
theorem param_token_scan (p : sipnameval) (h : param_round_trips p) :
    token_pair (param_token p) = some p
      ∧ sscanf_name_value (param_token p)
        = some ((token_pair (param_token p)).map (fun q => (q.name, q.value))) := by
  obtain ⟨hne, hal, hnl, hve, hvs, hvl⟩ := h
  obtain ⟨ht, hd⟩ := takeWhile_isalnum_token p.name p.value hal
  have hv := scan_value_self p.value hvs
  have h1 : token_pair (param_token p) = some p := by
    unfold token_pair param_token
    rw [hd]
    simp only [ht, hv, hne, hve, or_self, if_false]
  refine ⟨h1, ?_⟩
  rw [h1]
  unfold sscanf_name_value param_token
  simp only [ht, hd, hv, hne, hve, if_false, Nat.not_le.2 hnl, Nat.not_le.2 hvl,
    Option.map_some']

/-- A space-free parameter token. -/
theorem param_token_no_space (p : sipnameval) (h : param_round_trips p) :
    ' ' ∉ param_token p := by
  obtain ⟨_, hal, _, _, hvs, _⟩ := h
  intro hm
  unfold param_token at hm
  rcases List.mem_append.1 hm with e | e
  · exact absurd (hal _ e) (by decide)
  · rcases List.mem_cons.1 e with e1 | e1
    · exact absurd e1 (by decide)
    · exact absurd (hvs _ e1) (by decide)

/-- The parameter text of an `a=fmtp:` line after a first field is the
space-joined list of the field and the parameter tokens. -/
theorem params_format_join (ps : List sipnameval) :
    ∀ t : Str, t ++ sdp_codec_params_format ps = join_sp (t :: ps.map param_token) := by
  induction ps with
  | nil => intro t; simp [sdp_codec_params_format, join_sp]
  | cons p rest ih =>
    intro t
    have := ih (param_token p)
    simp only [List.map_cons, join_sp]
    rw [← this]
    simp [sdp_codec_params_format, param_token, List.append_assoc]

/-- The tokens of the value of an `a=fmtp:` line: the id and one token per
parameter. -/
theorem split_set_fmtp_value (c : sipe_backend_codec) (hp : c.optional_parameters ≠ [])
    (h : ∀ p ∈ c.optional_parameters, param_round_trips p) :
    g_strsplit_set (fmtp_value c) [' '] 0
      = fmt_d c.id :: c.optional_parameters.map param_token := by
  unfold fmtp_value
  rw [params_format_join]
  cases hps : c.optional_parameters with
  | nil => exact absurd hps hp
  | cons p ps =>
    rw [hps] at h
    simp only [List.map_cons]
    apply split_set_join
    intro x hx
    rcases List.mem_cons.1 hx with e | e
    · rw [e]; exact (fmt_d_spec _).1
    · rcases List.mem_cons.1 e with e1 | e1
      · rw [e1]; exact param_token_no_space p (h p (List.mem_cons_self _ _))
      · obtain ⟨q, hq, hqe⟩ := List.mem_map.1 e1
        rw [← hqe]
        exact param_token_no_space q (h q (List.mem_cons_of_mem _ hq))

/-- The parameters the `fmtp` values of a codec list give to a payload id: those
of the first value, when its id matches, and those of the rest. -/
theorem fmtp_params_cons (id : Int) (p : Str) (rest : List Str) :
    fmtp_params id (p :: rest)
      = (if ((g_strsplit_set p [' '] 0).head?.map atoi_str) = some id
         then ((g_strsplit_set p [' '] 0).drop 1).filterMap token_pair else [])
        ++ fmtp_params id rest := by
  unfold fmtp_params
  by_cases h : ((g_strsplit_set p [' '] 0).head?.map atoi_str) = some id
  · rw [if_pos h, List.filter_cons]
    simp only [decide_eq_true h, if_true, List.map_cons, List.flatten_cons]
  · rw [if_neg h, List.filter_cons]
    simp only [decide_eq_false h, Bool.false_eq_true, if_false, List.nil_append]

/-- Scanning the tokens of parameters that round-trip gives the parameters. -/
theorem filterMap_token_pair (ps : List sipnameval) (h : ∀ p ∈ ps, param_round_trips p) :
    (ps.map param_token).filterMap token_pair = ps := by
  induction ps with
  | nil => rfl
  | cons p rest ih =>
    simp only [List.map_cons, List.filterMap_cons,
      (param_token_scan p (h p (List.mem_cons_self _ _))).1]
    rw [ih (fun q hq => h q (List.mem_cons_of_mem _ hq))]

/-- The parameters the first `fmtp` value of a codec with parameters gives to a
payload id. -/
theorem fmtp_value_params (c : sipe_backend_codec) (id : Int)
    (hp : c.optional_parameters ≠ []) (hint : is_int c.id)
    (h : ∀ p ∈ c.optional_parameters, param_round_trips p) :
    (if ((g_strsplit_set (fmtp_value c) [' '] 0).head?.map atoi_str) = some id
     then ((g_strsplit_set (fmtp_value c) [' '] 0).drop 1).filterMap token_pair else [])
      = if c.id = id then c.optional_parameters else [] := by
  rw [split_set_fmtp_value c hp h]
  simp only [List.head?_cons, Option.map_some', (fmt_d_spec c.id).2.2 hint, Option.some.injEq,
    List.drop_succ_cons, List.drop_zero, filterMap_token_pair _ h]

/-- No `fmtp` value of a codec list gives a parameter to a payload id that none
of the codecs has. -/
theorem fmtp_params_other (id : Int) (codecs : List sipe_backend_codec)
    (hclean : ∀ c ∈ codecs, is_int c.id ∧ ∀ p ∈ c.optional_parameters, param_round_trips p)
    (hid : ∀ c ∈ codecs, c.id ≠ id) :
    fmtp_params id (fmtp_values codecs) = [] := by
  induction codecs with
  | nil => rfl
  | cons c cs ih =>
    have hrest := ih (fun d hd => hclean d (List.mem_cons_of_mem _ hd))
      (fun d hd => hid d (List.mem_cons_of_mem _ hd))
    rw [fmtp_values]
    cases hp : c.optional_parameters with
    | nil => simpa using hrest
    | cons p ps =>
      have hne : c.optional_parameters ≠ [] := by rw [hp]; simp
      simp only [List.cons_append, List.nil_append]
      rw [fmtp_params_cons, fmtp_value_params c id hne (hclean c (List.mem_cons_self _ _)).1
          (hclean c (List.mem_cons_self _ _)).2,
        if_neg (hid c (List.mem_cons_self _ _)), hrest]
      rfl

/-- With pairwise distinct payload ids, the `fmtp` values of a codec list give
each codec its own parameters. -/
theorem fmtp_params_self (codecs : List sipe_backend_codec)
    (hids : codecs.Pairwise (fun a b => a.id ≠ b.id))
    (hclean : ∀ c ∈ codecs, is_int c.id ∧ ∀ p ∈ c.optional_parameters, param_round_trips p) :
    ∀ c ∈ codecs, fmtp_params c.id (fmtp_values codecs) = c.optional_parameters := by
  induction codecs with
  | nil => intro c hc; cases hc
  | cons d ds ih =>
    intro c hc
    obtain ⟨hd, hds⟩ := List.pairwise_cons.1 hids
    have hcl := fun e he => hclean e (List.mem_cons_of_mem _ he)
    rw [fmtp_values]
    rcases List.mem_cons.1 hc with e | e
    · subst e
      have hother := fmtp_params_other c.id ds hcl (fun e he => (hd e he).symm)
      cases hp : c.optional_parameters with
      | nil => simpa using hother
      | cons p ps =>
        have hne : c.optional_parameters ≠ [] := by rw [hp]; simp
        simp only [List.cons_append, List.nil_append]
        rw [fmtp_params_cons, fmtp_value_params c c.id hne (hclean c (List.mem_cons_self _ _)).1
            (hclean c (List.mem_cons_self _ _)).2,
          if_pos rfl, hother, hp]
        simp
    · have hrec := ih hds hcl c e
      cases hp : d.optional_parameters with
      | nil => simpa using hrec
      | cons p ps =>
        have hne : d.optional_parameters ≠ [] := by rw [hp]; simp
        simp only [List.cons_append, List.nil_append]
        rw [fmtp_params_cons, fmtp_value_params d c.id hne (hclean d (List.mem_cons_self _ _)).1
            (hclean d (List.mem_cons_self _ _)).2,
          if_neg (hd c e), hrec]
        rfl

/-- The text of `%u` is not empty. -/
theorem fmt_u_ne_nil (n : Nat) : fmt_u n ≠ [] := by
  unfold fmt_u
  rw [fmt_u_go]
  split
  · simp
  · intro h
    have hlen : ∀ fuel m acc, acc ≠ [] → fmt_u_go fuel m acc ≠ [] := by
      intro fuel
      induction fuel with
      | zero => intro m acc ha; simpa [fmt_u_go] using ha
      | succ k ihk =>
        intro m acc ha
        rw [fmt_u_go]
        split
        · simp
        · exact ihk _ _ (by simp)
    exact hlen n (n / 10) [digitChar n] (by simp) h

/-- The text of `%d` is not empty. -/
theorem fmt_d_ne_nil (i : Int) : fmt_d i ≠ [] := by
  unfold fmt_d
  split
  · simp
  · exact fmt_u_ne_nil _

/-- The codec the `rtpmap` value of a codec stands for: the codec itself, with
the parameters the `fmtp` values give to its id. -/
theorem codec_of_rtpmap_value (fmtps : List Str) (c : sipe_backend_codec)
    (h : codec_round_trips c) :
    (g_strsplit_set (rtpmap_value c) [' ', '/'] 3).length = 3
      ∧ codec_of_rtpmap fmtps (rtpmap_value c)
        = { c with optional_parameters := fmtp_params c.id fmtps } := by
  obtain ⟨⟨hid, hrate⟩, htype, ⟨n, hn, hsp, hsl, _⟩, _⟩ := h
  have hsplit : g_strsplit_set (rtpmap_value c) [' ', '/'] 3
      = [fmt_d c.id, n, fmt_d c.clock_rate] := by
    unfold rtpmap_value
    rw [hn]
    exact split_set_rtpmap _ _ _ ⟨(fmt_d_spec _).1, (fmt_d_spec _).2.1⟩ ⟨hsp, hsl⟩ (by simp)
  refine ⟨by rw [hsplit]; rfl, ?_⟩
  unfold codec_of_rtpmap
  rw [hsplit]
  simp only [List.getD_cons_zero, List.getD_cons_succ, List.get?_cons_succ,
    List.get?_cons_zero, (fmt_d_spec _).2.2 hid, (fmt_d_spec _).2.2 hrate]
  cases c
  simp only at hn htype
  subst hn; subst htype
  rfl

/-- A codec that round-trips has clean texts. -/
theorem codec_round_trips_clean (c : sipe_backend_codec) (h : codec_round_trips c) :
    codec_text_clean c := by
  obtain ⟨_, _, ⟨n, hn, _, _, hcr⟩, hps⟩ := h
  refine ⟨by rw [hn]; exact hcr, ?_⟩
  intro p hp
  obtain ⟨_, hal, _, _, hvs, _⟩ := hps p hp
  exact ⟨fun hm => absurd (hal _ hm) (by decide), fun hm => absurd (hvs _ hm) (by decide)⟩

/-- The attributes scanned from the text of a codec block with clean texts. -/
theorem text_attrs_codecs_format (codecs : List sipe_backend_codec)
    (hclean : ∀ c ∈ codecs, codec_text_clean c) :
    text_attrs (sipe_media_sdp_codecs_format codecs) = some (codec_attrs codecs) := by
  unfold text_attrs
  rw [sdp_codecs_format_eq_lines]
  cases hl : codec_lines codecs with
  | nil =>
    cases codecs with
    | nil => rfl
    | cons c cs => simp [codec_lines] at hl
  | cons l ls =>
    have hok : ∀ x ∈ l :: ls, '\r' ∉ x := by
      intro x hx
      rw [← hl] at hx
      exact (codec_lines_ok codecs hclean x hx).1
    rw [split_crlf_lines l ls hok, ← hl, parse_sdp_lines_codec_lines]
    simp [parse_sdp_lines_empty_last, sdp_scan_init]

/-- Parsing the attributes of the block of a codec list with pairwise distinct
ids, whose codecs round-trip, gives the codec list. -/
theorem parse_codecs_codec_attrs (codecs : List sipe_backend_codec)
    (hids : codecs.Pairwise (fun a b => a.id ≠ b.id))
    (hclean : ∀ c ∈ codecs, codec_round_trips c) :
    sipe_media_parse_codecs (codec_attrs codecs) = some codecs := by
  have hparams : ∀ c ∈ codecs, ∀ p ∈ c.optional_parameters, param_round_trips p :=
    fun c hc => (hclean c hc).2.2.2
  have hself : ∀ c ∈ codecs,
      is_int c.id ∧ ∀ p ∈ c.optional_parameters, param_round_trips p :=
    fun c hc => ⟨(hclean c hc).1.1, (hclean c hc).2.2.2⟩
  unfold sipe_media_parse_codecs
  rw [(codec_attrs_instances codecs).1, (codec_attrs_instances codecs).2]
  have h2 : ∀ v ∈ fmtp_values codecs, v ≠ []
      ∧ ∀ tok ∈ (g_strsplit_set v [' '] 0).drop 1,
          sscanf_name_value tok = some ((token_pair tok).map (fun p => (p.name, p.value))) := by
    intro v hv
    have hsub : ∀ cs : List sipe_backend_codec, v ∈ fmtp_values cs →
        ∃ c ∈ cs, c.optional_parameters ≠ [] ∧ v = fmtp_value c := by
      intro cs
      induction cs with
      | nil => intro h; cases h
      | cons d ds ih =>
        intro h
        rw [fmtp_values] at h
        rcases List.mem_append.1 h with e | e
        · cases hp : d.optional_parameters with
          | nil => rw [hp] at e; cases e
          | cons p ps =>
            rw [hp] at e
            simp only [List.mem_singleton] at e
            exact ⟨d, List.mem_cons_self _ _, by rw [hp]; simp, e⟩
        · obtain ⟨c, hc, hne, hve⟩ := ih e
          exact ⟨c, List.mem_cons_of_mem _ hc, hne, hve⟩
    obtain ⟨c, hc, hne, hve⟩ := hsub codecs hv
    subst hve
    refine ⟨?_, ?_⟩
    · unfold fmtp_value
      intro he
      exact fmt_d_ne_nil c.id (List.append_eq_nil.1 he).1
    · rw [split_set_fmtp_value c hne (hparams c hc)]
      intro tok htok
      simp only [List.drop_succ_cons, List.drop_zero] at htok
      obtain ⟨q, hq, hqe⟩ := List.mem_map.1 htok
      rw [← hqe]
      exact (param_token_scan q (hparams c hc q hq)).2
  rw [parse_rtpmaps_eq (fmtp_values codecs) (codecs.map rtpmap_value)
    (by
      intro a ha
      obtain ⟨c, hc, hce⟩ := List.mem_map.1 ha
      rw [← hce, (codec_of_rtpmap_value (fmtp_values codecs) c (hclean c hc)).1])
    (fun v hv => (h2 v hv).1) (fun v hv => (h2 v hv).2)]
  rw [List.map_map]
  congr 1
  have : ∀ c ∈ codecs, (codec_of_rtpmap (fmtp_values codecs) ∘ rtpmap_value) c = id c := by
    intro c hc
    simp only [Function.comp, id]
    rw [(codec_of_rtpmap_value (fmtp_values codecs) c (hclean c hc)).2,
      fmtp_params_self codecs hids hself c hc]
  rw [List.map_congr_left this, List.map_id]

/-- C29 (counterexample): the codec `sample_h264` has a name without space or
slash and one optional parameter with a non-empty name and a non-empty value
without white space; the attributes of the lines `sipe_media_sdp_codecs_format`
prints for it are parsed into the codec without its parameter. -/
theorem hyphenated_parameter_lost_in_roundtrip :
    text_attrs (sipe_media_sdp_codecs_format [sample_h264]) = some sample_h264_attrs
      ∧ sipe_media_parse_codecs sample_h264_attrs
        = some [{ sample_h264 with optional_parameters := [] }]
      ∧ sample_h264.optional_parameters ≠ [] := by
  refine ⟨rfl, rfl, by decide⟩

/-- C29 (amended): for a list of audio codecs with pairwise distinct payload
ids (payload ids and clock rates being C `int` values), names free of space,
slash and carriage return, and optional parameters whose
names are non-empty runs of at most 49 letters and digits and whose values are
non-empty, free of white space and at most 49 characters long, the attributes of
the lines `sipe_media_sdp_codecs_format` prints are `codec_attrs`, and
`sipe_media_parse_codecs` applied to them returns the same codecs in the same
order, each with the same optional parameters. -/
theorem codecs_format_parse_roundtrip (codecs : List sipe_backend_codec)
    (hids : codecs.Pairwise (fun a b => a.id ≠ b.id))
    (hclean : ∀ c ∈ codecs, codec_round_trips c) :
    text_attrs (sipe_media_sdp_codecs_format codecs) = some (codec_attrs codecs)
      ∧ sipe_media_parse_codecs (codec_attrs codecs) = some codecs :=
  ⟨text_attrs_codecs_format codecs (fun c hc => codec_round_trips_clean c (hclean c hc)),
    parse_codecs_codec_attrs codecs hids hclean⟩

/-- C29 (amended) on the codecs PCMU (no parameter) and iLBC (`mode=20`). -/
theorem codecs_format_parse_roundtrip_witness :
    text_attrs (sipe_media_sdp_codecs_format [sample_pcmu, sample_ilbc])
        = some (codec_attrs [sample_pcmu, sample_ilbc])
      ∧ sipe_media_parse_codecs (codec_attrs [sample_pcmu, sample_ilbc])
        = some [sample_pcmu, sample_ilbc] := by
  apply codecs_format_parse_roundtrip
  · decide
  · intro c hc
    simp only [List.mem_cons, List.mem_singleton, List.not_mem_nil, or_false] at hc
    rcases hc with e | e
    · subst e
      exact ⟨⟨⟨by decide, by decide⟩, ⟨by decide, by decide⟩⟩, rfl,
        ⟨"PCMU".toList, rfl, by decide, by decide, by decide⟩, fun p hp => by cases hp⟩
    · subst e
      refine ⟨⟨⟨by decide, by decide⟩, ⟨by decide, by decide⟩⟩, rfl,
        ⟨"iLBC".toList, rfl, by decide, by decide, by decide⟩, ?_⟩
      intro p hp
      have hp1 : p = ⟨"mode".toList, "20".toList⟩ := by
        simpa [sample_ilbc] using hp
      subst hp1
      exact ⟨by decide, by decide, by decide, by decide, by decide, by decide⟩

/-- What `g_hash_table_foreach` with `remove_lone_candidate_cb` leaves of a list:
the links that are not in the table, in the order of the list. -/
theorem foreach_remove_lone (table : List (Str × Nat)) :
    ∀ l : List (Nat × sipe_backend_candidate),
      (table.foldl (fun l e => remove_lone_candidate_cb l e.2) l).Sublist l
        ∧ ∀ x, x ∈ table.foldl (fun l e => remove_lone_candidate_cb l e.2) l
            ↔ x ∈ l ∧ x.1 ∉ table.map Prod.snd := by
  induction table with
  | nil => intro l; simp
  | cons e t ih =>
    intro l
    rw [List.foldl_cons]
    obtain ⟨hs, hm⟩ := ih (remove_lone_candidate_cb l e.2)
    refine ⟨hs.trans (List.filter_sublist _), ?_⟩
    intro x
    rw [hm x]
    unfold remove_lone_candidate_cb
    simp only [List.mem_filter, decide_eq_true_eq, List.map_cons, List.mem_cons, not_or]
    tauto

/-- A relation that holds between the elements of a list pairwise, and in both
directions, holds between the elements at two different positions. -/
theorem pairwise_positions {α : Type} (R : α → α → Prop) (hs : ∀ a b, R a b → R b a) :
    ∀ l : List α, l.Pairwise R →
      ∀ i j a b, l.get? i = some a → l.get? j = some b → i ≠ j → R a b := by
  intro l
  induction l with
  | nil => intro _ i j a b hi; simp at hi
  | cons x xs ih =>
    intro hp i j a b hi hj hne
    rw [List.pairwise_cons] at hp
    cases i with
    | zero =>
      cases j with
      | zero => exact absurd rfl hne
      | succ j =>
        simp only [List.get?_cons_zero, Option.some.injEq] at hi
        rw [List.get?_cons_succ] at hj
        rw [← hi]
        exact hp.1 b (List.get?_mem hj)
    | succ i =>
      cases j with
      | zero =>
        simp only [List.get?_cons_zero, Option.some.injEq] at hj
        rw [List.get?_cons_succ] at hi
        rw [← hj]
        exact hs _ _ (hp.1 a (List.get?_mem hi))
      | succ j =>
        rw [List.get?_cons_succ] at hi hj
        exact ih hp.2 i j a b hi hj (fun e => hne (by rw [e]))

/-- One turn of the loop of `ensure_candidate_pairs` keeps its invariant. -/
theorem lone_links_invariant_step (seen : List (Nat × sipe_backend_candidate))
    (table : List (Str × Nat)) (i : Nat) (c : sipe_backend_candidate) (f : Str)
    (hf : c.foundation = some f)
    (hnodup : ((seen ++ [(i, c)]).map Prod.fst).Nodup)
    (h : lone_links_invariant seen table) :
    lone_links_invariant (seen ++ [(i, c)])
      (if table.any (fun e => decide (e.1 = f)) then table.filter (fun e => decide (e.1 ≠ f))
       else table ++ [(f, i)]) := by
  obtain ⟨h1, h3⟩ := h
  have hfresh : ∀ y ∈ seen, y.1 ≠ i := by
    intro y hy e
    rw [List.map_append, List.nodup_append] at hnodup
    exact hnodup.2.2 (List.mem_map_of_mem Prod.fst hy) (by simp [e])
  have hseen_nodup : (seen.map Prod.fst).Nodup := by
    rw [List.map_append, List.nodup_append] at hnodup
    exact hnodup.1
  have huniq : ∀ j d d1, (j, d) ∈ seen → (j, d1) ∈ seen → d = d1 := by
    intro j d d1 hd hd1
    have := List.inj_on_of_nodup_map hseen_nodup hd hd1 rfl
    exact (Prod.mk.inj this).2
  have hlinks : ∀ j ∈ table.map Prod.snd, j ≠ i := by
    intro j hj
    obtain ⟨e, he, hej⟩ := List.mem_map.1 hj
    obtain ⟨d, hd, _⟩ := h1 e he
    rw [← hej]
    exact hfresh _ hd
  by_cases hany : table.any (fun e => decide (e.1 = f)) = true
  · rw [if_pos hany]
    obtain ⟨e0, he0, hk0⟩ := List.any_eq_true.1 hany
    have hk0 : e0.1 = f := by simpa using hk0
    obtain ⟨d0, hd0, hd0f⟩ := h1 e0 he0
    rw [hk0] at hd0f
    have hsub : ∀ j, j ∈ (table.filter (fun e => decide (e.1 ≠ f))).map Prod.snd →
        j ∈ table.map Prod.snd := by
      intro j hj
      obtain ⟨e, he, hej⟩ := List.mem_map.1 hj
      exact List.mem_map.2 ⟨e, (List.mem_filter.1 he).1, hej⟩
    have hfound : ∀ j d, (j, d) ∈ seen → j ∈ table.map Prod.snd →
        j ∉ (table.filter (fun e => decide (e.1 ≠ f))).map Prod.snd →
        d.foundation = some f := by
      intro j d hd hj hnj
      obtain ⟨e, he, hej⟩ := List.mem_map.1 hj
      obtain ⟨d1, hd1, hd1f⟩ := h1 e he
      rw [hej] at hd1
      have := huniq j d d1 hd hd1
      rw [this, hd1f]
      by_cases hef : e.1 = f
      · rw [hef]
      · exact absurd (List.mem_map.2 ⟨e, List.mem_filter.2 ⟨he, by simpa using hef⟩, hej⟩) hnj
    have hi_kept : i ∉ (table.filter (fun e => decide (e.1 ≠ f))).map Prod.snd :=
      fun hi => hlinks i (hsub i hi) rfl
    refine ⟨?_, ?_⟩
    · intro e he
      obtain ⟨d, hd, hdf⟩ := h1 e (List.mem_filter.1 he).1
      exact ⟨d, List.mem_append_left _ hd, hdf⟩
    · intro x hx hxk
      rcases List.mem_append.1 hx with hxs | hxi
      · by_cases hxt : x.1 ∈ table.map Prod.snd
        · refine ⟨(i, c), List.mem_append_right _ (List.mem_singleton_self _), hi_kept,
            fun e => hfresh x hxs e.symm, ?_⟩
          rw [hf]
          exact (hfound x.1 x.2 hxs hxt hxk).symm
        · obtain ⟨y, hy, hyk, hyne, hyf⟩ := h3 x hxs hxt
          exact ⟨y, List.mem_append_left _ hy, fun hm => hyk (hsub _ hm), hyne, hyf⟩
      · simp only [List.mem_singleton] at hxi
        subst hxi
        have hd0k : e0.2 ∉ (table.filter (fun e => decide (e.1 ≠ f))).map Prod.snd := by
          intro hm
          obtain ⟨e, he, hej⟩ := List.mem_map.1 hm
          obtain ⟨he1, he2⟩ := List.mem_filter.1 he
          obtain ⟨d1, hd1, hd1f⟩ := h1 e he1
          rw [hej] at hd1
          have := huniq e0.2 d0 d1 hd0 hd1
          rw [this, hd1f] at hd0f
          exact (by simpa using he2 : e.1 ≠ f) (Option.some.inj hd0f)
        exact ⟨(e0.2, d0), List.mem_append_left _ hd0, hd0k, hfresh _ hd0,
          by rw [hd0f, hf]⟩
  · rw [if_neg hany]
    refine ⟨?_, ?_⟩
    · intro e he
      rcases List.mem_append.1 he with he1 | he1
      · obtain ⟨d, hd, hdf⟩ := h1 e he1
        exact ⟨d, List.mem_append_left _ hd, hdf⟩
      · simp only [List.mem_singleton] at he1
        subst he1
        exact ⟨c, List.mem_append_right _ (List.mem_singleton_self _), hf⟩
    · intro x hx hxk
      rw [List.map_append, List.mem_append, not_or] at hxk
      rcases List.mem_append.1 hx with hxs | hxi
      · obtain ⟨y, hy, hyk, hyne, hyf⟩ := h3 x hxs hxk.1
        refine ⟨y, List.mem_append_left _ hy, ?_, hyne, hyf⟩
        rw [List.map_append, List.mem_append, not_or]
        exact ⟨hyk, by simpa using hfresh y hy⟩
      · simp only [List.mem_singleton] at hxi
        subst hxi
        exact absurd (by simp) hxk.2

/-- The loop of `ensure_candidate_pairs` ends with a table, and keeps the
invariant, when every foundation is set. -/
theorem lone_cand_links_loop_invariant (rest : List (Nat × sipe_backend_candidate)) :
    ∀ (seen : List (Nat × sipe_backend_candidate)) (table : List (Str × Nat)),
      ((seen ++ rest).map Prod.fst).Nodup →
      (∀ x ∈ rest, x.2.foundation ≠ none) →
      lone_links_invariant seen table →
      ∃ table1, lone_cand_links_loop rest table = some table1
        ∧ lone_links_invariant (seen ++ rest) table1 := by
  induction rest with
  | nil =>
    intro seen table _ _ h
    exact ⟨table, rfl, by rw [List.append_nil]; exact h⟩
  | cons x rest ih =>
    intro seen table hnodup hfound h
    obtain ⟨i, c⟩ := x
    cases hf : c.foundation with
    | none => exact absurd hf (hfound (i, c) (List.mem_cons_self _ _))
    | some f =>
      have happ : seen ++ (i, c) :: rest = (seen ++ [(i, c)]) ++ rest := by simp
      have hn1 : ((seen ++ [(i, c)]).map Prod.fst).Nodup := by
        rw [happ, List.map_append, List.nodup_append] at hnodup
        exact hnodup.1
      have hstep := lone_links_invariant_step seen table i c f hf hn1 h
      rw [happ] at hnodup ⊢
      obtain ⟨table1, ht, hinv⟩ := ih (seen ++ [(i, c)]) _ hnodup
        (fun y hy => hfound y (List.mem_cons_of_mem _ hy)) hstep
      refine ⟨table1, ?_, hinv⟩
      rw [lone_cand_links_loop, hf]
      simp only []
      by_cases hany : table.any (fun e => decide (e.1 = f)) = true
      · rw [if_pos hany] at ht ⊢
        exact ht
      · rw [if_neg hany] at ht ⊢
        exact ht
/-- C26 (counterexample): two candidates for RTP with the same foundation are
both kept by `ensure_candidate_pairs`, and there is no candidate for RTCP in the
result. -/
theorem same_component_pair_kept :
    ensure_candidate_pairs
        [sample_component_candidate "1".toList SipeComponentType.SIPE_COMPONENT_RTP,
         { sample_component_candidate "1".toList SipeComponentType.SIPE_COMPONENT_RTP with
           port := 7000 }]
      = some [sample_component_candidate "1".toList SipeComponentType.SIPE_COMPONENT_RTP,
              { sample_component_candidate "1".toList SipeComponentType.SIPE_COMPONENT_RTP with
                port := 7000 }]
      ∧ ((ensure_candidate_pairs
          [sample_component_candidate "1".toList SipeComponentType.SIPE_COMPONENT_RTP,
           { sample_component_candidate "1".toList SipeComponentType.SIPE_COMPONENT_RTP with
             port := 7000 }]).map (List.map (fun c => c.component)))
        = some [SipeComponentType.SIPE_COMPONENT_RTP, SipeComponentType.SIPE_COMPONENT_RTP] := by
  refine ⟨rfl, rfl⟩

/-- C26 (amended): for a candidate list in which every foundation is set (not
`NULL`) and any two candidates with the same foundation are one for RTP and one
for RTCP, `ensure_candidate_pairs` returns a sub-list of the input in the
order of the input, in which each candidate has a partner with the same
foundation and the other component: an RTP candidate is matched by an RTCP
candidate and an RTCP candidate by an RTP candidate. -/
theorem ensure_candidate_pairs_partners (candidates : List sipe_backend_candidate)
    (hfound : ∀ c ∈ candidates, c.foundation ≠ none)
    (hpairs : candidates.Pairwise
      (fun a b => a.foundation = b.foundation → rtp_and_rtcp a b)) :
    ∃ result, ensure_candidate_pairs candidates = some result
      ∧ result.Sublist candidates
      ∧ ∀ c ∈ result, ∃ d ∈ result, d.foundation = c.foundation ∧ rtp_and_rtcp c d := by
  have hnodup : (([] ++ candidates.enum).map Prod.fst).Nodup := by
    rw [List.nil_append, List.enum_map_fst]
    exact List.nodup_range _
  have hf : ∀ x ∈ candidates.enum, x.2.foundation ≠ none := by
    intro x hx
    have : x.2 ∈ candidates.enum.map Prod.snd := List.mem_map_of_mem Prod.snd hx
    rw [List.enum_map_snd] at this
    exact hfound _ this
  have h0 : lone_links_invariant [] [] :=
    ⟨fun e he => (by cases he), fun x hx => (by cases hx)⟩
  obtain ⟨table, ht, hinvs⟩ :=
    lone_cand_links_loop_invariant candidates.enum [] [] hnodup hf h0
  rw [List.nil_append] at hinvs
  have hinv := hinvs.2
  obtain ⟨hsub, hmem⟩ := foreach_remove_lone table candidates.enum
  have hsym : ∀ a b : sipe_backend_candidate,
      (a.foundation = b.foundation → rtp_and_rtcp a b) →
      (b.foundation = a.foundation → rtp_and_rtcp b a) := by
    intro a b h e
    rcases h e.symm with h1 | h1
    · exact Or.inr ⟨h1.2, h1.1⟩
    · exact Or.inl ⟨h1.2, h1.1⟩
  have hpos := pairwise_positions _ hsym candidates hpairs
  refine ⟨_, by unfold ensure_candidate_pairs; rw [ht], ?_, ?_⟩
  · have := hsub.map Prod.snd
    rw [List.enum_map_snd] at this
    exact this
  · intro c hc
    obtain ⟨x, hx, hxc⟩ := List.mem_map.1 hc
    obtain ⟨hxl, hxk⟩ := (hmem x).1 hx
    obtain ⟨y, hyl, hyk, hyne, hyf⟩ := hinv x hxl hxk
    refine ⟨y.2, List.mem_map_of_mem Prod.snd ((hmem y).2 ⟨hyl, hyk⟩), ?_, ?_⟩
    · rw [hyf, hxc]
    · rw [← hxc]
      have hx1 : candidates.get? x.1 = some x.2 := by
        rw [List.get?_eq_getElem?]
        exact List.mk_mem_enum_iff_getElem?.1 hxl
      have hy1 : candidates.get? y.1 = some y.2 := by
        rw [List.get?_eq_getElem?]
        exact List.mk_mem_enum_iff_getElem?.1 hyl
      exact hpos x.1 y.1 x.2 y.2 hx1 hy1 (fun e => hyne e.symm) hyf.symm

/-- C26 (amended) on an RTP and an RTCP candidate with foundation `1` followed
by a lone RTP candidate with foundation `2`. -/
theorem ensure_candidate_pairs_partners_witness :
    ∃ result,
      ensure_candidate_pairs
          [sample_component_candidate "1".toList SipeComponentType.SIPE_COMPONENT_RTP,
           sample_component_candidate "1".toList SipeComponentType.SIPE_COMPONENT_RTCP,
           sample_component_candidate "2".toList SipeComponentType.SIPE_COMPONENT_RTP]
        = some result
      ∧ result.Sublist
          [sample_component_candidate "1".toList SipeComponentType.SIPE_COMPONENT_RTP,
           sample_component_candidate "1".toList SipeComponentType.SIPE_COMPONENT_RTCP,
           sample_component_candidate "2".toList SipeComponentType.SIPE_COMPONENT_RTP]
      ∧ ∀ c ∈ result, ∃ d ∈ result, d.foundation = c.foundation ∧ rtp_and_rtcp c d := by
  apply ensure_candidate_pairs_partners
  · decide
  · simp only [List.pairwise_cons, List.mem_cons, List.mem_singleton, List.not_mem_nil,
      forall_eq_or_imp, forall_eq, List.Pairwise.nil, and_true, false_implies, implies_true]
    refine ⟨⟨fun _ => Or.inl ⟨rfl, rfl⟩, fun h => absurd h (by decide)⟩,
      fun h => absurd h (by decide)⟩

/-- C7 (counterexample): the outbound sample call, on a backend that refuses the
remote codecs, receives the 200 OK `sample_response_200`, whose SDP parses, has
no `a=candidate` line and offers PCMU, a local codec. `process_invite_call_response`
returns `FALSE`; its only action is the backend call that the backend refuses:
no ACK is sent, `using_nice` stays `TRUE`, the voice stream is not replaced and
the session is released. -/
theorem refused_codecs_no_downgrade :
    (sipe_media_parse_sdp_attributes_and_candidates sample_refusing_outbound_call
        sample_response_200.body).map
        (fun r => (r.1, nameval_instances r.2.sdp_attrs "candidate".toList,
          sipe_media_parse_codecs r.2.sdp_attrs)) = some (true, [], some [sample_pcmu])
      ∧ sample_pcmu ∈ sample_refusing_outbound_call.backend_private.local_codecs
      ∧ (process_invite_call_response (sample_endpoint (some sample_refusing_outbound_call))
          sample_response_200 sample_transaction).map
          (fun r => (r.1, r.2.trace, slot_state r.2,
            r.2.media_call.map (fun c => (c.legacy_mode, c.using_nice, c.voice_stream))))
        = some (false,
            [effect.sipe_backend_set_remote_codecs (some sample_outbound_stream) [sample_pcmu]],
            some true, some (true, true, some sample_outbound_stream)) := by
  refine ⟨rfl, by decide, rfl⟩

/-- C10 (counterexample): the outbound sample call, on a backend that refuses the
remote codecs, receives the 183 response `sample_response_183`, whose SDP parses
and offers PCMU, a local codec. `process_invite_call_response` returns `FALSE`;
its only action is the backend call that the backend refuses: no PRACK is sent,
and the session is released. -/
theorem refused_codecs_no_prack :
    (sipe_media_parse_sdp_attributes_and_candidates sample_refusing_outbound_call
        sample_response_183.body).map
        (fun r => (r.1, sipe_media_parse_codecs r.2.sdp_attrs)) = some (true, some [sample_pcmu])
      ∧ sample_pcmu ∈ sample_refusing_outbound_call.backend_private.local_codecs
      ∧ (process_invite_call_response (sample_endpoint (some sample_refusing_outbound_call))
          sample_response_183 sample_transaction).map
          (fun r => (r.1, r.2.trace, slot_state r.2))
        = some (false,
            [effect.sipe_backend_set_remote_codecs (some sample_outbound_stream) [sample_pcmu]],
            some true) := by
  refine ⟨rfl, by decide, rfl⟩

/-- The scan of a body never yields an empty candidate list. -/
theorem scan_candidates_ne_nil (st : sdp_scan) (cands : List sipe_backend_candidate)
    (h : scan_candidates st = some cands) : cands ≠ [] := by
  unfold scan_candidates at h
  cases hp : sipe_media_parse_remote_candidates st.sdp_attrs with
  | none => rw [hp] at h; cases h
  | some parsed =>
    rw [hp] at h
    simp only [Option.map_some', Option.some.injEq] at h
    subst h
    cases parsed with
    | nil => simp [sipe_media_parse_remote_candidates_legacy]
    | cons p ps => simp

/-- Coming from scanned SDP bodies is a session invariant of the remote lists. -/
theorem lists_scanned_invariant : session_invariant lists_scanned := by
  refine ⟨?_, ?_, ?_, ?_⟩
  · intro c c1 hsame hc
    obtain ⟨_, hcand, hcodec, hattrs, hlocal⟩ := hsame
    unfold lists_scanned at hc ⊢
    rw [hcand, hcodec, hattrs, hlocal]
    exact hc
  · intro c invitation hc
    rcases hc with ⟨h1, h2, _⟩ | ⟨frame, st, hscan, hcands, _, hcodecs⟩
    · exact Or.inl ⟨h1, h2, rfl⟩
    · exact Or.inr ⟨frame, st, hscan, hcands, Or.inr rfl, hcodecs⟩
  · intro c body ok c1 h hc
    cases ok with
    | false =>
      rw [failed_parse_keeps_session c c1 body h]
      exact hc
    | true =>
      obtain ⟨frame, st, parsed, _, hst, hparsed, hok, _, hcodecs, hbackend, hres⟩ :=
        parse_sdp_cases c c1 body true h
      obtain ⟨hattrs, hcands⟩ := hres rfl
      have hscan : scanned_body frame st := ⟨hst, hok.symm⟩
      refine Or.inr ⟨frame, st, hscan, ?_, Or.inl hattrs, ?_⟩
      · rw [hcands, scan_candidates, hparsed]; rfl
      · rw [hcodecs, hbackend]
        rcases hc with ⟨_, h2, _⟩ | ⟨_, _, _, _, _, h4⟩
        · exact Or.inl h2
        · exact h4
  · intro c ok c1 es h hc
    obtain ⟨parsed, hparsed, h1 | h1⟩ := parse_remote_codecs_cases c c1 ok es h
    · rw [h1]; exact hc
    · rw [h1]
      have hnil : c.sdp_attrs = [] →
          sipe_media_prune_remote_codecs c.backend_private.local_codecs parsed = [] := by
        intro he
        rw [he] at hparsed
        have : parsed = [] := (Option.some.inj hparsed).symm
        rw [this]
        rfl
      rcases hc with ⟨h1, _, h3⟩ | ⟨frame, st, hscan, hcands, hattrs, _⟩
      · exact Or.inl ⟨h1, hnil h3, h3⟩
      · refine Or.inr ⟨frame, st, hscan, hcands, hattrs, ?_⟩
        rcases hattrs with he | he
        · refine Or.inr ⟨frame, st, parsed, hscan, ?_, rfl⟩
          rw [← he]; exact hparsed
        · exact Or.inl (hnil he)

/-- A new session has empty remote lists and an empty attribute set. -/
theorem lists_scanned_init (sp : sipe_core_private) (participant : CStr) (initiator : Bool) :
    lists_scanned (sipe_media_call_init sp participant initiator) :=
  Or.inl ⟨rfl, rfl, rfl⟩

/-- In every reachable endpoint state the remote lists of the session come from
scanned SDP bodies. -/
theorem reachable_lists_scanned (sp : sipe_core_private) (h : reachable sp) :
    slot_holds lists_scanned sp := by
  have hP := lists_scanned_invariant
  induction h with
  | idle sp h => exact slot_holds_of_empty _ sp h
  | initiate_call sp participant _ ih =>
    exact initiate_call_preserves _ hP lists_scanned_init sp participant ih
  | incoming_invite sp sp1 msg _ hstep ih =>
    cases hslot : sp.media_call with
    | none => exact incoming_invite_new_session _ hP lists_scanned_init sp sp1 msg hslot hstep
    | some call => exact incoming_invite_preserves _ hP sp sp1 msg call hslot hstep ih
  | invite_response sp sp1 msg trans r _ hstep ih =>
    exact process_invite_call_response_preserves _ hP sp sp1 msg trans r hstep ih
  | send_ack sp sp1 msg trans r _ hstep ih =>
    exact send_ack_preserves _ hP sp sp1 msg trans r hstep ih
  | candidates_prepared sp sp1 _ hstep ih =>
    exact candidates_prepared_cb_preserves _ hP sp sp1 hstep ih
  | call_accept sp sp1 is_local _ hstep ih =>
    exact call_accept_cb_preserves _ hP sp sp1 is_local hstep ih
  | call_reject sp sp1 is_local _ hstep _ =>
    exact slot_holds_of_empty _ sp1 ((terminal_callbacks_clear_slot sp sp1 is_local).1 hstep)
  | call_hold sp sp1 is_local state _ hstep ih =>
    exact call_hold_cb_preserves _ hP sp sp1 is_local state hstep ih
  | call_hangup sp sp1 is_local _ hstep _ =>
    exact slot_holds_of_empty _ sp1 ((terminal_callbacks_clear_slot sp sp1 is_local).2 hstep)

/-- Whether the codec list follows the attribute set depends on the codec list,
the attribute set, the local codecs and the release mark only. -/
theorem codecs_follow_attrs_frame (c c1 : sipe_media_call_private)
    (h1 : c1.remote_codecs = c.remote_codecs) (h2 : c1.sdp_attrs = c.sdp_attrs)
    (h3 : c1.backend_private.local_codecs = c.backend_private.local_codecs)
    (h4 : c1.freed = c.freed) (h : codecs_follow_attrs c) : codecs_follow_attrs c1 := by
  unfold codecs_follow_attrs encryption_levels_compatible at h ⊢
  rw [h1, h2, h3, h4]
  exact h

/-- After `sipe_media_parse_remote_codecs` has returned `TRUE` the codec list is
the pruned list of the codecs parsed from the attribute set. -/
theorem parse_remote_codecs_follows (c c1 : sipe_media_call_private) (es : List effect)
    (h : sipe_media_parse_remote_codecs c = some (true, c1, es)) : codecs_follow_attrs c1 := by
  obtain ⟨parsed, hparsed, h1 | h1⟩ := parse_remote_codecs_cases c c1 true es h
  · unfold sipe_media_parse_remote_codecs at h
    simp only [hparsed] at h
    split at h
    · simp at h
    · rename_i hne
      subst h1
      simp only [Option.some.injEq, Prod.mk.injEq] at h
      have h2 := congrArg (fun k => k.remote_codecs) h.2.1
      simp only at h2
      exact Or.inr (Or.inl ⟨parsed, hparsed, h2.symm⟩)
  · subst h1
    exact Or.inr (Or.inl ⟨parsed, hparsed, rfl⟩)

/-- The function `sipe_invite_call` keeps the codec list in step. -/
theorem sipe_invite_call_follows (sp sp1 : sipe_core_private) (tc : TransCallback)
    (h : sipe_invite_call sp tc = some sp1) (hinv : slot_holds codecs_follow_attrs sp) :
    slot_holds codecs_follow_attrs sp1 := by
  unfold sipe_invite_call at h
  cases hslot : sp.media_call with
  | none => rw [hslot] at h; cases h
  | some call =>
    rw [hslot] at h
    simp only at h
    cases hd : call.dialog with
    | none => rw [hd] at h; cases h
    | some dialog =>
      rw [hd] at h
      simp only at h
      cases hb : sipe_media_create_sdp sp.local_ip call with
      | none => rw [hb] at h; cases h
      | some body =>
        rw [hb] at h
        simp only [Option.some.injEq] at h
        subst h
        intro c hc
        simp only [Option.some.injEq] at hc
        subst hc
        exact codecs_follow_attrs_frame call _ rfl rfl rfl rfl (hinv call hslot)

/-- The function `send_response_with_session_description` keeps the codec list
in step. -/
theorem send_response_follows (sp sp1 : sipe_core_private) (call : sipe_media_call_private)
    (code : Nat) (text : Str)
    (h : send_response_with_session_description sp call code text = some sp1)
    (hc : codecs_follow_attrs call) : slot_holds codecs_follow_attrs sp1 := by
  unfold send_response_with_session_description at h
  cases hb : sipe_media_create_sdp sp.local_ip call with
  | none => rw [hb] at h; cases h
  | some body =>
    rw [hb] at h
    simp only at h
    cases hi : call.invitation with
    | none => rw [hi] at h; cases h
    | some invitation =>
      rw [hi] at h
      simp only [Option.some.injEq] at h
      subst h
      intro c hc1
      simp only [emit, Option.some.injEq] at hc1
      subst hc1
      exact codecs_follow_attrs_frame call _ rfl rfl rfl rfl hc

/-- The function `handle_incompatible_encryption_level` keeps the codec list in
step. -/
theorem handle_incompatible_follows (sp sp1 : sipe_core_private)
    (call : sipe_media_call_private)
    (h : handle_incompatible_encryption_level sp call = some sp1)
    (hc : codecs_follow_attrs call) : slot_holds codecs_follow_attrs sp1 := by
  unfold handle_incompatible_encryption_level at h
  cases hi : call.invitation with
  | none => rw [hi] at h; cases h
  | some invitation =>
    rw [hi] at h
    simp only [Option.some.injEq] at h
    subst h
    intro c hc1
    simp only [emit, Option.some.injEq] at hc1
    subst hc1
    exact codecs_follow_attrs_frame call _ rfl rfl rfl rfl hc

/-- The function `sipe_media_send_ack` keeps the codec list in step. -/
theorem send_ack_follows (sp sp1 : sipe_core_private) (msg : sipmsg)
    (trans : transaction) (r : Bool)
    (h : sipe_media_send_ack sp msg trans = some (r, sp1))
    (hinv : slot_holds codecs_follow_attrs sp) : slot_holds codecs_follow_attrs sp1 := by
  unfold sipe_media_send_ack at h
  cases hslot : sp.media_call with
  | none =>
    rw [hslot] at h
    simp only [Option.some.injEq, Prod.mk.injEq] at h
    rw [← h.2]; exact hinv
  | some call =>
    rw [hslot] at h
    simp only at h
    cases hd : call.dialog with
    | none =>
      rw [hd] at h
      simp only [Option.some.injEq, Prod.mk.injEq] at h
      rw [← h.2]; exact hinv
    | some dialog =>
      rw [hd] at h
      simp only at h
      cases hk : sscanf_trans_cseq trans.key with
      | none => rw [hk] at h; cases h
      | some v =>
        rw [hk] at h
        simp only [Option.some.injEq, Prod.mk.injEq] at h
        rw [← h.2]
        intro c hc1
        simp only [emit, Option.some.injEq] at hc1
        subst hc1
        exact codecs_follow_attrs_frame call _ rfl rfl rfl rfl (hinv call hslot)

/-- The callback `candidates_prepared_cb` leaves the codec list in step. -/
theorem candidates_prepared_cb_follows (sp sp1 : sipe_core_private)
    (h : candidates_prepared_cb sp = some sp1) (hinv : slot_holds codecs_follow_attrs sp) :
    slot_holds codecs_follow_attrs sp1 := by
  unfold candidates_prepared_cb at h
  cases hslot : sp.media_call with
  | none => rw [hslot] at h; cases h
  | some call =>
    rw [hslot] at h
    simp only at h
    split at h
    · exact sipe_invite_call_follows sp sp1 _ h hinv
    · cases hc : sipe_media_parse_remote_codecs call with
      | none => rw [hc] at h; cases h
      | some res =>
        obtain ⟨ok, call1, es⟩ := res
        rw [hc] at h
        simp only at h
        cases ok with
        | false =>
          simp only [Bool.not_false, if_true, Option.some.injEq] at h
          subst h
          intro c hc1
          simp only [emit, Option.some.injEq] at hc1
          subst hc1
          exact Or.inr (Or.inr (Or.inl rfl))
        | true =>
          have h1 : codecs_follow_attrs call1 := parse_remote_codecs_follows call call1 es hc
          simp only [Bool.not_true, Bool.false_eq_true, if_false] at h
          split at h
          · exact send_response_follows _ sp1 call1 _ _ h h1
          · simp only [Option.some.injEq] at h
            subst h
            intro c hc1
            simp only [emit, Option.some.injEq] at hc1
            subst hc1
            exact h1

/-- The callback `call_accept_cb` keeps the codec list in step. -/
theorem call_accept_cb_follows (sp sp1 : sipe_core_private) (is_local : Bool)
    (h : call_accept_cb sp is_local = some sp1) (hinv : slot_holds codecs_follow_attrs sp) :
    slot_holds codecs_follow_attrs sp1 := by
  unfold call_accept_cb at h
  cases hslot : sp.media_call with
  | none => rw [hslot] at h; cases h
  | some call =>
    rw [hslot] at h
    simp only at h
    split at h
    · split at h
      · exact handle_incompatible_follows sp sp1 call h (hinv call hslot)
      · exact send_response_follows sp sp1 call _ _ h (hinv call hslot)
    · simp only [Option.some.injEq] at h
      subst h; exact hinv

/-- The callback `call_hold_cb` keeps the codec list in step. -/
theorem call_hold_cb_follows (sp sp1 : sipe_core_private) (is_local state : Bool)
    (h : call_hold_cb sp is_local state = some sp1) (hinv : slot_holds codecs_follow_attrs sp) :
    slot_holds codecs_follow_attrs sp1 := by
  unfold call_hold_cb at h
  cases hslot : sp.media_call with
  | none => rw [hslot] at h; cases h
  | some call =>
    rw [hslot] at h
    simp only at h
    have hc := hinv call hslot
    split at h
    · refine sipe_invite_call_follows _ sp1 _ h ?_
      intro c hc1
      simp only [Option.some.injEq] at hc1
      subst hc1
      exact codecs_follow_attrs_frame call _ rfl rfl rfl rfl hc
    · split at h
      · exact send_response_follows sp sp1 _ _ _ h
          (codecs_follow_attrs_frame call _ rfl rfl rfl rfl hc)
      · simp only [Option.some.injEq] at h
        subst h; exact hinv

/-- The function `sipe_media_incoming_invite`, given an endpoint with an active
call, leaves the codec list in step: the new offer is rejected because it
requires encryption, or the session is released, or the codecs of the new offer
have been stored. -/
theorem incoming_invite_follows (sp sp1 : sipe_core_private) (msg : sipmsg)
    (call : sipe_media_call_private) (hslot : sp.media_call = some call)
    (h : sipe_media_incoming_invite sp msg = some sp1)
    (hinv : slot_holds codecs_follow_attrs sp) : slot_holds codecs_follow_attrs sp1 := by
  unfold sipe_media_incoming_invite at h
  rw [hslot] at h
  simp only at h
  cases hd : call.dialog with
  | none => rw [hd] at h; cases h
  | some dialog =>
    rw [hd] at h
    simp only at h
    split at h
    · split at h
      · cases h
      · rename_i ok call2 hs
        split at h
        · rename_i hgate
          refine handle_incompatible_follows sp sp1 call2 h (Or.inr (Or.inr (Or.inr ?_)))
          simpa using hgate
        · cases hp : sipe_media_parse_remote_codecs call2 with
          | none => rw [hp] at h; cases h
          | some res3 =>
            obtain ⟨ok3, call3, es⟩ := res3
            rw [hp] at h
            simp only at h
            cases ok3 with
            | false =>
              simp only [Bool.not_false, if_true, Option.some.injEq] at h
              subst h
              intro c hcc
              simp only [emit, Option.some.injEq] at hcc
              subst hcc
              exact Or.inr (Or.inr (Or.inl rfl))
            | true =>
              have hc3 : codecs_follow_attrs call3 :=
                parse_remote_codecs_follows call2 call3 es hp
              simp only [Bool.not_true, Bool.false_eq_true, if_false] at h
              split at h
              · simp only [Option.some.injEq] at h
                subst h
                intro c hcc
                simp only [emit, Option.some.injEq] at hcc
                subst hcc
                exact hc3
              · split at h
                · simp only [Option.some.injEq] at h
                  subst h
                  intro c hcc
                  simp only [emit, Option.some.injEq] at hcc
                  subst hcc
                  exact hc3
                · split at h
                  · simp only [Option.some.injEq] at h
                    subst h
                    intro c hcc
                    simp only [emit, Option.some.injEq] at hcc
                    subst hcc
                    exact hc3
                  · exact send_response_follows _ sp1 call3 _ _ h hc3
    · simp only [Option.some.injEq] at h
      subst h
      intro c hcc
      simp only [emit] at hcc
      exact hinv c hcc

/-- A session that `sipe_media_incoming_invite` creates has no remote codec. -/
theorem incoming_invite_new_follows (sp sp1 : sipe_core_private) (msg : sipmsg)
    (hslot : sp.media_call = none)
    (h : sipe_media_incoming_invite sp msg = some sp1) :
    slot_holds codecs_follow_attrs sp1 := by
  unfold sipe_media_incoming_invite at h
  rw [hslot] at h
  simp only at h
  split at h
  · cases h
  · rename_i ok call1 hs
    simp only [Option.some.injEq] at h
    subst h
    intro c hcc
    simp only [emit, Option.some.injEq] at hcc
    subst hcc
    obtain ⟨_, _, _, _, _, _, _, _, hcodecs, _⟩ := parse_sdp_cases _ call1 _ ok hs
    exact Or.inl hcodecs

/-- A session that `sipe_core_media_initiate_call` creates has no remote codec;
an active call is left alone. -/
theorem initiate_call_follows (sp : sipe_core_private) (participant : CStr)
    (hinv : slot_holds codecs_follow_attrs sp) :
    slot_holds codecs_follow_attrs (sipe_core_media_initiate_call sp participant) := by
  unfold sipe_core_media_initiate_call
  cases hslot : sp.media_call with
  | some call => simp only; exact hinv
  | none =>
    simp only
    intro c hcc
    simp only [emit, Option.some.injEq] at hcc
    subst hcc
    exact Or.inl rfl

/-- The transaction callback `process_invite_call_response` leaves the codec
list in step: a body that cannot be scanned changes nothing, and after a scanned
body the codecs of the response have been stored or the session is released. -/
theorem process_invite_call_response_follows (sp sp1 : sipe_core_private) (msg : sipmsg)
    (trans : transaction) (r : Bool)
    (h : process_invite_call_response sp msg trans = some (r, sp1))
    (hinv : slot_holds codecs_follow_attrs sp) : slot_holds codecs_follow_attrs sp1 := by
  unfold process_invite_call_response at h
  cases hslot : sp.media_call with
  | none =>
    rw [hslot] at h
    simp only [Option.some.injEq, Prod.mk.injEq] at h
    rw [← h.2]; exact hinv
  | some call =>
    rw [hslot] at h
    simp only at h
    have hc := hinv call hslot
    split at h
    · cases h
    · rename_i dialog hd
      split at h
      · simp only [Option.some.injEq, Prod.mk.injEq] at h
        rw [← h.2]; exact hinv
      · have hc0 : codecs_follow_attrs
            { call with dialog := some { dialog with outgoing_invite := none } } :=
          codecs_follow_attrs_frame call _ rfl rfl rfl rfl hc
        split at h
        · split at h
          · cases h
          · rename_i b spa hack
            simp only [Option.some.injEq, Prod.mk.injEq] at h
            rw [← h.2]
            have hs := send_ack_follows _ spa msg trans b hack (by
              intro c hcc
              simp only [emit, Option.some.injEq] at hcc
              subst hcc
              exact hc0)
            intro c hcc
            exact hs c hcc
        · split at h
          · cases h
          · rename_i call1 hs1
            simp only [Option.some.injEq, Prod.mk.injEq] at h
            rw [← h.2]
            intro c hcc
            simp only [Option.some.injEq] at hcc
            subst hcc
            rw [failed_parse_keeps_session _ _ _ hs1]
            exact codecs_follow_attrs_frame _ _ rfl rfl rfl rfl hc0
          · rename_i call1 hs1
            split at h
            · cases h
            · rename_i call2 es hp2
              simp only [Option.some.injEq, Prod.mk.injEq] at h
              rw [← h.2]
              intro c hcc
              simp only [emit, Option.some.injEq] at hcc
              subst hcc
              exact Or.inr (Or.inr (Or.inl rfl))
            · rename_i call2 es hp2
              have hc2 : codecs_follow_attrs call2 :=
                parse_remote_codecs_follows call1 call2 es hp2
              split at h
              · simp only [Option.some.injEq, Prod.mk.injEq] at h
                rw [← h.2]
                intro c hcc
                simp only [emit, Option.some.injEq] at hcc
                subst hcc
                exact hc2
              · split at h
                · cases h
                · rename_i b sp3 hack
                  have hs3 : slot_holds codecs_follow_attrs sp3 := by
                    refine send_ack_follows _ sp3 msg trans b hack ?_
                    intro c hcc
                    simp only [emit, Option.some.injEq] at hcc
                    subst hcc
                    exact hc2
                  split at h
                  · cases h
                  · rename_i call3 hm3
                    have hc3 : codecs_follow_attrs call3 := hs3 call3 hm3
                    split at h
                    · have hc4 : codecs_follow_attrs { call3 with
                          using_nice := false,
                          backend_private := sipe_backend_media_remove_stream
                            (sipe_backend_media_add_stream call3.backend_private dialog.with_
                              false true).2 call3.voice_stream,
                          voice_stream := some (sipe_backend_media_add_stream
                            call3.backend_private dialog.with_ false true).1 } :=
                        codecs_follow_attrs_frame call3 _ rfl rfl
                          ((remove_stream_local_codecs _ _).trans rfl) rfl hc3
                      split at h
                      · cases h
                      · rename_i call5 hs5
                        simp only [Option.some.injEq, Prod.mk.injEq] at h
                        rw [← h.2]
                        intro c hcc
                        simp only [Option.some.injEq] at hcc
                        subst hcc
                        rw [failed_parse_keeps_session _ _ _ hs5]
                        exact codecs_follow_attrs_frame _ _ rfl rfl rfl rfl hc4
                      · rename_i call5 hs5
                        split at h
                        · cases h
                        · rename_i call6 es6 hp6
                          simp only [Option.some.injEq, Prod.mk.injEq] at h
                          rw [← h.2]
                          intro c hcc
                          simp only [emit, Option.some.injEq] at hcc
                          subst hcc
                          exact Or.inr (Or.inr (Or.inl rfl))
                        · rename_i call6 es6 hp6
                          simp only [Option.some.injEq, Prod.mk.injEq] at h
                          rw [← h.2]
                          intro c hcc
                          simp only [emit, Option.some.injEq] at hcc
                          subst hcc
                          exact parse_remote_codecs_follows call5 call6 es6 hp6
                    · split at h
                      · cases h
                      · rename_i sp5 hinv5
                        simp only [Option.some.injEq, Prod.mk.injEq] at h
                        rw [← h.2]
                        exact sipe_invite_call_follows sp3 sp5 _ hinv5 hs3

/-- In every reachable endpoint state the remote codec list follows the
attribute set of the session. -/
theorem reachable_codecs_follow_attrs (sp : sipe_core_private) (h : reachable sp) :
    slot_holds codecs_follow_attrs sp := by
  induction h with
  | idle sp h => exact slot_holds_of_empty _ sp h
  | initiate_call sp participant _ ih => exact initiate_call_follows sp participant ih
  | incoming_invite sp sp1 msg _ hstep ih =>
    cases hslot : sp.media_call with
    | none => exact incoming_invite_new_follows sp sp1 msg hslot hstep
    | some call => exact incoming_invite_follows sp sp1 msg call hslot hstep ih
  | invite_response sp sp1 msg trans r _ hstep ih =>
    exact process_invite_call_response_follows sp sp1 msg trans r hstep ih
  | send_ack sp sp1 msg trans r _ hstep ih =>
    exact send_ack_follows sp sp1 msg trans r hstep ih
  | candidates_prepared sp sp1 _ hstep ih =>
    exact candidates_prepared_cb_follows sp sp1 hstep ih
  | call_accept sp sp1 is_local _ hstep ih =>
    exact call_accept_cb_follows sp sp1 is_local hstep ih
  | call_reject sp sp1 is_local _ hstep _ =>
    exact slot_holds_of_empty _ sp1 ((terminal_callbacks_clear_slot sp sp1 is_local).1 hstep)
  | call_hold sp sp1 is_local state _ hstep ih =>
    exact call_hold_cb_follows sp sp1 is_local state hstep ih
  | call_hangup sp sp1 is_local _ hstep _ =>
    exact slot_holds_of_empty _ sp1 ((terminal_callbacks_clear_slot sp sp1 is_local).2 hstep)

/-- C14 (amended): in every endpoint state reachable through the handlers
(observed after each handler returns), either the session has stored nothing yet
and its remote candidate list, remote codec list and attribute set are empty, or
there is an SDP body that scans without error such that the candidate list,
which is not empty, is what the scan of that body yields (its candidate
attributes, or the two legacy candidates of its `o=` and `m=` lines), the
attribute set of the session is the one of that body or has been released, and
the codec list is empty (the codecs are stored by a later step), or is the
pruned list of the codecs parsed from the attributes of that same body, or, only
in a session that has been released or whose attribute set requires encryption,
is the pruned list of the codecs parsed from the attributes of a scanned body. -/
theorem remote_lists_from_scanned_sdp (sp : sipe_core_private) (h : reachable sp) :
    slot_holds lists_from_sdp sp := by
  intro c hc
  have hM := reachable_lists_scanned sp h c hc
  have hQ := reachable_codecs_follow_attrs sp h c hc
  rcases hM with hempty | ⟨frame, st, hscan, hcands, hattrs, hcodecs⟩
  · exact Or.inl hempty
  · refine Or.inr ⟨frame, st, hscan, hcands, scan_candidates_ne_nil st _ hcands, hattrs, ?_⟩
    rcases hQ with h1 | ⟨parsed, hparsed, hprune⟩ | h3
    · exact Or.inl h1
    · rcases hattrs with he | he
      · rw [he] at hparsed
        exact Or.inr (Or.inl ⟨parsed, hparsed, hprune⟩)
      · rw [he] at hparsed
        have : parsed = [] := (Option.some.inj hparsed).symm
        rw [this] at hprune
        exact Or.inl hprune
    · rcases hcodecs with h1 | h2
      · exact Or.inl h1
      · exact Or.inr (Or.inr ⟨h3, h2⟩)

/-- The answered sample endpoint is reachable. -/
theorem sample_answered_reachable : reachable sample_answered_endpoint :=
  reachable.candidates_prepared _ _
    (reachable.incoming_invite (sample_endpoint none) _
      { sample_invite with body := some sample_ice_sdp } (reachable.idle _ rfl) rfl) rfl

/-- C14 (counterexample): three reachable states. After the inbound INVITE
`sample_invite` the ringing session has two remote candidates and no remote
codec: the lists are neither both empty nor both populated. After the scenario
offer has been answered, a further INVITE of the same call whose body offers
only PCMA from another address and requires encryption is rejected with 488: the
session, not released, holds the candidate and the attribute set of that last
body, but still the codec PCMU of the first offer, while the codecs of the last
body prune to the empty list. The same further INVITE without the encryption
attribute shares no codec: the session is released with the candidate of the
last body and the codec of the first one. -/
theorem remote_lists_not_replaced_together :
    (reachable sample_ringing_endpoint
      ∧ ∃ c, sample_ringing_endpoint.media_call = some c
          ∧ c.remote_candidates.length = 2 ∧ c.remote_codecs = []
          ∧ ¬ ((c.remote_candidates ≠ [] ∧ c.remote_codecs ≠ [])
                ∨ (c.remote_candidates = [] ∧ c.remote_codecs = [])))
    ∧ (reachable (sample_reoffered_endpoint sample_required_offer_sdp)
      ∧ scanned_body sample_required_offer_sdp sample_required_offer_scan
      ∧ ∃ c, (sample_reoffered_endpoint sample_required_offer_sdp).media_call = some c
          ∧ c.freed = false
          ∧ c.sdp_attrs = sample_required_offer_scan.sdp_attrs
          ∧ scan_candidates sample_required_offer_scan = some c.remote_candidates
          ∧ c.remote_candidates = [sample_second_candidate]
          ∧ c.remote_codecs = [sample_pcmu]
          ∧ (sipe_media_parse_codecs sample_required_offer_scan.sdp_attrs).map
              (sipe_media_prune_remote_codecs c.backend_private.local_codecs) = some [])
    ∧ (reachable (sample_reoffered_endpoint sample_unshared_offer_sdp)
      ∧ scanned_body sample_unshared_offer_sdp sample_unshared_offer_scan
      ∧ ∃ c, (sample_reoffered_endpoint sample_unshared_offer_sdp).media_call = some c
          ∧ c.freed = true
          ∧ c.sdp_attrs = sample_unshared_offer_scan.sdp_attrs
          ∧ scan_candidates sample_unshared_offer_scan = some c.remote_candidates
          ∧ c.remote_candidates = [sample_second_candidate]
          ∧ c.remote_codecs = [sample_pcmu]
          ∧ (sipe_media_parse_codecs sample_unshared_offer_scan.sdp_attrs).map
              (sipe_media_prune_remote_codecs c.backend_private.local_codecs) = some []) := by
  refine ⟨⟨reachable.incoming_invite (sample_endpoint none) _ sample_invite
      (reachable.idle _ rfl) rfl,
    sample_ringing_endpoint.media_call.getD sample_call, rfl, rfl, rfl, ?_⟩,
    ⟨reachable.incoming_invite sample_answered_endpoint _
        { sample_invite with body := some sample_required_offer_sdp }
        sample_answered_reachable rfl, ⟨rfl, rfl⟩,
      (sample_reoffered_endpoint sample_required_offer_sdp).media_call.getD sample_call,
      rfl, rfl, rfl, rfl, rfl, rfl, rfl⟩,
    ⟨reachable.incoming_invite sample_answered_endpoint _
        { sample_invite with body := some sample_unshared_offer_sdp }
        sample_answered_reachable rfl, ⟨rfl, rfl⟩,
      (sample_reoffered_endpoint sample_unshared_offer_sdp).media_call.getD sample_call,
      rfl, rfl, rfl, rfl, rfl, rfl, rfl⟩⟩
  intro h
  rcases h with ⟨_, h2⟩ | ⟨h1, _⟩
  · exact h2 rfl
  · have hlen : (sample_ringing_endpoint.media_call.getD sample_call).remote_candidates.length
        = 2 := rfl
    rw [h1] at hlen
    cases hlen

/-- C14 (amended) on the sample endpoint whose last offer was rejected for its
encryption level: the candidate and the attribute set are those of the last
body, the codec list is the one pruned from the first offer. -/
theorem remote_lists_from_scanned_sdp_witness :
    reachable (sample_reoffered_endpoint sample_required_offer_sdp)
      ∧ slot_holds lists_from_sdp (sample_reoffered_endpoint sample_required_offer_sdp) :=
  ⟨reachable.incoming_invite sample_answered_endpoint _
      { sample_invite with body := some sample_required_offer_sdp }
      sample_answered_reachable rfl,
    remote_lists_from_scanned_sdp (sample_reoffered_endpoint sample_required_offer_sdp)
      (reachable.incoming_invite sample_answered_endpoint _
        { sample_invite with body := some sample_required_offer_sdp }
        sample_answered_reachable rfl)⟩

end Sipe
